import Mathlib

/-!
# Time-stepping orchestrator and obstacle motion resolver

A shallow embedding of `src/simulation.cpp`, `src/obstacle.cpp` and
`src/runphysics.cpp`.

Conventions of the embedding:

* `double` values are exact rationals (`ℚ`), so rounding, infinities and NaN are
  not represented; `int` values are unbounded integers (`Int`), so wrap-around of
  the counters is not represented.
* A mesh is the list of its nodes; of a node only the fields the orchestrator
  itself reads or writes are carried.  Derived per-face data is not carried.
* External solvers, whose sources are not part of the orchestrator, are the
  fields of `Ext`; every call of one is recorded in the `ops` log of the state.
* `exit` and `abort` are the `Outcome.exited` result, which carries the state
  at the moment the process ends.
-/

namespace Arcsim

/-! ## Values -/

/-- A three-dimensional vector of the simulation (`Vec3`). -/
abbrev Vec3 := ℚ × ℚ × ℚ

/-- A pair of strain limits (`Vec2`). -/
abbrev Vec2 := ℚ × ℚ

/-- A 3x3 matrix, by rows (`Mat3x3`). -/
abbrev Mat3x3 := Vec3 × Vec3 × Vec3

/-- An owned constraint object, identified by the address it was allocated at. -/
abbrev Constraint := Nat

/-- A mesh node: current position `x`, rest baseline `x0`, velocity `v`,
`acceleration`, and the `preserve` mark that protects it from remeshing. -/
structure Node where
  x : Vec3
  x0 : Vec3
  v : Vec3
  acceleration : Vec3
  preserve : Bool
deriving DecidableEq, Repr

/-- A mesh, seen through its nodes. -/
structure Mesh where
  nodes : List Node
deriving DecidableEq, Repr

/-- Modelled from the spec: `delete_mesh` (mesh.cpp is not among the sources)
releases all storage of a mesh, which leaves it empty. -/
def delete_mesh (_m : Mesh) : Mesh := { nodes := [] }

/-- Modelled from the spec: `deep_copy` (mesh.cpp is not among the sources)
yields a new mesh with the same contents. -/
def deep_copy (m : Mesh) : Mesh := { nodes := m.nodes }

/-- Modelled from the spec: `update_x0` (mesh.cpp is not among the sources)
records the current position of every node as its rest baseline `x0`. -/
def update_x0 (m : Mesh) : Mesh :=
  { nodes := m.nodes.map fun n => { n with x0 := n.x } }

/-- A mesh whose storage is released. -/
def Mesh.released (m : Mesh) : Prop := m.nodes = []

instance (m : Mesh) : Decidable m.released := by
  unfold Mesh.released; infer_instance

/-- A rigid transformation, seen through its action on points and the action
of its inverse. -/
structure Transformation where
  apply : Vec3 → Vec3
  unapply : Vec3 → Vec3

/-- The identity transformation (`identity()`). -/
def identity : Transformation := { apply := id, unapply := id }

/-- The inverse transformation (`inverse`). -/
def inverse (t : Transformation) : Transformation :=
  { apply := t.unapply, unapply := t.apply }

/-- The product of two transformations (`operator*`): apply `b`, then `a`. -/
def Transformation.mul (a b : Transformation) : Transformation :=
  { apply := fun p => a.apply (b.apply p), unapply := fun p => b.unapply (a.unapply p) }

/-- A transformation with its time derivative: `apply_dtrans` yields the image
of a point, and the velocity of that image. -/
structure DTransformation where
  first : Transformation
  apply_dtrans : Vec3 → Vec3 × Vec3

/-- A motion curve (`Motion`), seen through its two evaluations at a time. -/
structure Motion where
  get_trans : ℚ → Transformation
  get_dtrans : ℚ → DTransformation

/-! ## Formatting -/

/-- The decimal digits of `n`, padded on the left with zeros to `width`. -/
def zero_pad (width : Nat) (n : Nat) : String :=
  String.mk (List.replicate (width - (Nat.repr n).length) '0') ++ Nat.repr n

/-- The conversion `%0<width>d` of `stringf`: a sign counts for the width. -/
def fmt_0d (width : Nat) (d : Int) : String :=
  if d < 0 then "-" ++ zero_pad (width - 1) d.natAbs else zero_pad width d.natAbs

/-! ## Outcomes -/

/-- The result of running code that may end the process: it either returns
with a state, or the process ends with an exit status in a state. -/
inductive Outcome (σ : Type) where
  | ret (s : σ)
  | exited (status : Int) (s : σ)

/-- Sequencing: what follows runs only if the first part returned. -/
def Outcome.bind {σ τ : Type} (o : Outcome σ) (lift : σ → τ) (f : σ → Outcome τ) : Outcome τ :=
  match o with
  | .ret s => f s
  | .exited c s => .exited c (lift s)

/-- The status `EXIT_SUCCESS`. -/
def EXIT_SUCCESS : Int := 0

/-- The status `EXIT_FAILURE`. -/
def EXIT_FAILURE : Int := 1

/-- The status reported for a process ended by `abort()` (SIGABRT). -/
def ABORTED : Int := 134

/-! ## Obstacles (obstacle.cpp) -/

/-- An obstacle: four mesh slots, the validity window, the activation flag,
the index of the last keyframe loaded, the optional motion curve and the
directory of the keyframe files. -/
structure Obstacle where
  base_mesh : Mesh
  curr_state_mesh : Mesh
  next_state_mesh : Mesh
  cache_mesh : Mesh
  start_time : ℚ
  end_time : ℚ
  activated : Bool
  curr_frame : Int
  transform_spline : Option Motion
  base_path : String

/-- The four `delete_mesh` calls on the slots of an obstacle. -/
def Obstacle.delete_meshes (ob : Obstacle) : Obstacle :=
  { ob with
    base_mesh := delete_mesh ob.base_mesh
    curr_state_mesh := delete_mesh ob.curr_state_mesh
    next_state_mesh := delete_mesh ob.next_state_mesh
    cache_mesh := delete_mesh ob.cache_mesh }

/-- All mesh storage of the obstacle is released. -/
def Obstacle.all_released (ob : Obstacle) : Prop :=
  ob.base_mesh.released ∧ ob.curr_state_mesh.released ∧
    ob.next_state_mesh.released ∧ ob.cache_mesh.released

instance (ob : Obstacle) : Decidable ob.all_released := by
  unfold Obstacle.all_released; infer_instance

/-- `Obstacle::get_mesh()`: the mesh exposed to the rest of the simulation. -/
def Obstacle.get_mesh (ob : Obstacle) : Mesh := ob.curr_state_mesh

/-- The loop of `get_mesh(double)` over the nodes of `curr_state_mesh`: node `n`
gets the image and velocity of the position of node `n` of `base_mesh`.  Reading
past the end of `base_mesh.nodes` is undefined in the source; the model leaves
the remaining nodes as they are. -/
def apply_spline (d : DTransformation) : List Node → List Node → List Node
  | [], _ => []
  | c :: cs, [] => c :: cs
  | c :: cs, b :: bs =>
    { c with x := (d.apply_dtrans b.x).1, v := (d.apply_dtrans b.x).2 } :: apply_spline d cs bs

/-- `Obstacle::get_mesh(double time)`; the mesh it returns is `curr_state_mesh`
of the resulting obstacle. -/
def Obstacle.get_mesh_at (ob : Obstacle) (time : ℚ) : Obstacle :=
  let ob := if time > ob.end_time then ob.delete_meshes else ob
  if time < ob.start_time ∨ time > ob.end_time then ob
  else
    let was_activated := ob.activated
    let ob := if !was_activated then
        { ob with curr_state_mesh := deep_copy ob.base_mesh, curr_frame := -1 }
      else ob
    let ob := match ob.transform_spline with
      | some spline =>
        { ob with curr_state_mesh :=
            { nodes := apply_spline (spline.get_dtrans time)
                ob.curr_state_mesh.nodes ob.base_mesh.nodes } }
      | none => ob
    let ob := if !was_activated then
        { ob with curr_state_mesh := update_x0 ob.curr_state_mesh }
      else ob
    { ob with activated := true }

/-- The keyframe files: a path that cannot be opened for reading gives `none`,
one that can gives the geometry `load_obj` reads from it. -/
abbrev KeyframeFiles := String → Option Mesh

/-- `Obstacle::get_mesh(double time, int frame)`; the mesh it returns is
`curr_state_mesh` of the resulting obstacle.  A keyframe file that cannot be
opened ends the process with status 1. -/
def Obstacle.get_mesh_at_frame (files : KeyframeFiles) (ob : Obstacle) (time : ℚ)
    (frame : Int) : Outcome Obstacle :=
  let ob := if time > ob.end_time then ob.delete_meshes else ob
  if time < ob.start_time ∨ time > ob.end_time then .ret ob
  else if !ob.activated then
    .ret { ob with
      curr_state_mesh := update_x0 (deep_copy ob.base_mesh)
      curr_frame := -1
      activated := true }
  else if frame > ob.curr_frame then
    let ob := { ob with curr_frame := frame }
    let next_state_mesh_path := ob.base_path ++ ("body" ++ fmt_0d 4 frame ++ ".obj")
    match files next_state_mesh_path with
    | none => .exited 1 ob.delete_meshes
    | some loaded =>
      .ret { ob with
        cache_mesh := deep_copy ob.curr_state_mesh
        next_state_mesh := loaded }
  else .ret ob

/-- `Obstacle::blend_with_previous`. -/
def Obstacle.blend_with_previous (ob : Obstacle) (t dt blend : ℚ) : Obstacle :=
  let trans := match ob.transform_spline with
    | some spline => (spline.get_trans t).mul (inverse (spline.get_trans (t - dt)))
    | none => identity
  { ob with curr_state_mesh :=
      { nodes := ob.curr_state_mesh.nodes.map fun node =>
          let x0 := trans.apply node.x0
          { node with x := x0 + blend • (node.x - x0) } } }

/-- The loop of `blend_with_next` over the nodes of `curr_state_mesh`.  Reading
past the end of the nodes of `next_state_mesh` or `cache_mesh` is undefined in
the source; the model leaves the remaining nodes as they are. -/
def blend_nodes (blend : ℚ) : List Node → List Node → List Node → List Node
  | c :: cs, n :: ns, k :: ks => { c with x := c.x + blend • (n.x - k.x) } :: blend_nodes blend cs ns ks
  | cs, _, _ => cs

/-- `Obstacle::blend_with_next`. -/
def Obstacle.blend_with_next (ob : Obstacle) (blend : ℚ) : Obstacle :=
  { ob with curr_state_mesh :=
      { nodes := blend_nodes blend ob.curr_state_mesh.nodes
          ob.next_state_mesh.nodes ob.cache_mesh.nodes } }

/-! ## The simulation aggregate -/

/-- The stages with an enable flag and a timer (`Simulation::Proximity`, ...). -/
inductive Module where
  | Proximity
  | Physics
  | StrainLimiting
  | Collision
  | Remeshing
  | Separation
  | PopFilter
  | Plasticity
deriving DecidableEq, Repr

/-- The operations of the external solvers the orchestrator calls. -/
inductive Solver where
  | proximity_constraints
  | add_external_forces
  | add_morph_forces
  | implicit_update
  | plastic_update
  | optimize_plastic_embedding
  | strain_limiting
  | collision_response
  | back_up_residuals
  | static_remesh
  | nearest_obstacle_planes
  | dynamic_remesh
  | restore_residuals
  | separate
  | apply_pop_filter
  | reset_plasticity
  | compute_masses
  | separate_obstacles
deriving DecidableEq, Repr

/-- One entry of the log of timer operations, solver calls and releases of
constraint sets, in the order the code performs them. -/
inductive Op where
  | tick (m : Module)
  | tock (m : Module)
  | solver (f : Solver)
  | delete_constraints (cons : List Constraint)
deriving DecidableEq, Repr

/-- One statement of the body of `advance_step`, as recorded in the trace. -/
inductive Call where
  | advance_clock
  | update_obstacles (update_positions : Bool)
  | get_constraints (include_proximity : Bool) (result : List Constraint)
  | physics_step (cons : List Constraint)
  | plasticity_step
  | strainlimiting_step (cons : List Constraint)
  | collision_step
  | remeshing_step
  | counter_update
  | delete_constraints (cons : List Constraint)
deriving DecidableEq, Repr

/-- The global `magic` parameters the orchestrator reads or writes. -/
structure Magic where
  preserve_creases : Bool
  fixed_high_res_mesh : Bool
deriving DecidableEq, Repr

/-- A cloth: its mesh, and an encoding of its remaining fields (materials,
remeshing parameters), which the orchestrator never inspects. -/
structure Cloth where
  mesh : Mesh
  rest : Nat
deriving DecidableEq, Repr

/-- A handle: the constraints it contributes at a time, and the nodes it
constrains. -/
structure Handle where
  get_constraints : ℚ → List Constraint
  get_nodes : List Node

/-- A morph: the index of the cloth whose mesh it targets, and an encoding of
its data. -/
structure Morph where
  mesh : Nat
  data : Nat
deriving DecidableEq, Repr

/-- The wind parameters. -/
structure Wind where
  density : ℚ
  velocity : Vec3
  drag : ℚ
deriving DecidableEq, Repr

/-- The external force accumulators `fext` and `Jext` of one cloth. -/
structure Forces where
  fext : List Vec3
  Jext : List Mat3x3
deriving DecidableEq, Repr

/-- A plasticity residual, by an encoding. -/
abbrev Residual := Nat

/-- A plane, by a point and a normal. -/
abbrev Plane := Vec3 × Vec3

/-- The clock state and the regime parameters of the simulation. -/
structure Clock where
  time : ℚ
  step : Int
  frame : Int
  frame_steps : Int
  init_frame_steps : Int
  init_wait_frames : Int
  frame_time : ℚ
  step_time : ℚ
deriving DecidableEq, Repr

/-- The root aggregate.  `cloth_meshes[c]` is `cloths[c].mesh` and
`obstacle_meshes[o]` is `obstacles[o].curr_state_mesh`, as `prepare` sets the
pointers up.  `timers` holds the running total of each timer; `trace` and `ops`
are the logs of the embedding. -/
structure Simulation extends Clock where
  end_time : ℚ
  end_frame : ℚ
  non_rigid : Bool
  enabled : Module → Bool
  cloths : List Cloth
  obstacles : List Obstacle
  handles : List Handle
  morphs : List Morph
  gravity : Vec3
  wind : Wind
  friction : ℚ
  obs_friction : ℚ
  magic : Magic
  timers : Module → ℚ
  trace : List Call
  ops : List Op

/-- The external collaborators: the solvers, the keyframe files on disk, the
time a timer measures between a `tick` and the `tock` that follows it (which
may depend on everything done so far), the scene loader (`none` for a scene
file that cannot be loaded), the cloth geometry loader, whether the timing
file can be opened, and the constant `DEFAULT_NUM_FRAMES` of the header. -/
structure Ext where
  proximity_constraints : List Mesh → List Mesh → ℚ → ℚ → List Constraint
  add_external_forces : Cloth → Vec3 → Wind → Forces → Forces
  add_morph_forces : Cloth → Morph → ℚ → ℚ → Forces → Forces
  implicit_update : Cloth → Forces → List Constraint → ℚ → Bool → Cloth
  plastic_update : Cloth → Cloth
  optimize_plastic_embedding : Cloth → Cloth
  get_strain_limits : List Cloth → List Vec2
  strain_limiting : List Mesh → List Vec2 → List Constraint → List Mesh
  collision_response : List Mesh → List Constraint → List Mesh → List Mesh
  back_up_residuals : Mesh → List Residual
  static_remesh : Cloth → Cloth
  nearest_obstacle_planes : Mesh → List Mesh → List Plane
  dynamic_remesh : Cloth → List Plane → Bool → Cloth
  restore_residuals : Mesh → Mesh → List Residual → Mesh
  separate : List Mesh → List Mesh → List Mesh → List Mesh
  apply_pop_filter : Cloth → List Constraint → Option ℚ → Cloth
  reset_plasticity : Cloth → Cloth
  compute_masses : Cloth → Cloth
  separate_obstacles : List Mesh → List Mesh → List Mesh
  keyframes : KeyframeFiles
  elapsed : List Op → ℚ
  load_json : String → Option Simulation
  load_objs : List Mesh → String → List Mesh
  timingfile_opens : String → Bool
  DEFAULT_NUM_FRAMES : Int

/-- The vector `sim.cloth_meshes`. -/
def Simulation.cloth_meshes (sim : Simulation) : List Mesh :=
  sim.cloths.map fun c => c.mesh

/-- The vector `sim.obstacle_meshes`. -/
def Simulation.obstacle_meshes (sim : Simulation) : List Mesh :=
  sim.obstacles.map fun o => o.curr_state_mesh

/-- Writing through the pointers `cloth_meshes[c]`: the meshes of the cloths
become the given ones, position by position. -/
def set_cloth_meshes : List Cloth → List Mesh → List Cloth
  | c :: cs, m :: ms => { c with mesh := m } :: set_cloth_meshes cs ms
  | cs, _ => cs

/-- Writing through the pointers `obstacle_meshes[o]`: the current-state meshes
of the obstacles become the given ones, position by position. -/
def set_obstacle_meshes : List Obstacle → List Mesh → List Obstacle
  | o :: os, m :: ms => { o with curr_state_mesh := m } :: set_obstacle_meshes os ms
  | os, _ => os

/-- The call `sim.timers[m].tick()`. -/
def Simulation.tick (sim : Simulation) (m : Module) : Simulation :=
  { sim with ops := sim.ops ++ [Op.tick m] }

/-- The call `sim.timers[m].tock()`: the time elapsed is added to the total. -/
def Simulation.tock (E : Ext) (sim : Simulation) (m : Module) : Simulation :=
  { sim with
    timers := fun i => if i = m then sim.timers i + E.elapsed sim.ops else sim.timers i
    ops := sim.ops ++ [Op.tock m] }

/-- A call of an external solver operation, entered in the log. -/
def Simulation.called (sim : Simulation) (f : Solver) : Simulation :=
  { sim with ops := sim.ops ++ [Op.solver f] }

/-- A loop `for (c = 0; c < sim.cloths.size(); c++)` whose body works on cloth
`c` alone: the new cloths, and the operations logged, in order. -/
def for_cloths (body : Nat → Cloth → Cloth × List Op) : Nat → List Cloth → List Cloth × List Op
  | _, [] => ([], [])
  | c, cloth :: cloths =>
    ((body c cloth).1 :: (for_cloths body (c + 1) cloths).1,
      (body c cloth).2 ++ (for_cloths body (c + 1) cloths).2)

/-- Runs a loop over the cloths of the simulation. -/
def Simulation.each_cloth (sim : Simulation) (body : Nat → Cloth → Cloth × List Op) : Simulation :=
  { sim with
    cloths := (for_cloths body 0 sim.cloths).1
    ops := sim.ops ++ (for_cloths body 0 sim.cloths).2 }

/-! ## Constraint lifecycle (simulation.cpp) -/

/-- The function `get_constraints`: the constraints of every handle, in handle
order, then those of the proximity pass when it is requested and enabled.  The
second component is the simulation with its timers and log updated. -/
def get_constraints (E : Ext) (sim : Simulation) (include_proximity : Bool) :
    List Constraint × Simulation :=
  let cons := sim.handles.foldl (fun cons h => cons ++ h.get_constraints sim.time) []
  if include_proximity && sim.enabled Module.Proximity then
    let sim := sim.tick Module.Proximity
    let prox := E.proximity_constraints sim.cloth_meshes sim.obstacle_meshes
      sim.friction sim.obs_friction
    let sim := sim.called Solver.proximity_constraints
    (cons ++ prox, sim.tock E Module.Proximity)
  else (cons, sim)

/-- The function `delete_constraints`. -/
def delete_constraints (sim : Simulation) (cons : List Constraint) : Simulation :=
  { sim with ops := sim.ops ++ [Op.delete_constraints cons] }

/-! ## Stages (simulation.cpp) -/

/-- The function `step_mesh`: explicit integration of every node by its velocity. -/
def step_mesh (mesh : Mesh) (dt : ℚ) : Mesh :=
  { nodes := mesh.nodes.map fun n => { n with x := n.x + dt • n.v } }

/-- The body of the first loop of `physics_step`, for cloth `c`. -/
def physics_cloth (E : Ext) (sim : Simulation) (cons : List Constraint) (c : Nat)
    (cloth : Cloth) : Cloth × List Op :=
  let nn := cloth.mesh.nodes.length
  let zero : Forces := { fext := List.replicate nn 0, Jext := List.replicate nn 0 }
  let forces := E.add_external_forces cloth sim.gravity sim.wind zero
  let morphs := sim.morphs.filter fun m => m.mesh = c
  let forces := morphs.foldl
    (fun f m => E.add_morph_forces cloth m sim.time sim.step_time f) forces
  (E.implicit_update cloth forces cons sim.step_time false,
    [Op.solver Solver.add_external_forces] ++
      morphs.map (fun _ => Op.solver Solver.add_morph_forces) ++
      [Op.solver Solver.implicit_update])

/-- The function `physics_step`. -/
def physics_step (E : Ext) (sim : Simulation) (cons : List Constraint) : Simulation :=
  if !sim.enabled Module.Physics then sim
  else
    let sim := sim.tick Module.Physics
    let sim := sim.each_cloth (physics_cloth E sim cons)
    let sim := { sim with
      cloths := sim.cloths.map fun (c : Cloth) => { c with mesh := step_mesh c.mesh sim.step_time } }
    let sim := { sim with
      obstacles := sim.obstacles.map fun (o : Obstacle) =>
        { o with curr_state_mesh := step_mesh o.curr_state_mesh sim.step_time } }
    sim.tock E Module.Physics

/-- The function `plasticity_step`. -/
def plasticity_step (E : Ext) (sim : Simulation) : Simulation :=
  if !sim.enabled Module.Plasticity then sim
  else
    let sim := sim.tick Module.Plasticity
    let sim := sim.each_cloth fun _ cloth =>
      (E.optimize_plastic_embedding (E.plastic_update cloth),
        [Op.solver Solver.plastic_update, Op.solver Solver.optimize_plastic_embedding])
    sim.tock E Module.Plasticity

/-- The function `node_positions`. -/
def node_positions (meshes : List Mesh) : List Vec3 :=
  meshes.foldr (fun m xs => m.nodes.map (fun n => n.x) ++ xs) []

/-- The loop of `update_velocities` over one mesh.  It runs for the indices of
`xold` only, so nodes beyond it stay as they are. -/
def update_node_velocities (inv_dt : ℚ) : List Node → List Vec3 → List Node
  | node :: nodes, x :: xold =>
    { node with v := node.v + inv_dt • (node.x - x) } :: update_node_velocities inv_dt nodes xold
  | nodes, _ => nodes

/-- The function `update_velocities`: node `n` of the concatenated meshes gets
the velocity change `(x - xold[n]) / dt`. -/
def update_velocities : List Mesh → List Vec3 → ℚ → List Mesh
  | [], _, _ => []
  | m :: meshes, xold, dt =>
    { nodes := update_node_velocities (1 / dt) m.nodes xold } ::
      update_velocities meshes (xold.drop m.nodes.length) dt

/-- The function `strainlimiting_step`. -/
def strainlimiting_step (E : Ext) (sim : Simulation) (cons : List Constraint) : Simulation :=
  if !sim.enabled Module.StrainLimiting then sim
  else
    let sim := sim.tick Module.StrainLimiting
    let xold := node_positions sim.cloth_meshes
    let limited := E.strain_limiting sim.cloth_meshes (E.get_strain_limits sim.cloths) cons
    let sim := { (sim.called Solver.strain_limiting) with
      cloths := set_cloth_meshes sim.cloths limited }
    let sim := { sim with
      cloths := set_cloth_meshes sim.cloths (update_velocities sim.cloth_meshes xold sim.step_time) }
    sim.tock E Module.StrainLimiting

/-- The function `collision_step`. -/
def collision_step (E : Ext) (sim : Simulation) : Simulation :=
  if !sim.enabled Module.Collision then sim
  else
    let sim := sim.tick Module.Collision
    let xold := node_positions sim.cloth_meshes
    let cons := (get_constraints E sim false).1
    let sim := (get_constraints E sim false).2
    let responded := E.collision_response sim.cloth_meshes cons sim.obstacle_meshes
    let sim := { (sim.called Solver.collision_response) with
      cloths := set_cloth_meshes sim.cloths responded }
    let sim := delete_constraints sim cons
    let sim := { sim with
      cloths := set_cloth_meshes sim.cloths (update_velocities sim.cloth_meshes xold sim.step_time) }
    sim.tock E Module.Collision

/-- The remeshing loop of `remeshing_step`, for one cloth. -/
def remesh_cloth (E : Ext) (sim : Simulation) (cloth : Cloth) : Cloth × List Op :=
  if sim.magic.fixed_high_res_mesh then
    (E.static_remesh cloth, [Op.solver Solver.static_remesh])
  else
    let planes := E.nearest_obstacle_planes cloth.mesh sim.obstacle_meshes
    (E.dynamic_remesh cloth planes (sim.enabled Module.Plasticity),
      [Op.solver Solver.nearest_obstacle_planes, Op.solver Solver.dynamic_remesh])

/-- The function `remeshing_step`. -/
def remeshing_step (E : Ext) (sim : Simulation) (initializing : Bool) : Simulation :=
  if !sim.enabled Module.Remeshing then sim
  else
    let old_meshes := sim.cloths.map fun c => deep_copy c.mesh
    let backing := sim.enabled Module.Plasticity && !initializing
    let res := if backing then sim.cloths.map fun c => E.back_up_residuals c.mesh else []
    let sim := if backing then
        ((sim.tick Module.Plasticity).each_cloth fun _ cloth =>
          (cloth, [Op.solver Solver.back_up_residuals])).tock E Module.Plasticity
      else sim
    let sim := sim.tick Module.Remeshing
    let sim := sim.each_cloth fun _ cloth => remesh_cloth E sim cloth
    let sim := sim.tock E Module.Remeshing
    let sim := if sim.enabled Module.Plasticity && !initializing then
        ((sim.tick Module.Plasticity).each_cloth fun c cloth =>
          match old_meshes[c]?, res[c]? with
          | some old_mesh, some r =>
            ({ cloth with mesh := E.restore_residuals cloth.mesh old_mesh r },
              [Op.solver Solver.restore_residuals])
          | _, _ => (cloth, [])).tock E Module.Plasticity
      else sim
    let sim := if sim.enabled Module.Separation then
        let sim := sim.tick Module.Separation
        let separated := E.separate sim.cloth_meshes old_meshes sim.obstacle_meshes
        let sim := { (sim.called Solver.separate) with
          cloths := set_cloth_meshes sim.cloths separated }
        sim.tock E Module.Separation
      else sim
    let sim := if sim.enabled Module.PopFilter && !initializing then
        let sim := sim.tick Module.PopFilter
        let cons := (get_constraints E sim true).1
        let sim := (get_constraints E sim true).2
        let sim := sim.each_cloth fun _ cloth =>
          (E.apply_pop_filter cloth cons none, [Op.solver Solver.apply_pop_filter])
        let sim := delete_constraints sim cons
        sim.tock E Module.PopFilter
      else sim
    sim

/-! ## Obstacle update (simulation.cpp) -/

/-- The branch `!update_positions` of `update_obstacles`: positions are put
back where they were, and the velocity is derived from the displacement. -/
def put_positions_back (step_time : ℚ) (mesh : Mesh) : Mesh :=
  { nodes := mesh.nodes.map fun node =>
      { node with v := (1 / step_time) • (node.x - node.x0), x := node.x0 } }

/-- The body of the loop of `update_obstacles`, for one obstacle. -/
def update_obstacle (E : Ext) (sim : Simulation) (update_positions : Bool) (blend : ℚ)
    (ob : Obstacle) : Outcome Obstacle :=
  let moved : Outcome Obstacle :=
    if sim.non_rigid then
      if sim.init_wait_frames ≠ 0 then
        if sim.step ≤ sim.init_frame_steps then
          (ob.get_mesh_at_frame E.keyframes sim.time sim.frame).bind id
            fun ob => Outcome.ret (ob.blend_with_next blend)
        else Outcome.ret ob
      else
        (ob.get_mesh_at_frame E.keyframes sim.time sim.frame).bind id
          fun ob => Outcome.ret (ob.blend_with_next blend)
    else
      Outcome.ret ((ob.get_mesh_at sim.time).blend_with_previous sim.time sim.step_time blend)
  moved.bind id fun ob =>
    if !update_positions then
      Outcome.ret { ob with curr_state_mesh := put_positions_back sim.step_time ob.get_mesh }
    else Outcome.ret ob

/-- The loop of `update_obstacles` over the obstacles: when the process ends
inside the body for one obstacle, the obstacles after it are left untouched. -/
def update_obstacle_list (E : Ext) (sim : Simulation) (update_positions : Bool) (blend : ℚ) :
    List Obstacle → Outcome (List Obstacle)
  | [] => Outcome.ret []
  | ob :: obs =>
    (update_obstacle E sim update_positions blend ob).bind (fun ob1 => ob1 :: obs) fun ob1 =>
      (update_obstacle_list E sim update_positions blend obs).bind (fun obs1 => ob1 :: obs1)
        fun obs1 => Outcome.ret (ob1 :: obs1)

/-- The blend factor `update_obstacles` computes. -/
def obstacle_blend (sim : Simulation) : ℚ :=
  let decay_time : ℚ := 1 / 10
  if sim.non_rigid then
    let frame_steps := if sim.init_frame_steps ≠ 0 then sim.init_frame_steps else sim.frame_steps
    1 / (frame_steps : ℚ)
  else
    let blend := sim.step_time / decay_time
    blend / (1 + blend)

/-- The function `update_obstacles`. -/
def update_obstacles (E : Ext) (sim : Simulation) (update_positions : Bool) :
    Outcome Simulation :=
  (update_obstacle_list E sim update_positions (obstacle_blend sim) sim.obstacles).bind
    (fun obs => { sim with obstacles := obs })
    fun obs => Outcome.ret { sim with obstacles := obs }

/-! ## The step pipeline (simulation.cpp) -/

/-- The regime branch at the end of `advance_step`: the transition out of
ramp-up, or the frame boundary of the steady regime.  The remainder
`(step - 1) % frame_steps` is the truncated one of the source.  In the steady
regime with `frame_steps = 0` the remainder of the source is a division by
zero, which has no defined result, while `Int.tmod` returns the dividend: the
embedding follows the source on the states with `init_frame_steps ≠ 0` or
`frame_steps ≠ 0` only. -/
def frame_update (E : Ext) (sim : Simulation) : Simulation :=
  if sim.init_frame_steps ≠ 0 then
    if sim.step = sim.init_frame_steps + 1 then
      let sim := { sim with init_frame_steps := 0 }
      let sim := { sim with step_time := sim.frame_time / (sim.frame_steps : ℚ) }
      let sim := remeshing_step E { sim with trace := sim.trace ++ [Call.remeshing_step] } false
      let sim := { sim with trace := sim.trace ++ [Call.counter_update] }
      if sim.init_wait_frames = 0 then { sim with frame := sim.frame + 1 } else sim
    else sim
  else
    if (sim.step - 1).tmod sim.frame_steps = 0 then
      let sim := remeshing_step E { sim with trace := sim.trace ++ [Call.remeshing_step] } false
      let sim := { sim with trace := sim.trace ++ [Call.counter_update] }
      let sim := { sim with init_wait_frames := max 0 (sim.init_wait_frames - 1) }
      if sim.init_wait_frames = 0 then { sim with frame := sim.frame + 1 } else sim
    else sim

/-- The function `advance_step`. -/
def advance_step (E : Ext) (sim : Simulation) : Outcome Simulation :=
  let sim := { sim with time := sim.time + sim.step_time }
  let sim := { sim with step := sim.step + 1 }
  let sim := { sim with trace := sim.trace ++ [Call.advance_clock] }
  let update_positions := if sim.non_rigid then true else false
  let sim := { sim with trace := sim.trace ++ [Call.update_obstacles update_positions] }
  (update_obstacles E sim update_positions).bind id fun sim =>
    let cons := (get_constraints E sim true).1
    let sim := (get_constraints E sim true).2
    let sim := { sim with trace := sim.trace ++ [Call.get_constraints true cons] }
    let sim := physics_step E { sim with trace := sim.trace ++ [Call.physics_step cons] } cons
    let sim := plasticity_step E { sim with trace := sim.trace ++ [Call.plasticity_step] }
    let sim := strainlimiting_step E
      { sim with trace := sim.trace ++ [Call.strainlimiting_step cons] } cons
    let sim := collision_step E { sim with trace := sim.trace ++ [Call.collision_step] }
    let sim := frame_update E sim
    let sim := delete_constraints { sim with trace := sim.trace ++ [Call.delete_constraints cons] } cons
    Outcome.ret sim

/-- A run of `n` steps: `advance_step`, `n` times in a row. -/
def run (E : Ext) : Nat → Simulation → Outcome Simulation
  | 0, sim => Outcome.ret sim
  | n + 1, sim => (run E n sim).bind id fun sim => advance_step E sim

/-! ## Initialization (simulation.cpp) -/

/-- The function `prepare`. -/
def prepare (E : Ext) (sim : Simulation) : Simulation :=
  let sim := sim.each_cloth fun _ cloth =>
    ({ E.compute_masses cloth with mesh := update_x0 (E.compute_masses cloth).mesh },
      [Op.solver Solver.compute_masses])
  { sim with
    obstacles := sim.obstacles.map fun (o : Obstacle) =>
      { o with curr_state_mesh := update_x0 o.get_mesh } }

/-- The function `validate_handles`: `abort()` at the first constrained node
that is not marked `preserve`. -/
def validate_handles (sim : Simulation) : Outcome Simulation :=
  if sim.handles.all (fun h => h.get_nodes.all fun n => n.preserve) then Outcome.ret sim
  else Outcome.exited ABORTED sim

/-- The function `equilibration_step`. -/
def equilibration_step (E : Ext) (sim : Simulation) : Simulation :=
  let sim := sim.tick Module.Remeshing
  let cons : List Constraint := []
  let sim := sim.each_cloth fun _ cloth =>
    (E.apply_pop_filter
        { cloth with mesh :=
            { nodes := cloth.mesh.nodes.map fun n => { n with acceleration := 0 } } }
        cons (some 1),
      [Op.solver Solver.apply_pop_filter])
  let sim := sim.tock E Module.Remeshing
  let sim := delete_constraints sim cons
  let cons := (get_constraints E sim false).1
  let sim := (get_constraints E sim false).2
  let sim := if sim.enabled Module.Collision then
      let sim := sim.tick Module.Collision
      let responded := E.collision_response sim.cloth_meshes cons sim.obstacle_meshes
      let sim := { (sim.called Solver.collision_response) with
        cloths := set_cloth_meshes sim.cloths responded }
      sim.tock E Module.Collision
    else sim
  delete_constraints sim cons

/-- The loop `reset_plasticity(sim.cloths[c])` under `magic.preserve_creases`. -/
def reset_creases (E : Ext) (sim : Simulation) : Simulation :=
  if sim.magic.preserve_creases then
    sim.each_cloth fun _ cloth => (E.reset_plasticity cloth, [Op.solver Solver.reset_plasticity])
  else sim

/-- The function `relax_initial_state`.  The local `equilibrate` is the constant
`true`, so only that branch is embedded. -/
def relax_initial_state (E : Ext) (sim : Simulation) : Outcome Simulation :=
  (validate_handles sim).bind id fun sim =>
    let sim := reset_creases E sim
    let sim := equilibration_step E sim
    let sim := remeshing_step E sim true
    let sim := equilibration_step E sim
    let sim := reset_creases E sim
    let sim := { sim with magic := { sim.magic with preserve_creases := false } }
    let sim := if sim.magic.fixed_high_res_mesh then
        { sim with enabled := fun m => if m = Module.Remeshing then false else sim.enabled m }
      else sim
    Outcome.ret sim

/-! ## Batch front end (runphysics.cpp) -/

/-- What the process writes to disk, in order. -/
inductive Output where
  | ensure_existing_directory (path : String)
  | open_timingfile (path : String) (append : Bool)
  | copy_file (input : String) (output : String)
  | save_objs (meshes : List Mesh) (path : String) (flag : Bool)
  | save_transformation (trans : Transformation) (path : String)
  | timing_line (values : List ℚ)

/-- The state of the stream `timingfile`: never opened (no error flag is set,
but nothing can be written), open, or failed (an error flag is set, by an
`open` that failed or by a write to the stream while it was not open). -/
inductive TimingFile where
  | unopened
  | opened
  | failed
deriving DecidableEq, Repr

/-- The globals of runphysics.cpp: the simulation `sim`, the static `outprefix`
(here `outdir`), the state of the stream `timingfile`, the static `old_totals`
of `save_timings`, and the log of what was written. -/
structure Process where
  sim : Simulation
  outdir : String
  timingfile : TimingFile
  old_totals : Module → ℚ
  out : List Output

/-- The modules in the order of their indices `0 .. nModules - 1`. -/
def modules : List Module :=
  [Module.Proximity, Module.Physics, Module.StrainLimiting, Module.Collision,
    Module.Remeshing, Module.Separation, Module.PopFilter, Module.Plasticity]

/-- The function `is_number`. -/
def is_number (s : String) : Bool :=
  !s.isEmpty && s.data.all Char.isDigit

/-- The value of a run of decimal digits at the start of the characters. -/
def atoi_digits : Int → List Char → Int
  | acc, c :: cs => if c.isDigit then atoi_digits (acc * 10 + (c.toNat - 48 : Nat)) cs else acc
  | acc, [] => acc

/-- The library predicate `isspace` in the "C" locale: the space, and the
controls `\t`, `\n`, `\v` (code 11), `\f` (code 12) and `\r`. -/
def isspace (c : Char) : Bool :=
  c = ' ' || c = '\t' || c = '\n' || c = Char.ofNat 11 || c = Char.ofNat 12 || c = '\r'

/-- The largest value of the type `long` (64 bits). -/
def LONG_MAX : Int := 9223372036854775807

/-- The smallest value of the type `long` (64 bits). -/
def LONG_MIN : Int := -9223372036854775808

/-- The conversion of a `long` to the 32-bit type `int`: the low 32 bits, read
in two's complement. -/
def long_to_int (v : Int) : Int := (v + 2147483648) % 4294967296 - 2147483648

/-- The library function `strtol(s, 0, 10)`: white space, an optional sign,
then digits; a value outside the range of `long` is replaced by the nearest
bound. -/
def strtol (s : String) : Int :=
  match s.data.dropWhile isspace with
  | '-' :: cs => max LONG_MIN (- atoi_digits 0 cs)
  | '+' :: cs => min LONG_MAX (atoi_digits 0 cs)
  | cs => min LONG_MAX (atoi_digits 0 cs)

/-- The library function `atoi`, which the C library computes as
`(int) strtol(s, 0, 10)`: for a value outside the range of `int` the result is
what the conversion leaves of it. -/
def atoi (s : String) : Int := long_to_int (strtol s)

/-- The function `copy_file`. -/
def copy_file (p : Process) (input output : String) : Process :=
  if input = output then p else { p with out := p.out ++ [Output.copy_file input output] }

/-- The default-constructed global `sim`, before a scene is loaded. -/
def Simulation.initial : Simulation :=
  { time := 0, step := 0, frame := 0, frame_steps := 0, init_frame_steps := 0,
    init_wait_frames := 0, frame_time := 0, step_time := 0, end_time := 0, end_frame := 0,
    non_rigid := false, enabled := fun _ => false, cloths := [], obstacles := [], handles := [],
    morphs := [], gravity := 0, wind := { density := 0, velocity := 0, drag := 0 },
    friction := 0, obs_friction := 0,
    magic := { preserve_creases := false, fixed_high_res_mesh := false },
    timers := fun _ => 0, trace := [], ops := [] }

/-- The process as it starts: nothing loaded, nothing written. -/
def Process.initial : Process :=
  { sim := Simulation.initial, outdir := "", timingfile := TimingFile.unopened,
    old_totals := fun _ => 0,
    out := [] }

/-- The function `init_physics`.  Modelled from the spec: a scene file that
cannot be loaded (`load_json`, conf.cpp is not among the sources) is a
configuration error, which ends the process with failure status. -/
def init_physics (E : Ext) (p : Process) (json_file : String) (outdir : String)
    (is_reloading : Bool) : Outcome Process :=
  match E.load_json json_file with
  | none => Outcome.exited EXIT_FAILURE p
  | some sim =>
    let p := { p with sim := sim, outdir := outdir }
    let p := if !p.sim.non_rigid && !outdir.isEmpty then
        let p := { p with
          timingfile :=
            if E.timingfile_opens (outdir ++ "/timing") then TimingFile.opened
            else TimingFile.failed
          out := p.out ++ [Output.open_timingfile (outdir ++ "/timing") is_reloading] }
        let p := copy_file p json_file (outdir ++ "/conf.json")
        { p with out := p.out ++
            [Output.save_objs (p.sim.obstacles.map fun o => o.base_mesh) (outdir ++ "/obs") false] }
      else p
    let p := { p with sim := prepare E p.sim }
    if !is_reloading then
      let separated := E.separate_obstacles p.sim.obstacle_meshes p.sim.cloth_meshes
      let sim := p.sim.called Solver.separate_obstacles
      let sim := { sim with obstacles := set_obstacle_meshes sim.obstacles separated }
      (relax_initial_state E sim).bind (fun sim => { p with sim := sim })
        fun sim => Outcome.ret { p with sim := sim }
    else Outcome.ret p

/-- The static function `save(meshes, frame, non_rigid)`. -/
def save_meshes (p : Process) (meshes : List Mesh) (frame : Int) (non_rigid : Bool) : Process :=
  if !p.outdir.isEmpty && frame < 10000 then
    if non_rigid then
      { p with out := p.out ++
          [Output.save_objs meshes (p.outdir ++ "/cloth" ++ fmt_0d 4 frame) true] }
    else
      { p with out := p.out ++ [Output.save_objs meshes (p.outdir ++ "/" ++ fmt_0d 4 frame) false] }
  else p

/-- The loop of `save_obstacle_transforms`, from obstacle index `o` on. -/
def obstacle_transform_files (outdir : String) (frame : Int) (time : ℚ) :
    Nat → List Obstacle → List Output
  | _, [] => []
  | o, ob :: obs =>
    Output.save_transformation
        (match ob.transform_spline with
          | some spline => (spline.get_dtrans time).first
          | none => identity)
        (outdir ++ "/" ++ fmt_0d 4 frame ++ "obs" ++ fmt_0d 2 o ++ ".txt") ::
      obstacle_transform_files outdir frame time (o + 1) obs

/-- The function `save_obstacle_transforms`. -/
def save_obstacle_transforms (p : Process) (obs : List Obstacle) (frame : Int) (time : ℚ) :
    Process :=
  if !p.outdir.isEmpty && frame < 10000 then
    { p with out := p.out ++ obstacle_transform_files p.outdir frame time 0 obs }
  else p

/-- The function `save_timings`.  The test `!::timingfile` holds for a failed
stream only.  On a stream that was never opened the writes of the loop fail,
which puts the stream in the failed state, while the loop still records the
totals. -/
def save_timings (p : Process) : Process :=
  match p.timingfile with
  | TimingFile.failed => p
  | TimingFile.opened =>
    { p with
      out := p.out ++ [Output.timing_line (modules.map fun i => p.sim.timers i - p.old_totals i)]
      old_totals := fun i => p.sim.timers i }
  | TimingFile.unopened =>
    { p with
      timingfile := TimingFile.failed
      old_totals := fun i => p.sim.timers i }

/-- The function `save(sim, frame)`. -/
def save (p : Process) (frame : Int) : Process :=
  let p := save_meshes p p.sim.cloth_meshes frame p.sim.non_rigid
  if !p.sim.non_rigid then save_obstacle_transforms p p.sim.obstacles frame p.sim.time else p

/-- The saving part of `sim_step`, after `advance_step`. -/
def save_step (p : Process) : Process :=
  if p.sim.non_rigid then
    let frame_steps :=
      if p.sim.init_frame_steps ≠ 0 then p.sim.init_frame_steps else p.sim.frame_steps
    if p.sim.init_wait_frames ≤ 1 ∧ p.sim.step > 0 ∧ p.sim.step.tmod frame_steps = 0 then
      save p p.sim.frame
    else p
  else
    if p.sim.step.tmod p.sim.frame_steps = 0 then save_timings (save p p.sim.frame) else p

/-- The function `sim_step`. -/
def sim_step (E : Ext) (num_frames : Int) (p : Process) : Outcome Process :=
  (advance_step E p.sim).bind (fun sim => { p with sim := sim }) fun sim =>
    let p := save_step { p with sim := sim }
    if p.sim.time ≥ p.sim.end_time ∨ (p.sim.frame : ℚ) ≥ p.sim.end_frame then
      Outcome.exited EXIT_SUCCESS p
    else if p.sim.frame = num_frames then Outcome.exited EXIT_SUCCESS p
    else Outcome.ret p

/-- The function `offline_loop`, for at most `fuel` iterations: it returns only
when the iterations are used up, the loop of the source never does. -/
def offline_loop (E : Ext) (num_frames : Int) : Nat → Process → Outcome Process
  | 0, p => Outcome.ret p
  | fuel + 1, p => (sim_step E num_frames p).bind id fun p => offline_loop E num_frames fuel p

/-- The function `run_physics`, with `offline_loop` run for at most `fuel`
iterations. -/
def run_physics (E : Ext) (args : List String) (fuel : Nat) : Outcome Process :=
  match args.getLast? with
  | none => Outcome.exited EXIT_FAILURE Process.initial
  | some last =>
    if args.length > 3 then Outcome.exited EXIT_FAILURE Process.initial
    else
      let num_frames := if is_number last then atoi last else E.DEFAULT_NUM_FRAMES
      let json_file := args.headD ""
      let outdir := if args.length > 1 then args.getD 1 "" else ""
      let p := if !outdir.isEmpty then
          { Process.initial with out := [Output.ensure_existing_directory outdir] }
        else Process.initial
      (init_physics E p json_file outdir false).bind id fun p =>
        let p := if !p.sim.non_rigid && !outdir.isEmpty then save p 0 else p
        offline_loop E num_frames fuel p

/-- The loop of `init_resume` that re-materializes every obstacle. -/
def resume_obstacles (E : Ext) (sim : Simulation) : List Obstacle → Outcome (List Obstacle)
  | [] => Outcome.ret []
  | ob :: obs =>
    (if sim.non_rigid then ob.get_mesh_at_frame E.keyframes sim.time sim.frame
      else Outcome.ret (ob.get_mesh_at sim.time)).bind (fun ob1 => ob1 :: obs) fun ob1 =>
      (resume_obstacles E sim obs).bind (fun obs1 => ob1 :: obs1)
        fun obs1 => Outcome.ret (ob1 :: obs1)

/-- The function `init_resume`, for the two arguments its assertion demands. -/
def init_resume (E : Ext) (outdir : String) (start_frame_str : String) : Outcome Process :=
  (init_physics E Process.initial (outdir ++ "/conf.json") outdir true).bind id fun p =>
    let sim := p.sim
    let sim := { sim with frame := atoi start_frame_str }
    let sim := { sim with time := (sim.frame : ℚ) * sim.frame_time }
    let sim := { sim with step := sim.frame * sim.frame_steps }
    (resume_obstacles E sim sim.obstacles).bind
      (fun obs => { p with sim := { sim with obstacles := obs } }) fun obs =>
        let sim := { sim with obstacles := obs }
        let loaded := E.load_objs sim.cloth_meshes (outdir ++ "/" ++ fmt_0d 4 sim.frame)
        let sim := { sim with cloths := set_cloth_meshes sim.cloths loaded }
        let sim := prepare E sim
        let separated := E.separate_obstacles sim.obstacle_meshes sim.cloth_meshes
        let sim := sim.called Solver.separate_obstacles
        let sim := { sim with obstacles := set_obstacle_meshes sim.obstacles separated }
        Outcome.ret { p with sim := sim }

/-- The function `resume_physics`, with `offline_loop` run for at most `fuel`
iterations. -/
def resume_physics (E : Ext) (args : List String) (fuel : Nat) : Outcome Process :=
  match args with
  | [outdir, start_frame_str] =>
    (init_resume E outdir start_frame_str).bind id fun p =>
      offline_loop E E.DEFAULT_NUM_FRAMES fuel p
  | _ => Outcome.exited EXIT_FAILURE Process.initial

/-! ## Concrete scenes -/

/-- External collaborators that do nothing: every solver leaves the geometry
as it is and yields no constraint, no file exists, no time elapses. -/
def Ext.idle : Ext :=
  { proximity_constraints := fun _ _ _ _ => []
    add_external_forces := fun _ _ _ f => f
    add_morph_forces := fun _ _ _ _ f => f
    implicit_update := fun c _ _ _ _ => c
    plastic_update := fun c => c
    optimize_plastic_embedding := fun c => c
    get_strain_limits := fun _ => []
    strain_limiting := fun ms _ _ => ms
    collision_response := fun ms _ _ => ms
    back_up_residuals := fun _ => []
    static_remesh := fun c => c
    nearest_obstacle_planes := fun _ _ => []
    dynamic_remesh := fun c _ _ => c
    restore_residuals := fun m _ _ => m
    separate := fun ms _ _ => ms
    apply_pop_filter := fun c _ _ => c
    reset_plasticity := fun c => c
    compute_masses := fun c => c
    separate_obstacles := fun obs _ => obs
    keyframes := fun _ => none
    elapsed := fun _ => 0
    load_json := fun _ => none
    load_objs := fun ms _ => ms
    timingfile_opens := fun _ => true
    DEFAULT_NUM_FRAMES := 100 }

/-- An empty scene at step 0 with the given regime parameters: no cloth, no
obstacle, every stage disabled. -/
def bare_scene (frame_steps init_frame_steps init_wait_frames : Int)
    (frame_time step_time : ℚ) (non_rigid : Bool) : Simulation :=
  { Simulation.initial with
    frame_steps := frame_steps
    init_frame_steps := init_frame_steps
    init_wait_frames := init_wait_frames
    frame_time := frame_time
    step_time := step_time
    end_time := 1000
    end_frame := 1000
    non_rigid := non_rigid }

/-- A motion curve that translates along the first axis with unit speed. -/
def sliding : Motion :=
  { get_trans := fun t =>
      { apply := fun p => (p.1 + t, p.2.1, p.2.2), unapply := fun p => (p.1 - t, p.2.1, p.2.2) }
    get_dtrans := fun t =>
      { first :=
          { apply := fun p => (p.1 + t, p.2.1, p.2.2)
            unapply := fun p => (p.1 - t, p.2.1, p.2.2) }
        apply_dtrans := fun p => ((p.1 + t, p.2.1, p.2.2), (1, 0, 0)) } }

/-- A node at rest at a position. -/
def node_at (p : Vec3) : Node :=
  { x := p, x0 := p, v := 0, acceleration := 0, preserve := false }

/-- A never-activated obstacle with a one-node base mesh, the validity window
`[1, 3]` and the given motion curve. -/
def fresh_obstacle (spline : Option Motion) : Obstacle :=
  { base_mesh := { nodes := [node_at 0] }
    curr_state_mesh := { nodes := [] }
    next_state_mesh := { nodes := [] }
    cache_mesh := { nodes := [] }
    start_time := 1
    end_time := 3
    activated := false
    curr_frame := 0
    transform_spline := spline
    base_path := "obs/" }

/-- The path an output is written to. -/
def Output.path : Output → String
  | .ensure_existing_directory path => path
  | .open_timingfile path _ => path
  | .copy_file _ output => output
  | .save_objs _ path _ => path
  | .save_transformation _ path => path
  | .timing_line _ => "timing"

/-- External collaborators that do nothing, except that every scene file loads
as the given scene. -/
def Ext.loading (scene : Simulation) : Ext :=
  { Ext.idle with load_json := fun _ => some scene }

/-- A scene of the kind of C7: one cloth of one node at the origin, no
obstacle, only the physics stage enabled, `frame_steps = 1`, `end_frame = 1`, no
ramp-up, no wait frames, `step_time = 1`. -/
def one_cloth_scene (non_rigid : Bool) : Simulation :=
  { bare_scene 1 0 0 1 1 non_rigid with
    cloths := [{ mesh := { nodes := [node_at 0] }, rest := 0 }]
    enabled := fun m => decide (m = Module.Physics)
    end_frame := 1 }

/-- External collaborators for a free fall: every scene file loads as the given
scene, `implicit_update` adds the velocity gained under a gravity of 10 along
the third axis, and every other solver does nothing. -/
def Ext.falling (scene : Simulation) : Ext :=
  { Ext.idle with
    load_json := fun _ => some scene
    implicit_update := fun c _ _ dt _ =>
      { c with mesh := { nodes := c.mesh.nodes.map fun n => { n with v := n.v + dt • (0, 0, -10) } } } }

/-- An activated keyframed obstacle with the window `[1, 3]`: keyframe 0 is
loaded, the current mesh has one node at the origin, and so has the anchor. -/
def keyframed_obstacle : Obstacle :=
  { base_mesh := { nodes := [node_at 0] }
    curr_state_mesh := { nodes := [node_at 0] }
    next_state_mesh := { nodes := [node_at 0] }
    cache_mesh := { nodes := [node_at 0] }
    start_time := 1
    end_time := 3
    activated := true
    curr_frame := 0
    transform_spline := none
    base_path := "obs/" }

/-- Keyframe files on disk: the file of frame 1 alone, holding one node at
`(1, 0, 0)`. -/
def one_keyframe : KeyframeFiles := fun path =>
  if path = "obs/body0001.obj" then some { nodes := [node_at (1, 0, 0)] } else none

/-- The transformation `trans` of `blend_with_previous`: the motion between
`t - dt` and `t`, or the identity without a motion curve. -/
def Obstacle.step_trans (ob : Obstacle) (t dt : ℚ) : Transformation :=
  match ob.transform_spline with
  | some spline => (spline.get_trans t).mul (inverse (spline.get_trans (t - dt)))
  | none => identity

/-- An activated obstacle without motion curve whose one node has the rest
baseline at the origin and the position `(1, 0, 0)`. -/
def displaced_obstacle : Obstacle :=
  { keyframed_obstacle with
    curr_state_mesh := { nodes := [{ node_at 0 with x := (1, 0, 0) }] } }

/-- The obstacle `keyframed_obstacle` as the keyframe load of frame 1 leaves
it: the anchor is a copy of the current mesh, the next keyframe has its node at
`(1, 0, 0)`. -/
def loaded_obstacle : Obstacle :=
  { keyframed_obstacle with
    curr_frame := 1
    cache_mesh := deep_copy keyframed_obstacle.curr_state_mesh
    next_state_mesh := { nodes := [node_at (1, 0, 0)] } }

/-- The stage a solver operation belongs to: the stage whose timer runs when
the step pipeline calls it.  `reset_plasticity`, which `relax_initial_state`
alone calls and outside every timer, works on the plastic embedding and is an
operation of the plasticity stage.  `compute_masses` and `separate_obstacles`,
which `prepare` and the loading of a scene call, have no stage. -/
def Solver.stage : Solver → Option Module
  | .proximity_constraints => some Module.Proximity
  | .add_external_forces => some Module.Physics
  | .add_morph_forces => some Module.Physics
  | .implicit_update => some Module.Physics
  | .plastic_update => some Module.Plasticity
  | .optimize_plastic_embedding => some Module.Plasticity
  | .back_up_residuals => some Module.Plasticity
  | .restore_residuals => some Module.Plasticity
  | .strain_limiting => some Module.StrainLimiting
  | .collision_response => some Module.Collision
  | .static_remesh => some Module.Remeshing
  | .nearest_obstacle_planes => some Module.Remeshing
  | .dynamic_remesh => some Module.Remeshing
  | .separate => some Module.Separation
  | .apply_pop_filter => some Module.PopFilter
  | .reset_plasticity => some Module.Plasticity
  | .compute_masses => none
  | .separate_obstacles => none

/-- An entry of the log that is work of stage `s`: a tick or a tock of its
timer, or a call of one of its solver operations. -/
def Op.of_stage (s : Module) : Op → Bool
  | .tick m => decide (m = s)
  | .tock m => decide (m = s)
  | .solver f => decide (f.stage = some s)
  | .delete_constraints _ => false

/-- From state `a` to state `b` stage `s` did nothing: the enable flags are the
same, the total of the timer of `s` is the same, and the log grew by entries
none of which is work of stage `s`. -/
def quiet (s : Module) (a b : Simulation) : Prop :=
  b.enabled = a.enabled ∧ b.timers s = a.timers s ∧
    ∃ new, b.ops = a.ops ++ new ∧ ∀ op ∈ new, Op.of_stage s op = false

/-- The part "back up residuals" of `remeshing_step`. -/
def backup_pass (E : Ext) (sim : Simulation) (initializing : Bool) : Simulation :=
  if sim.enabled Module.Plasticity && !initializing then
    ((sim.tick Module.Plasticity).each_cloth fun _ cloth =>
      (cloth, [Op.solver Solver.back_up_residuals])).tock E Module.Plasticity
  else sim

/-- The part "remesh" of `remeshing_step`. -/
def remesh_pass (E : Ext) (sim : Simulation) : Simulation :=
  ((sim.tick Module.Remeshing).each_cloth fun _ cloth =>
    remesh_cloth E (sim.tick Module.Remeshing) cloth).tock E Module.Remeshing

/-- The part "restore residuals" of `remeshing_step`. -/
def restore_pass (E : Ext) (old_meshes : List Mesh) (res : List (List Residual))
    (sim : Simulation) (initializing : Bool) : Simulation :=
  if sim.enabled Module.Plasticity && !initializing then
    ((sim.tick Module.Plasticity).each_cloth fun c cloth =>
      match old_meshes[c]?, res[c]? with
      | some old_mesh, some r =>
        ({ cloth with mesh := E.restore_residuals cloth.mesh old_mesh r },
          [Op.solver Solver.restore_residuals])
      | _, _ => (cloth, [])).tock E Module.Plasticity
  else sim

/-- The part "separate" of `remeshing_step`. -/
def separation_pass (E : Ext) (old_meshes : List Mesh) (sim : Simulation) : Simulation :=
  if sim.enabled Module.Separation then
    let sim := sim.tick Module.Separation
    let separated := E.separate sim.cloth_meshes old_meshes sim.obstacle_meshes
    let sim := { (sim.called Solver.separate) with
      cloths := set_cloth_meshes sim.cloths separated }
    sim.tock E Module.Separation
  else sim

/-- The part "apply pop filter" of `remeshing_step`. -/
def popfilter_pass (E : Ext) (sim : Simulation) (initializing : Bool) : Simulation :=
  if sim.enabled Module.PopFilter && !initializing then
    let sim := sim.tick Module.PopFilter
    let cons := (get_constraints E sim true).1
    let sim := (get_constraints E sim true).2
    let sim := sim.each_cloth fun _ cloth =>
      (E.apply_pop_filter cloth cons none, [Op.solver Solver.apply_pop_filter])
    let sim := delete_constraints sim cons
    sim.tock E Module.PopFilter
  else sim

/-- A sequence of `save_timings` calls, the simulation being in the given
state at each of them. -/
def save_timings_calls (p : Process) (sims : List Simulation) : Process :=
  sims.foldl (fun p sim => save_timings { p with sim := sim }) p

/-- The lines of timer deltas for calls in the given states: the line of a call
holds, for every module, the timer total at that call minus the total at the
call before it (`old` for the first call). -/
def timing_deltas (old : Module → ℚ) : List Simulation → List (List ℚ)
  | [] => []
  | sim :: sims => (modules.map fun i => sim.timers i - old i) :: timing_deltas sim.timers sims

/-- External collaborators that do nothing, except that every scene file loads
as the given scene and every timer measures one unit of time per interval. -/
def Ext.timed (scene : Simulation) : Ext :=
  { Ext.idle with load_json := fun _ => some scene, elapsed := fun _ => 1 }

/-- A process whose timing file is open, nothing written yet. -/
def timing_process : Process :=
  { Process.initial with timingfile := TimingFile.opened }

/-- Two states of the simulation: the total of the physics timer is 1 in the
first and 3 in the second, the other totals are 0. -/
def timing_states : List Simulation :=
  [{ Simulation.initial with timers := fun i => if i = Module.Physics then 1 else 0 },
    { Simulation.initial with timers := fun i => if i = Module.Physics then 3 else 0 }]

/-- The path prefix `stringf("%s/%04d", outprefix, sim.frame)` from which
`init_resume` reloads the cloth geometry of a frame. -/
def reload_path (outdir : String) (frame : Int) : String :=
  outdir ++ "/" ++ fmt_0d 4 frame

/-- The path prefix under which the static `save` writes the cloth geometry of
a frame: `"%s/cloth%04d"` in non-rigid mode, `"%s/%04d"` in rigid mode. -/
def cloth_path (outdir : String) (frame : Int) (non_rigid : Bool) : String :=
  if non_rigid then outdir ++ "/cloth" ++ fmt_0d 4 frame else outdir ++ "/" ++ fmt_0d 4 frame

/-- The clock `init_resume` sets from the start frame it is given. -/
def resume_clock (sim : Simulation) (start_frame_str : String) : Simulation :=
  let sim := { sim with frame := atoi start_frame_str }
  let sim := { sim with time := (sim.frame : ℚ) * sim.frame_time }
  { sim with step := sim.frame * sim.frame_steps }

/-- The part of `init_resume` that follows the loop over the obstacles, with
the path prefix the cloth geometry is loaded from. -/
def reload_cloths (E : Ext) (path : String) (sim : Simulation) : Simulation :=
  let loaded := E.load_objs sim.cloth_meshes path
  let sim := { sim with cloths := set_cloth_meshes sim.cloths loaded }
  let sim := prepare E sim
  let separated := E.separate_obstacles sim.obstacle_meshes sim.cloth_meshes
  let sim := sim.called Solver.separate_obstacles
  { sim with obstacles := set_obstacle_meshes sim.obstacles separated }

/-- A mesh that spells a path: one node per character, at the character code
on the first axis. -/
def path_mesh (path : String) : Mesh :=
  { nodes := path.data.map fun ch => node_at ((ch.toNat : ℚ), 0, 0) }

/-- External collaborators that do nothing, except that every scene file loads
as the given scene and that `load_objs` gives every mesh it is asked to load
the geometry that spells the path prefix it is asked to load from. -/
def Ext.recording (scene : Simulation) : Ext :=
  { Ext.idle with
    load_json := fun _ => some scene
    load_objs := fun ms path => ms.map fun _ => path_mesh path }

/-- A process with the output directory `out` whose simulation is the scene
with one cloth, in the given obstacle mode. -/
def output_process (non_rigid : Bool) : Process :=
  { Process.initial with outdir := "out", sim := one_cloth_scene non_rigid }

/-- A process with the output directory `out` whose simulation, in rigid mode
at time 2, has one cloth and two obstacles: one that follows the motion curve
`sliding`, one without motion curve. -/
def obstacle_process : Process :=
  { Process.initial with
    outdir := "out"
    sim := { one_cloth_scene false with
      time := 2
      obstacles := [fresh_obstacle (some sliding), fresh_obstacle none] } }

/-- The transformation `save_obstacle_transforms` writes for an obstacle: the
transform of its motion curve at the given time, or the identity when it has
no motion curve. -/
def Obstacle.saved_transform (ob : Obstacle) (time : ℚ) : Transformation :=
  match ob.transform_spline with
  | some spline => (spline.get_dtrans time).first
  | none => identity

/-- A scene with two handles and every stage enabled: the first handle
contributes the constraints 1 and 2 and constrains a node that is not marked
`preserve`, the second contributes the constraint 3. -/
def constrained_scene : Simulation :=
  { bare_scene 1 0 0 1 1 false with
    enabled := fun _ => true
    handles :=
      [{ get_constraints := fun _ => [1, 2], get_nodes := [node_at 0] },
        { get_constraints := fun _ => [3], get_nodes := [] }] }

/-- External collaborators that do nothing, except that the proximity pass
yields the constraint 9. -/
def Ext.near : Ext :=
  { Ext.idle with proximity_constraints := fun _ _ _ _ => [9] }

/-- From state `a` to state `b` the log grew by entries that all satisfy `P`,
the totals of the timers selected by `T` are the same, and so are the enable
flags, the `magic` parameters and the number of cloths. -/
def grows (P : Op → Prop) (T : Module → Prop) (a b : Simulation) : Prop :=
  b.enabled = a.enabled ∧ b.magic = a.magic ∧ b.cloths.length = a.cloths.length ∧
    (∀ m, T m → b.timers m = a.timers m) ∧
    ∃ new, b.ops = a.ops ++ new ∧ ∀ op ∈ new, P op

/-- The first part of `equilibration_step`: the pop-filter loop over the
cloths, under the remeshing timer, and the release of its empty constraint
set. -/
def equilibration_pop (E : Ext) (sim : Simulation) : Simulation :=
  let sim := sim.tick Module.Remeshing
  let cons : List Constraint := []
  let sim := sim.each_cloth fun _ cloth =>
    (E.apply_pop_filter
        { cloth with mesh :=
            { nodes := cloth.mesh.nodes.map fun n => { n with acceleration := 0 } } }
        cons (some 1),
      [Op.solver Solver.apply_pop_filter])
  let sim := sim.tock E Module.Remeshing
  delete_constraints sim cons

/-- The second part of `equilibration_step`: the collision response on the
constraints of the handles, when the collision stage is enabled. -/
def equilibration_collision (E : Ext) (sim : Simulation) : Simulation :=
  let cons := (get_constraints E sim false).1
  let sim := (get_constraints E sim false).2
  let sim := if sim.enabled Module.Collision then
      let sim := sim.tick Module.Collision
      let responded := E.collision_response sim.cloth_meshes cons sim.obstacle_meshes
      let sim := { (sim.called Solver.collision_response) with
        cloths := set_cloth_meshes sim.cloths responded }
      sim.tock E Module.Collision
    else sim
  delete_constraints sim cons

/-- The scene with one cloth, every stage enabled, and both `magic` flags
set. -/
def fixed_scene : Simulation :=
  { one_cloth_scene false with
    enabled := fun _ => true
    magic := { preserve_creases := true, fixed_high_res_mesh := true } }

/-- The scene with one cloth where the physics stage alone is enabled and
`magic.preserve_creases` is set. -/
def creased_scene : Simulation :=
  { one_cloth_scene false with
    magic := { preserve_creases := true, fixed_high_res_mesh := false } }

/-- The decimal value of a string of decimal digits. -/
def decimal_value (s : String) : Nat :=
  s.data.foldl (fun n c => 10 * n + (c.toNat - 48)) 0

/-- A process with the output directory `out` and an open timing file whose
simulation is an empty rigid-mode scene at step 0 and frame 0 with two steps
per frame. -/
def two_step_process : Process :=
  { Process.initial with
    outdir := "out"
    timingfile := TimingFile.opened
    sim := bare_scene 2 0 0 1 (1 / 2) false }

/-- Every node of the current mesh of the obstacle has zero velocity. -/
def Obstacle.still (ob : Obstacle) : Prop :=
  ∀ n ∈ ob.curr_state_mesh.nodes, n.v = 0

/-- The obstacle as `get_mesh(time, frame)` leaves it when it loads the
keyframe geometry `loaded` for `frame`: the current mesh is snapshot into the
anchor, and the geometry loaded becomes the next keyframe. -/
def Obstacle.load (ob : Obstacle) (frame : Int) (loaded : Mesh) : Obstacle :=
  { ob with
    curr_frame := frame
    cache_mesh := deep_copy ob.curr_state_mesh
    next_state_mesh := loaded }

/-- An activated keyframed obstacle that has loaded no keyframe yet
(`curr_frame = -1`), with one node at rest at the origin and the window
`[0, 1000]`. -/
def tracked_obstacle : Obstacle :=
  { keyframed_obstacle with curr_frame := -1, start_time := 0, end_time := 1000 }

/-- A non-rigid scene at step 0 and frame 0 with two steps per frame, whose
obstacle is `tracked_obstacle`. -/
def tracked_scene : Simulation :=
  { bare_scene 2 0 0 1 (1 / 2) true with obstacles := [tracked_obstacle] }

/-- External collaborators that do nothing, except that every keyframe file
exists and holds one node at `(1, 0, 0)`. -/
def Ext.keyed : Ext :=
  { Ext.idle with keyframes := fun _ => some { nodes := [node_at (1, 0, 0)] } }

/-- An activated keyframed obstacle that has loaded no keyframe yet
(`curr_frame = -1`), with one node at rest at the origin and the window
`[1, 3]`. -/
def late_obstacle : Obstacle :=
  { keyframed_obstacle with curr_frame := -1 }

/-- A non-rigid scene at time 0, step 0 and frame 0 with two steps per frame
and the step size `1 / 2`, whose obstacle is `late_obstacle`: the window of the
obstacle opens at the time of step 2 and closes at the time of step 6. -/
def late_scene : Simulation :=
  { bare_scene 2 0 0 1 (1 / 2) true with obstacles := [late_obstacle] }

/-- The state an outcome carries. -/
def Outcome.state {σ : Type} : Outcome σ → σ
  | .ret s => s
  | .exited _ s => s

/-- The exit status of an outcome: `none` when the code returned. -/
def Outcome.status {σ : Type} : Outcome σ → Option Int
  | .ret _ => none
  | .exited c _ => some c

/-- The effect of the regime branch of `advance_step` on the clock. -/
def Clock.regime (c : Clock) : Clock :=
  if c.init_frame_steps ≠ 0 then
    if c.step = c.init_frame_steps + 1 then
      let c := { c with init_frame_steps := 0, step_time := c.frame_time / (c.frame_steps : ℚ) }
      if c.init_wait_frames = 0 then { c with frame := c.frame + 1 } else c
    else c
  else
    if (c.step - 1).tmod c.frame_steps = 0 then
      let c := { c with init_wait_frames := max 0 (c.init_wait_frames - 1) }
      if c.init_wait_frames = 0 then { c with frame := c.frame + 1 } else c
    else c

/-- The effect of one completed `advance_step` on the clock, read off the code:
the increments of time and step, then the regime branch. -/
def Clock.advance (c : Clock) : Clock :=
  Clock.regime { c with time := c.time + c.step_time, step := c.step + 1 }

/-- Whether the step taken from clock `c` enters the transition branch: the
ramp-up regime is on and the incremented step counter is `init_frame_steps + 1`. -/
def Clock.transition_step (c : Clock) : Prop :=
  c.init_frame_steps ≠ 0 ∧ c.step + 1 = c.init_frame_steps + 1

instance (c : Clock) : Decidable c.transition_step := by
  unfold Clock.transition_step; infer_instance

/-- Whether the step taken from clock `c` is a frame boundary of the steady
regime: the test `(sim.step - 1) % sim.frame_steps == 0` of the code, on the
incremented step counter. -/
def Clock.boundary_step (c : Clock) : Prop :=
  c.init_frame_steps = 0 ∧ (c.step + 1 - 1).tmod c.frame_steps = 0

instance (c : Clock) : Decidable c.boundary_step := by
  unfold Clock.boundary_step; infer_instance

/-- The statements one completed `advance_step` executes from state `sim`, where
`cons` is the constraint set `get_constraints` returned. -/
def step_calls (sim : Simulation) (cons : List Constraint) : List Call :=
  [Call.advance_clock, Call.update_obstacles sim.non_rigid, Call.get_constraints true cons,
    Call.physics_step cons, Call.plasticity_step, Call.strainlimiting_step cons,
    Call.collision_step] ++
  (if sim.toClock.transition_step ∨ sim.toClock.boundary_step then
    [Call.remeshing_step, Call.counter_update] else []) ++
  [Call.delete_constraints cons]

/-- The state `advance_step` hands to `update_obstacles`: time and step are
incremented. -/
def Simulation.ticked (sim : Simulation) : Simulation :=
  { sim with
    time := sim.time + sim.step_time
    step := sim.step + 1
    trace := sim.trace ++ [Call.advance_clock] ++
      [Call.update_obstacles (if sim.non_rigid then true else false)] }

/-- The clock after `n` completed steps. -/
def Clock.after : Nat → Clock → Clock
  | 0, c => c
  | n + 1, c => (Clock.after n c).advance

/-- The number of frame boundaries among the first `n` steps of a steady run
started at step 0: step `m + 1` is one exactly when `frame_steps` divides `m`. -/
def boundaries (frame_steps : Int) : Nat → Nat
  | 0 => 0
  | n + 1 => boundaries frame_steps n + if frame_steps ∣ (n : Int) then 1 else 0

/-- The obstacle of a non-rigid steady run after `n` steps, the run having
started at time `t0` and frame 0 with `F` steps per frame and the step size
`dt`: step `n + 1` calls `get_mesh` with the time reached and the frame counter
as `n` steps left it, then `blend_with_next` with the factor `1 / F`. -/
def keyframe_track (files : KeyframeFiles) (F : Nat) (t0 dt : ℚ) : Nat → Obstacle → Obstacle
  | 0, ob => ob
  | n + 1, ob =>
    ((keyframe_track files F t0 dt n ob).get_mesh_at_frame files
      (t0 + ((n + 1 : Nat) : ℚ) * dt) (boundaries F n)).state.blend_with_next (1 / (F : ℚ))

/-- The guard under which `sim_step` calls `save(sim, sim.frame)`. -/
def save_due (sim : Simulation) : Prop :=
  if sim.non_rigid then
    sim.init_wait_frames ≤ 1 ∧ sim.step > 0 ∧
      sim.step.tmod (if sim.init_frame_steps ≠ 0 then sim.init_frame_steps else sim.frame_steps) = 0
  else sim.step.tmod sim.frame_steps = 0

instance (sim : Simulation) : Decidable (save_due sim) := by
  unfold save_due; infer_instance

/-- The part of `init_physics` between `load_json` and `prepare`: the globals
are set, and in rigid mode with an output directory the timing file is opened
and the configuration and the obstacle base meshes are copied there. -/
def init_files (E : Ext) (p : Process) (json_file outdir : String) (is_reloading : Bool)
    (sim : Simulation) : Process :=
  let p := { p with sim := sim, outdir := outdir }
  if !p.sim.non_rigid && !outdir.isEmpty then
    let p := { p with
      timingfile :=
        if E.timingfile_opens (outdir ++ "/timing") then TimingFile.opened
        else TimingFile.failed
      out := p.out ++ [Output.open_timingfile (outdir ++ "/timing") is_reloading] }
    let p := copy_file p json_file (outdir ++ "/conf.json")
    { p with out := p.out ++
        [Output.save_objs (p.sim.obstacles.map fun o => o.base_mesh) (outdir ++ "/obs") false] }
  else p

/-- The call `separate_obstacles(sim.obstacle_meshes, sim.cloth_meshes)` of
`init_physics`. -/
def separated (E : Ext) (sim : Simulation) : Simulation :=
  { (sim.called Solver.separate_obstacles) with
    obstacles := set_obstacle_meshes (sim.called Solver.separate_obstacles).obstacles
      (E.separate_obstacles sim.obstacle_meshes sim.cloth_meshes) }

/-- The part of `relax_initial_state` that follows `validate_handles`. -/
def relaxed (E : Ext) (sim : Simulation) : Simulation :=
  let sim := reset_creases E sim
  let sim := equilibration_step E sim
  let sim := remeshing_step E sim true
  let sim := equilibration_step E sim
  let sim := reset_creases E sim
  let sim := { sim with magic := { sim.magic with preserve_creases := false } }
  if sim.magic.fixed_high_res_mesh then
    { sim with enabled := fun m => if m = Module.Remeshing then false else sim.enabled m }
  else sim

/-- Every constrained node is protected from remeshing: the test of
`validate_handles`. -/
def handles_valid (sim : Simulation) : Prop :=
  sim.handles.all (fun h => h.get_nodes.all fun n => n.preserve) = true

instance (sim : Simulation) : Decidable (handles_valid sim) := by
  unfold handles_valid; infer_instance

/-- A scene with one cloth, no obstacle, only the physics stage enabled, one
step per frame, one frame to run, no ramp-up and no wait frames, at step 0 and
frame 0. -/
def single_step_scene (sim : Simulation) (cloth : Cloth) : Prop :=
  sim.cloths = [cloth] ∧ sim.obstacles = [] ∧
    (∀ m, sim.enabled m = decide (m = Module.Physics)) ∧
    sim.frame_steps = 1 ∧ sim.end_frame = 1 ∧ sim.init_frame_steps = 0 ∧
    sim.init_wait_frames = 0 ∧ sim.step = 0 ∧ sim.frame = 0

/-- The part of `advance_step` that follows `update_obstacles`, from the state
`update_obstacles` returned. -/
def finish_step (E : Ext) (sim : Simulation) : Simulation :=
  let cons := (get_constraints E sim true).1
  let sim := (get_constraints E sim true).2
  let sim := { sim with trace := sim.trace ++ [Call.get_constraints true cons] }
  let sim := physics_step E { sim with trace := sim.trace ++ [Call.physics_step cons] } cons
  let sim := plasticity_step E { sim with trace := sim.trace ++ [Call.plasticity_step] }
  let sim := strainlimiting_step E
    { sim with trace := sim.trace ++ [Call.strainlimiting_step cons] } cons
  let sim := collision_step E { sim with trace := sim.trace ++ [Call.collision_step] }
  let sim := frame_update E sim
  delete_constraints { sim with trace := sim.trace ++ [Call.delete_constraints cons] } cons

/-! ## Basic facts about the stages -/

@[simp] theorem tick_toClock (s : Simulation) (m : Module) : (s.tick m).toClock = s.toClock := rfl

@[simp] theorem tock_toClock (E : Ext) (s : Simulation) (m : Module) : (s.tock E m).toClock = s.toClock := rfl

@[simp] theorem called_toClock (s : Simulation) (f : Solver) : (s.called f).toClock = s.toClock := rfl

@[simp] theorem each_cloth_toClock (s : Simulation) (body : Nat → Cloth → Cloth × List Op) :
    (s.each_cloth body).toClock = s.toClock := rfl

@[simp] theorem delete_constraints_toClock (s : Simulation) (cons : List Constraint) :
    (delete_constraints s cons).toClock = s.toClock := rfl

@[simp] theorem tick_trace (s : Simulation) (m : Module) : (s.tick m).trace = s.trace := rfl

@[simp] theorem tock_trace (E : Ext) (s : Simulation) (m : Module) : (s.tock E m).trace = s.trace := rfl

@[simp] theorem called_trace (s : Simulation) (f : Solver) : (s.called f).trace = s.trace := rfl

@[simp] theorem each_cloth_trace (s : Simulation) (body : Nat → Cloth → Cloth × List Op) :
    (s.each_cloth body).trace = s.trace := rfl

@[simp] theorem delete_constraints_trace (s : Simulation) (cons : List Constraint) :
    (delete_constraints s cons).trace = s.trace := rfl

@[simp] theorem get_constraints_toClock (E : Ext) (s : Simulation) (b : Bool) :
    (get_constraints E s b).2.toClock = s.toClock := by
  unfold get_constraints
  split <;> simp

@[simp] theorem get_constraints_trace (E : Ext) (s : Simulation) (b : Bool) :
    (get_constraints E s b).2.trace = s.trace := by
  unfold get_constraints
  split <;> simp

@[simp] theorem physics_step_toClock (E : Ext) (s : Simulation) (cons : List Constraint) :
    (physics_step E s cons).toClock = s.toClock := by
  unfold physics_step
  split <;> simp

@[simp] theorem physics_step_trace (E : Ext) (s : Simulation) (cons : List Constraint) :
    (physics_step E s cons).trace = s.trace := by
  unfold physics_step
  split <;> simp

@[simp] theorem plasticity_step_toClock (E : Ext) (s : Simulation) :
    (plasticity_step E s).toClock = s.toClock := by
  unfold plasticity_step
  split <;> simp

@[simp] theorem plasticity_step_trace (E : Ext) (s : Simulation) :
    (plasticity_step E s).trace = s.trace := by
  unfold plasticity_step
  split <;> simp

@[simp] theorem strainlimiting_step_toClock (E : Ext) (s : Simulation) (cons : List Constraint) :
    (strainlimiting_step E s cons).toClock = s.toClock := by
  unfold strainlimiting_step
  split <;> simp

@[simp] theorem strainlimiting_step_trace (E : Ext) (s : Simulation) (cons : List Constraint) :
    (strainlimiting_step E s cons).trace = s.trace := by
  unfold strainlimiting_step
  split <;> simp

@[simp] theorem collision_step_toClock (E : Ext) (s : Simulation) :
    (collision_step E s).toClock = s.toClock := by
  unfold collision_step
  split <;> simp

@[simp] theorem collision_step_trace (E : Ext) (s : Simulation) :
    (collision_step E s).trace = s.trace := by
  unfold collision_step
  split <;> simp

@[simp] theorem remeshing_step_toClock (E : Ext) (s : Simulation) (initializing : Bool) :
    (remeshing_step E s initializing).toClock = s.toClock := by
  unfold remeshing_step
  split
  · rfl
  · simp only []
    split_ifs <;> simp

@[simp] theorem remeshing_step_trace (E : Ext) (s : Simulation) (initializing : Bool) :
    (remeshing_step E s initializing).trace = s.trace := by
  unfold remeshing_step
  split
  · rfl
  · simp only []
    split_ifs <;> simp

theorem advance_step_eq (E : Ext) (s : Simulation) :
    advance_step E s =
      (update_obstacles E s.ticked (if s.non_rigid then true else false)).bind id
        fun sim => Outcome.ret (finish_step E sim) := rfl

theorem update_obstacles_state (E : Ext) (s : Simulation) (b : Bool) :
    ∃ obs, (update_obstacles E s b).state = { s with obstacles := obs } := by
  unfold update_obstacles
  cases update_obstacle_list E s b (obstacle_blend s) s.obstacles with
  | ret obs => exact ⟨obs, rfl⟩
  | exited c obs => exact ⟨obs, rfl⟩

theorem update_obstacles_ret (E : Ext) (s s1 : Simulation) (b : Bool)
    (h : update_obstacles E s b = Outcome.ret s1) :
    ∃ obs, s1 = { s with obstacles := obs } := by
  obtain ⟨obs, ho⟩ := update_obstacles_state E s b
  rw [h] at ho
  exact ⟨obs, ho⟩

theorem update_obstacles_exited (E : Ext) (s s1 : Simulation) (b : Bool) (c : Int)
    (h : update_obstacles E s b = Outcome.exited c s1) :
    ∃ obs, s1 = { s with obstacles := obs } := by
  obtain ⟨obs, ho⟩ := update_obstacles_state E s b
  rw [h] at ho
  exact ⟨obs, ho⟩

theorem frame_update_toClock (E : Ext) (s : Simulation) :
    (frame_update E s).toClock = s.toClock.regime := by
  unfold frame_update Clock.regime
  by_cases h1 : s.init_frame_steps = 0
  · by_cases h2 : (s.step - 1).tmod s.frame_steps = 0
    · by_cases h3 : max 0 (s.init_wait_frames - 1) = 0 <;> simp [h1, h2, h3]
    · simp [h1, h2]
  · by_cases h2 : s.step = s.init_frame_steps + 1
    · by_cases h3 : s.init_wait_frames = 0 <;> simp [h1, h2, h3]
    · simp [h1, h2]

theorem frame_update_trace (E : Ext) (s : Simulation) :
    (frame_update E s).trace = s.trace ++
      (if (s.init_frame_steps ≠ 0 ∧ s.step = s.init_frame_steps + 1) ∨
          (s.init_frame_steps = 0 ∧ (s.step - 1).tmod s.frame_steps = 0)
        then [Call.remeshing_step, Call.counter_update] else []) := by
  unfold frame_update
  by_cases h1 : s.init_frame_steps = 0
  · by_cases h2 : (s.step - 1).tmod s.frame_steps = 0
    · by_cases h3 : max 0 (s.init_wait_frames - 1) = 0 <;> simp [h1, h2, h3]
    · simp [h1, h2]
  · by_cases h2 : s.step = s.init_frame_steps + 1
    · by_cases h3 : s.init_wait_frames = 0 <;> simp [h1, h2, h3]
    · simp [h1, h2]

theorem finish_step_toClock (E : Ext) (s : Simulation) :
    (finish_step E s).toClock = s.toClock.regime := by
  simp [finish_step, frame_update_toClock]

theorem finish_step_trace (E : Ext) (s : Simulation) :
    (finish_step E s).trace = s.trace ++
      ([Call.get_constraints true (get_constraints E s true).1,
        Call.physics_step (get_constraints E s true).1, Call.plasticity_step,
        Call.strainlimiting_step (get_constraints E s true).1, Call.collision_step] ++
      (if (s.init_frame_steps ≠ 0 ∧ s.step = s.init_frame_steps + 1) ∨
          (s.init_frame_steps = 0 ∧ (s.step - 1).tmod s.frame_steps = 0)
        then [Call.remeshing_step, Call.counter_update] else []) ++
      [Call.delete_constraints (get_constraints E s true).1]) := by
  simp [finish_step, frame_update_trace]

theorem advance_step_ret (E : Ext) (s s1 : Simulation) (h : advance_step E s = Outcome.ret s1) :
    ∃ s2, update_obstacles E s.ticked (if s.non_rigid then true else false) = Outcome.ret s2 ∧
      s1 = finish_step E s2 := by
  rw [advance_step_eq] at h
  cases hu : update_obstacles E s.ticked (if s.non_rigid then true else false) with
  | ret s2 =>
    rw [hu] at h
    simp only [Outcome.bind, Outcome.ret.injEq] at h
    exact ⟨s2, rfl, h.symm⟩
  | exited c s2 =>
    rw [hu] at h
    simp [Outcome.bind] at h

theorem advance_step_exited (E : Ext) (s s1 : Simulation) (c : Int)
    (h : advance_step E s = Outcome.exited c s1) :
    update_obstacles E s.ticked (if s.non_rigid then true else false) = Outcome.exited c s1 := by
  rw [advance_step_eq] at h
  cases hu : update_obstacles E s.ticked (if s.non_rigid then true else false) with
  | ret s2 =>
    rw [hu] at h
    simp [Outcome.bind] at h
  | exited c2 s2 =>
    rw [hu] at h
    simp only [Outcome.bind, Outcome.exited.injEq, id] at h
    rw [h.1, h.2]

theorem advance_step_ret_toClock (E : Ext) (s s1 : Simulation)
    (h : advance_step E s = Outcome.ret s1) : s1.toClock = s.toClock.advance := by
  obtain ⟨s2, hu, rfl⟩ := advance_step_ret E s s1 h
  obtain ⟨obs, rfl⟩ := update_obstacles_ret E _ _ _ hu
  rw [finish_step_toClock]
  rfl

theorem advance_step_ret_trace (E : Ext) (s s1 : Simulation)
    (h : advance_step E s = Outcome.ret s1) :
    ∃ s2, update_obstacles E s.ticked (if s.non_rigid then true else false) = Outcome.ret s2 ∧
      s1.trace = s.trace ++ step_calls s (get_constraints E s2 true).1 := by
  obtain ⟨s2, hu, rfl⟩ := advance_step_ret E s s1 h
  refine ⟨s2, hu, ?_⟩
  obtain ⟨obs, rfl⟩ := update_obstacles_ret E _ _ _ hu
  rw [finish_step_trace]
  simp only [Simulation.ticked, step_calls, Clock.transition_step, Clock.boundary_step]
  cases s.non_rigid <;> simp

theorem advance_step_exited_state (E : Ext) (s s1 : Simulation) (c : Int)
    (h : advance_step E s = Outcome.exited c s1) :
    ∃ obs, s1 = { s.ticked with obstacles := obs } :=
  update_obstacles_exited E _ _ _ _ (advance_step_exited E s s1 c h)

theorem regime_frame_steps (c : Clock) : c.regime.frame_steps = c.frame_steps := by
  unfold Clock.regime; dsimp only; split_ifs <;> rfl

theorem regime_frame_time (c : Clock) : c.regime.frame_time = c.frame_time := by
  unfold Clock.regime; dsimp only; split_ifs <;> rfl

theorem regime_step (c : Clock) : c.regime.step = c.step := by
  unfold Clock.regime; dsimp only; split_ifs <;> rfl

theorem regime_time (c : Clock) : c.regime.time = c.time := by
  unfold Clock.regime; dsimp only; split_ifs <;> rfl

theorem advance_frame_steps (c : Clock) : c.advance.frame_steps = c.frame_steps := by
  unfold Clock.advance; rw [regime_frame_steps]

theorem advance_frame_time (c : Clock) : c.advance.frame_time = c.frame_time := by
  unfold Clock.advance; rw [regime_frame_time]

theorem advance_step_count (c : Clock) : c.advance.step = c.step + 1 := by
  unfold Clock.advance; rw [regime_step]

theorem advance_time (c : Clock) : c.advance.time = c.time + c.step_time := by
  unfold Clock.advance; rw [regime_time]

/-- In ramp-up, a step that is not the transition step changes only time and step. -/
theorem advance_ramp (c : Clock) (h1 : c.init_frame_steps ≠ 0)
    (h2 : c.step + 1 ≠ c.init_frame_steps + 1) :
    c.advance = { c with time := c.time + c.step_time, step := c.step + 1 } := by
  unfold Clock.advance Clock.regime
  simp [h1, h2]

/-- The transition step. -/
theorem advance_transition (c : Clock) (h1 : c.init_frame_steps ≠ 0)
    (h2 : c.step + 1 = c.init_frame_steps + 1) :
    c.advance = { c with
      time := c.time + c.step_time
      step := c.step + 1
      init_frame_steps := 0
      step_time := c.frame_time / (c.frame_steps : ℚ)
      frame := if c.init_wait_frames = 0 then c.frame + 1 else c.frame } := by
  unfold Clock.advance Clock.regime
  by_cases h3 : c.init_wait_frames = 0 <;> simp [h1, h2, h3]

/-- A steady step that is not a frame boundary changes only time and step. -/
theorem advance_steady_inner (c : Clock) (h1 : c.init_frame_steps = 0)
    (h2 : c.step.tmod c.frame_steps ≠ 0) :
    c.advance = { c with time := c.time + c.step_time, step := c.step + 1 } := by
  unfold Clock.advance Clock.regime
  simp [h1, h2]

/-- A steady step that is a frame boundary. -/
theorem advance_steady_boundary (c : Clock) (h1 : c.init_frame_steps = 0)
    (h2 : c.step.tmod c.frame_steps = 0) :
    c.advance = { c with
      time := c.time + c.step_time
      step := c.step + 1
      init_wait_frames := max 0 (c.init_wait_frames - 1)
      frame := if max 0 (c.init_wait_frames - 1) = 0 then c.frame + 1 else c.frame } := by
  unfold Clock.advance Clock.regime
  by_cases h3 : max 0 (c.init_wait_frames - 1) = 0 <;> simp [h1, h2, h3]

theorem advance_frame_cases (c : Clock) :
    c.advance.frame = c.frame ∨ c.advance.frame = c.frame + 1 := by
  unfold Clock.advance Clock.regime
  dsimp only
  split_ifs <;> simp

theorem advance_steady_stays (c : Clock) (h : c.init_frame_steps = 0) :
    c.advance.init_frame_steps = 0 ∧ c.advance.step_time = c.step_time := by
  unfold Clock.advance Clock.regime
  dsimp only
  split_ifs <;> simp_all

theorem after_frame_steps (n : Nat) (c : Clock) : (Clock.after n c).frame_steps = c.frame_steps := by
  induction n with
  | zero => rfl
  | succ n ih => rw [Clock.after, advance_frame_steps, ih]

theorem after_frame_time (n : Nat) (c : Clock) : (Clock.after n c).frame_time = c.frame_time := by
  induction n with
  | zero => rfl
  | succ n ih => rw [Clock.after, advance_frame_time, ih]

theorem after_step (n : Nat) (c : Clock) : (Clock.after n c).step = c.step + n := by
  induction n with
  | zero => simp [Clock.after]
  | succ n ih => rw [Clock.after, advance_step_count, ih]; push_cast; ring

theorem after_steady (n : Nat) (c : Clock) (h : c.init_frame_steps = 0) :
    (Clock.after n c).init_frame_steps = 0 ∧ (Clock.after n c).step_time = c.step_time := by
  induction n with
  | zero => exact ⟨h, rfl⟩
  | succ n ih =>
    have := advance_steady_stays (Clock.after n c) ih.1
    exact ⟨this.1, this.2.trans ih.2⟩

theorem after_add (m n : Nat) (c : Clock) :
    Clock.after (m + n) c = Clock.after n (Clock.after m c) := by
  induction n with
  | zero => rfl
  | succ n ih => rw [← Nat.add_assoc, Clock.after, ih, Clock.after]

/-- A run that returns has advanced the clock once per step. -/
theorem run_ret_toClock (E : Ext) (n : Nat) (s0 s : Simulation) (h : run E n s0 = Outcome.ret s) :
    s.toClock = Clock.after n s0.toClock := by
  induction n generalizing s with
  | zero =>
    simp only [run, Outcome.ret.injEq] at h
    rw [← h]; rfl
  | succ n ih =>
    rw [run] at h
    cases hr : run E n s0 with
    | ret s1 =>
      rw [hr] at h
      simp only [Outcome.bind] at h
      rw [advance_step_ret_toClock E s1 s h, ih s1 hr, Clock.after]
    | exited c s1 =>
      rw [hr] at h
      simp [Outcome.bind] at h

/-- A run of `n + 1` steps that returns is a run of `n` steps that returns,
followed by a step that returns. -/
theorem run_succ_ret (E : Ext) (n : Nat) (s0 s : Simulation)
    (h : run E (n + 1) s0 = Outcome.ret s) :
    ∃ s1, run E n s0 = Outcome.ret s1 ∧ advance_step E s1 = Outcome.ret s := by
  rw [run] at h
  cases hr : run E n s0 with
  | ret s1 =>
    rw [hr] at h
    exact ⟨s1, rfl, h⟩
  | exited c s1 =>
    rw [hr] at h
    simp [Outcome.bind] at h

@[simp] theorem tick_non_rigid (s : Simulation) (m : Module) :
    (s.tick m).non_rigid = s.non_rigid := rfl

@[simp] theorem tock_non_rigid (E : Ext) (s : Simulation) (m : Module) :
    (s.tock E m).non_rigid = s.non_rigid := rfl

@[simp] theorem called_non_rigid (s : Simulation) (f : Solver) :
    (s.called f).non_rigid = s.non_rigid := rfl

@[simp] theorem each_cloth_non_rigid (s : Simulation) (body : Nat → Cloth → Cloth × List Op) :
    (s.each_cloth body).non_rigid = s.non_rigid := rfl

@[simp] theorem delete_constraints_non_rigid (s : Simulation) (cons : List Constraint) :
    (delete_constraints s cons).non_rigid = s.non_rigid := rfl

@[simp] theorem get_constraints_non_rigid (E : Ext) (s : Simulation) (b : Bool) :
    (get_constraints E s b).2.non_rigid = s.non_rigid := by
  unfold get_constraints
  split <;> rfl

@[simp] theorem physics_step_non_rigid (E : Ext) (s : Simulation) (cons : List Constraint) :
    (physics_step E s cons).non_rigid = s.non_rigid := by
  unfold physics_step
  split <;> rfl

@[simp] theorem plasticity_step_non_rigid (E : Ext) (s : Simulation) :
    (plasticity_step E s).non_rigid = s.non_rigid := by
  unfold plasticity_step
  split <;> rfl

@[simp] theorem strainlimiting_step_non_rigid (E : Ext) (s : Simulation) (cons : List Constraint) :
    (strainlimiting_step E s cons).non_rigid = s.non_rigid := by
  unfold strainlimiting_step
  split <;> rfl

@[simp] theorem collision_step_non_rigid (E : Ext) (s : Simulation) :
    (collision_step E s).non_rigid = s.non_rigid := by
  unfold collision_step
  split
  · rfl
  · simp

@[simp] theorem remeshing_step_non_rigid (E : Ext) (s : Simulation) (initializing : Bool) :
    (remeshing_step E s initializing).non_rigid = s.non_rigid := by
  unfold remeshing_step
  split
  · rfl
  · simp only []
    split_ifs <;> simp

theorem frame_update_non_rigid (E : Ext) (s : Simulation) :
    (frame_update E s).non_rigid = s.non_rigid := by
  unfold frame_update
  dsimp only
  split_ifs <;> simp

theorem finish_step_non_rigid (E : Ext) (s : Simulation) :
    (finish_step E s).non_rigid = s.non_rigid := by
  simp [finish_step, frame_update_non_rigid]

/-- In rigid mode the body of the obstacle loop always returns. -/
theorem update_obstacle_rigid (E : Ext) (s : Simulation) (b : Bool) (blend : ℚ) (ob : Obstacle)
    (h : s.non_rigid = false) : ∃ ob1, update_obstacle E s b blend ob = Outcome.ret ob1 := by
  unfold update_obstacle
  simp only [h, Bool.false_eq_true, if_false, Outcome.bind]
  split <;> exact ⟨_, rfl⟩

theorem update_obstacle_list_rigid (E : Ext) (s : Simulation) (b : Bool) (blend : ℚ)
    (obs : List Obstacle) (h : s.non_rigid = false) :
    ∃ obs1, update_obstacle_list E s b blend obs = Outcome.ret obs1 := by
  induction obs with
  | nil => exact ⟨[], rfl⟩
  | cons ob obs ih =>
    obtain ⟨ob1, h1⟩ := update_obstacle_rigid E s b blend ob h
    obtain ⟨obs1, h2⟩ := ih
    exact ⟨ob1 :: obs1, by simp [update_obstacle_list, h1, h2, Outcome.bind]⟩

theorem update_obstacles_rigid (E : Ext) (s : Simulation) (b : Bool) (h : s.non_rigid = false) :
    ∃ s1, update_obstacles E s b = Outcome.ret s1 := by
  obtain ⟨obs1, h1⟩ := update_obstacle_list_rigid E s b (obstacle_blend s) s.obstacles h
  exact ⟨{ s with obstacles := obs1 }, by simp [update_obstacles, h1, Outcome.bind]⟩

/-- In rigid mode `advance_step` always returns, and the mode stays rigid. -/
theorem advance_step_rigid (E : Ext) (s : Simulation) (h : s.non_rigid = false) :
    ∃ s1, advance_step E s = Outcome.ret s1 ∧ s1.non_rigid = false := by
  obtain ⟨s2, h2⟩ := update_obstacles_rigid E s.ticked (if s.non_rigid then true else false) h
  refine ⟨finish_step E s2, by rw [advance_step_eq, h2]; rfl, ?_⟩
  obtain ⟨obs, rfl⟩ := update_obstacles_ret E _ _ _ h2
  rw [finish_step_non_rigid]
  exact h

/-- In rigid mode every run returns. -/
theorem run_rigid (E : Ext) (n : Nat) (s0 : Simulation) (h : s0.non_rigid = false) :
    ∃ s, run E n s0 = Outcome.ret s ∧ s.non_rigid = false := by
  induction n with
  | zero => exact ⟨s0, rfl, h⟩
  | succ n ih =>
    obtain ⟨s1, h1, hr⟩ := ih
    obtain ⟨s2, h2, hr2⟩ := advance_step_rigid E s1 hr
    exact ⟨s2, by rw [run, h1]; exact h2, hr2⟩

theorem tmod_zero_iff_dvd (a b : Int) : a.tmod b = 0 ↔ b ∣ a :=
  Int.dvd_iff_tmod_eq_zero.symm

/-- Ramp-up: while the step counter has not passed `init_frame_steps`, a step
changes only time and step. -/
theorem after_ramp (c : Clock) (k : Int) (hifs : c.init_frame_steps = k) (h0 : c.step = 0)
    (n : Nat) (hn : (n : Int) ≤ k) :
    Clock.after n c = { c with time := c.time + n * c.step_time, step := n } := by
  induction n with
  | zero =>
    cases c
    simp_all [Clock.after]
  | succ n ih =>
    have hn1 : (n : Int) ≤ k := by push_cast at hn; omega
    rw [Clock.after, ih hn1, advance_ramp]
    · simp only [Clock.mk.injEq, and_true, true_and]
      constructor
      · push_cast; ring
      · push_cast; ring
    · simp only [hifs]; push_cast at hn; omega
    · simp only [hifs]; push_cast at hn; omega

/-- The transition step of a run started at step 0 with `init_frame_steps = k > 0`
is step `k + 1`. -/
theorem after_transition (c : Clock) (k : Nat) (hk : 0 < k) (hifs : c.init_frame_steps = k)
    (h0 : c.step = 0) :
    Clock.after (k + 1) c = { c with
      time := c.time + (k + 1) * c.step_time
      step := k + 1
      init_frame_steps := 0
      step_time := c.frame_time / (c.frame_steps : ℚ)
      frame := if c.init_wait_frames = 0 then c.frame + 1 else c.frame } := by
  rw [Clock.after, after_ramp c k hifs h0 k le_rfl, advance_transition]
  · simp only [Clock.mk.injEq, and_true, true_and]
    ring
  · simp only [hifs]; omega
  · simp only [hifs]

/-- After the transition step the regime is steady and the step size nominal. -/
theorem after_past_transition (c : Clock) (k : Nat) (hk : 0 < k)
    (hifs : c.init_frame_steps = k) (h0 : c.step = 0) (n : Nat) (hn : k + 1 ≤ n) :
    (Clock.after n c).init_frame_steps = 0 ∧
      (Clock.after n c).step_time = c.frame_time / (c.frame_steps : ℚ) := by
  obtain ⟨m, rfl⟩ := Nat.exists_eq_add_of_le hn
  rw [after_add]
  have h := after_steady m (Clock.after (k + 1) c) (by rw [after_transition c k hk hifs h0])
  refine ⟨h.1, h.2.trans ?_⟩
  rw [after_transition c k hk hifs h0]

/-- When `frame_steps` is at least 1, it divides the number `q * frame_steps + r`
with `r < frame_steps` exactly when `r = 0`. -/
theorem dvd_offset (F q r : Nat) (hr : r < F) : ((F : Int) ∣ ((q * F + r : Nat) : Int)) ↔ r = 0 := by
  rw [Int.natCast_dvd_natCast]
  constructor
  · intro h
    have h2 : F ∣ r := (Nat.dvd_add_right (Dvd.intro_left q rfl)).mp h
    exact Nat.eq_zero_of_dvd_of_lt h2 hr
  · rintro rfl
    exact Dvd.intro_left q rfl

theorem boundaries_succ (F : Nat) (hF : 0 < F) :
    ∀ n q r : Nat, n = q * F + r → r < F → boundaries F (n + 1) = q + 1 := by
  intro n
  induction n with
  | zero =>
    intro q r h hr
    have hq : q * F = 0 := by omega
    rcases Nat.mul_eq_zero.mp hq with hq0 | hF0
    · subst hq0; simp [boundaries]
    · omega
  | succ n ih =>
    intro q r h hr
    have hd : ((F : Int) ∣ ((n + 1 : Nat) : Int)) ↔ r = 0 := by
      rw [h]; exact dvd_offset F q r hr
    rw [boundaries]
    by_cases r0 : r = 0
    · subst r0
      cases q with
      | zero => omega
      | succ q =>
        rw [Nat.succ_mul] at h
        have h1 := ih q (F - 1) (by omega) (by omega)
        rw [h1, if_pos (hd.mpr rfl)]
    · have h1 := ih q (r - 1) (by omega) (by omega)
      rw [h1, if_neg (fun hx => r0 (hd.mp hx))]

theorem boundaries_closed (F : Nat) (hF : 0 < F) (q r : Nat) (hr : r < F) :
    boundaries F (q * F + r + 1) = q + 1 :=
  boundaries_succ F hF (q * F + r) q r rfl hr

theorem boundaries_mul (F : Nat) (hF : 0 < F) (m : Nat) : boundaries F (m * F) = m := by
  cases m with
  | zero => simp [boundaries]
  | succ m =>
    have h := boundaries_closed F hF m (F - 1) (by omega)
    have e : (m + 1) * F = m * F + (F - 1) + 1 := by rw [Nat.succ_mul]; omega
    rw [e, h]

/-- The clock of a steady run started at step 0, after `n` steps, by the number
of frame boundaries passed. -/
theorem after_steady_closed (c : Clock) (h0 : c.step = 0) (hifs : c.init_frame_steps = 0)
    (n : Nat) :
    Clock.after n c = { c with
      time := c.time + n * c.step_time
      step := n
      init_wait_frames :=
        if boundaries c.frame_steps n = 0 then c.init_wait_frames
        else max 0 (c.init_wait_frames - boundaries c.frame_steps n)
      frame := c.frame +
        max 0 ((boundaries c.frame_steps n : Int) - max 0 (c.init_wait_frames - 1)) } := by
  induction n with
  | zero =>
    cases c
    simp_all [Clock.after, boundaries]
  | succ n ih =>
    have hstep : (Clock.after n c).step = n := by rw [after_step, h0]; simp
    have hfs := after_frame_steps n c
    have hst := after_steady n c hifs
    by_cases hb : c.frame_steps ∣ (n : Int)
    · have hbd : (Clock.after n c).step.tmod (Clock.after n c).frame_steps = 0 := by
        rw [hstep, hfs]; exact (tmod_zero_iff_dvd _ _).mpr hb
      rw [Clock.after, advance_steady_boundary _ hst.1 hbd, ih]
      simp only [boundaries, if_pos hb, Clock.mk.injEq, and_true, true_and]
      refine ⟨by push_cast; ring, by push_cast; ring, ?_, ?_⟩
      · generalize boundaries c.frame_steps n = b
        generalize c.init_wait_frames = w
        generalize c.frame = f
        push_cast
        simp only [max_def]
        split_ifs <;> omega
      · generalize boundaries c.frame_steps n = b
        generalize c.init_wait_frames = w
        push_cast
        simp only [max_def]
        split_ifs <;> omega
    · have hbd : (Clock.after n c).step.tmod (Clock.after n c).frame_steps ≠ 0 := by
        rw [hstep, hfs]; exact fun hx => hb ((tmod_zero_iff_dvd _ _).mp hx)
      rw [Clock.after, advance_steady_inner _ hst.1 hbd, ih]
      simp only [boundaries, if_neg hb, Clock.mk.injEq, and_true, true_and, Nat.add_zero]
      refine ⟨by push_cast; ring, by push_cast; ring⟩

theorem remeshing_mem_step_calls (s : Simulation) (cons : List Constraint) :
    Call.remeshing_step ∈ step_calls s cons ↔
      s.toClock.transition_step ∨ s.toClock.boundary_step := by
  unfold step_calls
  by_cases h : s.toClock.transition_step ∨ s.toClock.boundary_step
  · simp [h]
  · simp [h]

/-- C1. In a run started at step 0 with `init_frame_steps = k > 0`, the step
from the state after `n` steps is step `n + 1`.  It enters the transition
branch exactly when `n + 1 = k + 1`; on that step `init_frame_steps` becomes 0,
`step_time` becomes `frame_time / frame_steps` and `remeshing_step` is called;
on the steps before it `remeshing_step` is not called and `frame` and
`init_frame_steps` stay as they are; on the steps after it the regime is
steady before and after the step.  In rigid mode every such step completes. -/
theorem rampup_transition_exactly_once (E : Ext) (s0 : Simulation) (k : Nat) (hk : 0 < k)
    (h0 : s0.step = 0) (hifs : s0.init_frame_steps = k) (_hfs : 1 ≤ s0.frame_steps)
    (n : Nat) :
    (s0.non_rigid = false →
      ∃ s s1, run E n s0 = Outcome.ret s ∧ advance_step E s = Outcome.ret s1) ∧
    ∀ s s1, run E n s0 = Outcome.ret s → advance_step E s = Outcome.ret s1 →
      (s.toClock.transition_step ↔ n = k) ∧
      (∃ cons, s1.trace = s.trace ++ step_calls s cons) ∧
      (n < k → (∀ cons, Call.remeshing_step ∉ step_calls s cons) ∧
        s1.frame = s.frame ∧ s1.init_frame_steps = k) ∧
      (n = k → s.init_frame_steps = k ∧ s1.init_frame_steps = 0 ∧
        s1.step_time = s0.frame_time / (s0.frame_steps : ℚ) ∧
        ∀ cons, Call.remeshing_step ∈ step_calls s cons) ∧
      (k < n → s.init_frame_steps = 0 ∧ s1.init_frame_steps = 0 ∧
        s1.step_time = s0.frame_time / (s0.frame_steps : ℚ)) := by
  constructor
  · intro hr
    obtain ⟨s, hs, hnr⟩ := run_rigid E n s0 hr
    obtain ⟨s1, hs1, _⟩ := advance_step_rigid E s hnr
    exact ⟨s, s1, hs, hs1⟩
  · intro s s1 hrun hstep
    have hc : s.toClock = Clock.after n s0.toClock := run_ret_toClock E n s0 s hrun
    have hc1 : s1.toClock = s.toClock.advance := advance_step_ret_toClock E s s1 hstep
    obtain ⟨s2, _, htr⟩ := advance_step_ret_trace E s s1 hstep
    have hk0 : (k : Int) ≠ 0 := by omega
    rcases Nat.lt_or_ge k n with hlt | hge
    · -- after the transition
      have hpast := after_past_transition s0.toClock k hk hifs h0 n (by omega)
      rw [← hc] at hpast
      have hst := advance_steady_stays s.toClock hpast.1
      rw [← hc1] at hst
      refine ⟨?_, ⟨_, htr⟩, fun h => absurd h (by omega), fun h => absurd h (by omega),
        fun _ => ⟨hpast.1, hst.1, hst.2.trans hpast.2⟩⟩
      constructor
      · intro ht
        exact absurd hpast.1 ht.1
      · intro h; omega
    · -- up to the transition
      have hramp := after_ramp s0.toClock k hifs h0 n (by exact_mod_cast hge)
      rw [← hc] at hramp
      have hsifs : s.init_frame_steps = k := by
        have := congrArg Clock.init_frame_steps hramp
        exact this.trans hifs
      have hsstep : s.step = n := by
        have := congrArg Clock.step hramp; exact this
      have hsft : s.frame_time = s0.frame_time := by
        have := congrArg Clock.frame_time hramp; exact this
      have hsfs : s.frame_steps = s0.frame_steps := by
        have := congrArg Clock.frame_steps hramp; exact this
      have htrans : s.toClock.transition_step ↔ n = k := by
        unfold Clock.transition_step
        rw [hsifs, hsstep]
        constructor
        · intro h; omega
        · intro h; exact ⟨hk0, by omega⟩
      refine ⟨htrans, ⟨_, htr⟩, ?_, ?_, fun h => absurd h (by omega)⟩
      · intro hlt
        have hadv := advance_ramp s.toClock (by rw [hsifs]; exact hk0)
          (by rw [hsifs, hsstep]; omega)
        rw [← hc1] at hadv
        have hfr : s1.frame = s.frame := by
          have := congrArg Clock.frame hadv; exact this
        have hif1 : s1.init_frame_steps = s.init_frame_steps := by
          have := congrArg Clock.init_frame_steps hadv; exact this
        refine ⟨fun cons hmem => ?_, hfr, hif1.trans hsifs⟩
        rcases (remeshing_mem_step_calls s cons).mp hmem with ht | hb
        · have := htrans.mp ht; omega
        · exact hk0 (hsifs.symm.trans hb.1)
      · intro heq
        have ht := htrans.mpr heq
        have hadv := advance_transition s.toClock ht.1 ht.2
        rw [← hc1] at hadv
        have hif1 : s1.init_frame_steps = 0 := by
          have := congrArg Clock.init_frame_steps hadv; exact this
        refine ⟨hsifs, hif1, ?_,
          fun cons => (remeshing_mem_step_calls s cons).mpr (Or.inl ht)⟩
        have := congrArg Clock.step_time hadv
        rw [this]
        show s.frame_time / (s.frame_steps : ℚ) = _
        rw [hsft, hsfs]



/-- C1, at a concrete input: an empty rigid scene with `init_frame_steps = 2`
and `frame_steps = 2`; step 3 is the transition step. -/
theorem rampup_transition_exactly_once_witness :
    ∃ s s1, run Ext.idle 2 (bare_scene 2 2 0 1 (1 / 4) false) = Outcome.ret s ∧
      advance_step Ext.idle s = Outcome.ret s1 ∧
      s.toClock.transition_step ∧ s.init_frame_steps = 2 ∧ s1.init_frame_steps = 0 ∧
      s1.step_time = (bare_scene 2 2 0 1 (1 / 4) false).frame_time /
        ((bare_scene 2 2 0 1 (1 / 4) false).frame_steps : ℚ) := by
  have h := rampup_transition_exactly_once Ext.idle (bare_scene 2 2 0 1 (1 / 4) false) 2
    (by decide) rfl rfl (by decide) 2
  obtain ⟨s, s1, hs, hs1⟩ := h.1 rfl
  have h2 := h.2 s s1 hs hs1
  have h3 := h2.2.2.2.1 rfl
  exact ⟨s, s1, hs, hs1, h2.1.mpr rfl, h3.1, h3.2.1, h3.2.2.1⟩

/-- With a negative `init_frame_steps` the transition step is never reached:
every step changes only time and step. -/
theorem after_ramp_neg (c : Clock) (hifs : c.init_frame_steps < 0) (h0 : c.step = 0) (n : Nat) :
    Clock.after n c = { c with time := c.time + n * c.step_time, step := n } := by
  induction n with
  | zero =>
    cases c
    simp_all [Clock.after]
  | succ n ih =>
    rw [Clock.after, ih, advance_ramp]
    · simp only [Clock.mk.injEq, and_true, true_and]
      constructor
      · push_cast; ring
      · push_cast; ring
    · show c.init_frame_steps ≠ 0
      omega
    · show (n : Int) + 1 ≠ c.init_frame_steps + 1
      omega

/-- C3, as amended.  One `advance_step` increments the step counter and leaves
the frame counter unchanged or increases it by exactly 1; a step cut short by a
fatal exit leaves it unchanged.  In the steady regime the frame counter is
increased by exactly 1 exactly when the step count after the increment, minus
one, is a multiple of `frame_steps` and the wait counter is 0 after its
decrement; the wait counter is decremented (not below 0) on exactly those
steps whose count minus one is a multiple of `frame_steps`.  In ramp-up the
frame counter is increased exactly on the step whose count is
`init_frame_steps + 1`, if the wait counter is 0, and the wait counter is not
changed. -/
theorem frame_counter_monotone (E : Ext) (s : Simulation) (_hfs : 1 ≤ s.frame_steps)
    (_hstep : 0 ≤ s.step) :
    (∀ c s1, advance_step E s = Outcome.exited c s1 → s1.frame = s.frame) ∧
    ∀ s1, advance_step E s = Outcome.ret s1 →
      s1.step = s.step + 1 ∧
      (s1.frame = s.frame ∨ s1.frame = s.frame + 1) ∧
      (s.init_frame_steps = 0 →
        (s1.frame = s.frame + 1 ↔
          s.frame_steps ∣ s1.step - 1 ∧ max 0 (s.init_wait_frames - 1) = 0) ∧
        (s.frame_steps ∣ s1.step - 1 →
          s1.init_wait_frames = max 0 (s.init_wait_frames - 1)) ∧
        (¬ s.frame_steps ∣ s1.step - 1 → s1.init_wait_frames = s.init_wait_frames)) ∧
      (s.init_frame_steps ≠ 0 →
        (s1.frame = s.frame + 1 ↔
          s1.step = s.init_frame_steps + 1 ∧ s.init_wait_frames = 0) ∧
        s1.init_wait_frames = s.init_wait_frames) := by
  constructor
  · intro c s1 h
    obtain ⟨obs, rfl⟩ := advance_step_exited_state E s s1 c h
    rfl
  · intro s1 h
    have hc := advance_step_ret_toClock E s s1 h
    have hstep : s1.step = s.step + 1 := by
      have := congrArg Clock.step hc
      rw [advance_step_count] at this
      exact this
    have hstep1 : s1.step - 1 = s.step := by rw [hstep]; ring
    refine ⟨hstep, ?_, ?_, ?_⟩
    · have := advance_frame_cases s.toClock
      rw [← hc] at this
      exact this
    · intro hifs
      rw [hstep1]
      by_cases hb : s.frame_steps ∣ s.step
      · have hadv := advance_steady_boundary s.toClock hifs ((tmod_zero_iff_dvd _ _).mpr hb)
        rw [← hc] at hadv
        have hfr : s1.frame = if max 0 (s.init_wait_frames - 1) = 0 then s.frame + 1
            else s.frame := by
          have := congrArg Clock.frame hadv; exact this
        have hiw : s1.init_wait_frames = max 0 (s.init_wait_frames - 1) := by
          have := congrArg Clock.init_wait_frames hadv; exact this
        refine ⟨?_, fun _ => hiw, fun hn => absurd hb hn⟩
        by_cases hw : max 0 (s.init_wait_frames - 1) = 0
        · rw [if_pos hw] at hfr
          exact ⟨fun _ => ⟨hb, hw⟩, fun _ => hfr⟩
        · rw [if_neg hw] at hfr
          exact ⟨fun h1 => by omega, fun h1 => absurd h1.2 hw⟩
      · have hadv := advance_steady_inner s.toClock hifs
          (fun hx => hb ((tmod_zero_iff_dvd _ _).mp hx))
        rw [← hc] at hadv
        have e : s1.frame = s.frame := by
          have := congrArg Clock.frame hadv; exact this
        have hiw : s1.init_wait_frames = s.init_wait_frames := by
          have := congrArg Clock.init_wait_frames hadv; exact this
        exact ⟨⟨fun h1 => by omega, fun h1 => absurd h1.1 hb⟩, fun h1 => absurd h1 hb,
          fun _ => hiw⟩
    · intro hifs
      rw [hstep]
      by_cases ht : s.step + 1 = s.init_frame_steps + 1
      · have hadv := advance_transition s.toClock hifs ht
        rw [← hc] at hadv
        have hfr : s1.frame = if s.init_wait_frames = 0 then s.frame + 1 else s.frame := by
          have := congrArg Clock.frame hadv; exact this
        have hiw : s1.init_wait_frames = s.init_wait_frames := by
          have := congrArg Clock.init_wait_frames hadv; exact this
        refine ⟨?_, hiw⟩
        by_cases hw : s.init_wait_frames = 0
        · rw [if_pos hw] at hfr
          exact ⟨fun _ => ⟨ht, hw⟩, fun _ => hfr⟩
        · rw [if_neg hw] at hfr
          exact ⟨fun h1 => by omega, fun h1 => absurd h1.2 hw⟩
      · have hadv := advance_ramp s.toClock hifs ht
        rw [← hc] at hadv
        have e : s1.frame = s.frame := by
          have := congrArg Clock.frame hadv; exact this
        have hiw : s1.init_wait_frames = s.init_wait_frames := by
          have := congrArg Clock.init_wait_frames hadv; exact this
        exact ⟨⟨fun h1 => by omega, fun h1 => absurd h1.1 ht⟩, hiw⟩

/-- C3, as amended, at a concrete input: the first step of an empty steady
scene with `frame_steps = 3` and one wait frame; the step count becomes 1, the
wait counter is 0 after its decrement, and the frame counter is increased. -/
theorem frame_counter_monotone_witness :
    ∃ s1, advance_step Ext.idle (bare_scene 3 0 1 1 (1 / 3) false) = Outcome.ret s1 ∧
      s1.step = (bare_scene 3 0 1 1 (1 / 3) false).step + 1 ∧
      (s1.frame = (bare_scene 3 0 1 1 (1 / 3) false).frame ∨
        s1.frame = (bare_scene 3 0 1 1 (1 / 3) false).frame + 1) ∧
      (s1.frame = (bare_scene 3 0 1 1 (1 / 3) false).frame + 1 ↔
        (bare_scene 3 0 1 1 (1 / 3) false).frame_steps ∣ s1.step - 1 ∧
          max 0 ((bare_scene 3 0 1 1 (1 / 3) false).init_wait_frames - 1) = 0) ∧
      s1.frame = 1 :=
  ⟨_, rfl,
    ((frame_counter_monotone Ext.idle (bare_scene 3 0 1 1 (1 / 3) false) (by decide)
      (by decide)).2 _ rfl).1,
    ((frame_counter_monotone Ext.idle (bare_scene 3 0 1 1 (1 / 3) false) (by decide)
      (by decide)).2 _ rfl).2.1,
    (((frame_counter_monotone Ext.idle (bare_scene 3 0 1 1 (1 / 3) false) (by decide)
      (by decide)).2 _ rfl).2.2.1 rfl).1,
    by decide!⟩

/-- C3 fails as stated, a frame boundary being a step whose count is a multiple
of `frame_steps`: in a steady run with `frame_steps = 3` and one wait frame,
the step that brings the count to 3 starts with the wait counter exhausted and
leaves the frame counter unchanged. -/
theorem frame_counter_multiple_counterexample :
    ∃ s2 s3, run Ext.idle 2 (bare_scene 3 0 1 1 (1 / 3) false) = Outcome.ret s2 ∧
      advance_step Ext.idle s2 = Outcome.ret s3 ∧
      1 ≤ s2.frame_steps ∧ 0 ≤ s2.step ∧ s2.init_frame_steps = 0 ∧
      s3.step = 3 ∧ s2.frame_steps ∣ s3.step ∧
      s2.init_wait_frames = 0 ∧ max 0 (s2.init_wait_frames - 1) = 0 ∧
      s3.init_wait_frames = 0 ∧ s3.frame = s2.frame :=
  ⟨_, _, rfl, rfl, by decide!, by decide!, by decide!, by decide!, by decide!, by decide!,
    by decide!, by decide!, by decide!⟩

/-- C4, as amended.  In the steady regime with no wait frames, `advance_step`
calls `remeshing_step` and advances `frame` exactly when the step count after
the increment, minus one, is a multiple of `frame_steps`; the regime stays
steady with no wait frames.  Hence in a run started at step 0 the frame counter
is `q + 1` above its start after `q * frame_steps + r + 1` steps, for
`r < frame_steps`: it increases on the steps `1`, `frame_steps + 1`,
`2 * frame_steps + 1`, ..., the first time on the very first step and then
every `frame_steps` steps.  In rigid mode every run completes. -/
theorem steady_frame_boundary (E : Ext) (s : Simulation) (F : Nat) (hF : 0 < F)
    (hfs : s.frame_steps = F) (hifs : s.init_frame_steps = 0) (hw : s.init_wait_frames = 0) :
    (∀ s1, advance_step E s = Outcome.ret s1 →
      (∃ cons, s1.trace = s.trace ++ step_calls s cons) ∧
      (∀ cons, Call.remeshing_step ∈ step_calls s cons ↔ s.frame_steps ∣ s1.step - 1) ∧
      (s1.frame = s.frame + 1 ↔ s.frame_steps ∣ s1.step - 1) ∧
      (s1.frame = s.frame ∨ s1.frame = s.frame + 1) ∧
      s1.init_frame_steps = 0 ∧ s1.init_wait_frames = 0) ∧
    (s.step = 0 → ∀ q r : Nat, r < F → ∀ s1, run E (q * F + r + 1) s = Outcome.ret s1 →
      s1.frame = s.frame + q + 1) ∧
    (s.non_rigid = false → ∀ n, ∃ s1, run E n s = Outcome.ret s1) := by
  refine ⟨?_, ?_, ?_⟩
  · intro s1 h
    have hc := advance_step_ret_toClock E s s1 h
    obtain ⟨s2, _, htr⟩ := advance_step_ret_trace E s s1 h
    have hstep1 : s1.step - 1 = s.step := by
      have := congrArg Clock.step hc
      rw [advance_step_count] at this
      have e : s1.step = s.step + 1 := this
      rw [e]; ring
    have hbd : s.toClock.boundary_step ↔ s.frame_steps ∣ s.step := by
      unfold Clock.boundary_step
      rw [← tmod_zero_iff_dvd]
      simp [hifs]
    have hst := advance_steady_stays s.toClock hifs
    rw [← hc] at hst
    rw [hstep1]
    refine ⟨⟨_, htr⟩, ?_, ?_, ?_, hst.1, ?_⟩
    · intro cons
      rw [remeshing_mem_step_calls, hbd]
      constructor
      · rintro (ht | hb)
        · exact absurd hifs ht.1
        · exact hb
      · exact fun hb => Or.inr hb
    · by_cases hb : s.frame_steps ∣ s.step
      · have hadv := advance_steady_boundary s.toClock hifs ((tmod_zero_iff_dvd _ _).mpr hb)
        rw [← hc] at hadv
        have hfr := congrArg Clock.frame hadv
        have e : s1.frame = s.frame + 1 := by
          have hw' : s.toClock.init_wait_frames = 0 := hw
          simpa [hw'] using hfr
        exact ⟨fun _ => hb, fun _ => e⟩
      · have hadv := advance_steady_inner s.toClock hifs
          (fun hx => hb ((tmod_zero_iff_dvd _ _).mp hx))
        rw [← hc] at hadv
        have e : s1.frame = s.frame := by
          have := congrArg Clock.frame hadv; exact this
        exact ⟨fun h1 => by omega, fun h1 => absurd h1 hb⟩
    · have := advance_frame_cases s.toClock
      rw [← hc] at this
      exact this
    · by_cases hb : s.frame_steps ∣ s.step
      · have hadv := advance_steady_boundary s.toClock hifs ((tmod_zero_iff_dvd _ _).mpr hb)
        rw [← hc] at hadv
        have hiw := congrArg Clock.init_wait_frames hadv
        have hw' : s.toClock.init_wait_frames = 0 := hw
        simpa [hw'] using hiw
      · have hadv := advance_steady_inner s.toClock hifs
          (fun hx => hb ((tmod_zero_iff_dvd _ _).mp hx))
        rw [← hc] at hadv
        have e : s1.init_wait_frames = s.init_wait_frames := by
          have := congrArg Clock.init_wait_frames hadv; exact this
        exact e.trans hw
  · intro h0 q r hr s1 hrun
    have hc := run_ret_toClock E _ s s1 hrun
    rw [after_steady_closed s.toClock h0 hifs] at hc
    have hfr := congrArg Clock.frame hc
    have hfs' : s.toClock.frame_steps = F := hfs
    have hw' : s.toClock.init_wait_frames = 0 := hw
    simp only [hfs', hw', boundaries_closed F hF q r hr] at hfr
    have e : s1.frame = s.frame + max 0 (((q + 1 : Nat) : Int) - max 0 (0 - 1)) := hfr
    rw [e]
    push_cast
    simp only [max_def]
    split_ifs <;> omega
  · intro hr n
    obtain ⟨s1, h1, _⟩ := run_rigid E n s hr
    exact ⟨s1, h1⟩

/-- C4, as amended, at a concrete input: an empty steady scene with
`frame_steps = 2`; after 4 steps the frame counter has advanced twice. -/
theorem steady_frame_boundary_witness :
    ∃ s1, run Ext.idle 4 (bare_scene 2 0 0 1 (1 / 2) false) = Outcome.ret s1 ∧
      s1.frame = (bare_scene 2 0 0 1 (1 / 2) false).frame + 1 + 1 :=
  ⟨_, rfl,
    (steady_frame_boundary Ext.idle (bare_scene 2 0 0 1 (1 / 2) false) 2 (by decide) rfl rfl
      rfl).2.1 rfl 1 1 (by decide) _ rfl⟩

/-- C4 fails as stated: with `frame_steps = 2`, step 1 calls `remeshing_step`
and advances `frame` although 1 is not a multiple of 2, and step 2 does
neither although 2 is one.  The frame counter increases after one step, not
after a full frame of two. -/
theorem frame_boundary_multiple_counterexample :
    ∃ s1 s2, advance_step Ext.idle (bare_scene 2 0 0 1 (1 / 2) false) = Outcome.ret s1 ∧
      advance_step Ext.idle s1 = Outcome.ret s2 ∧
      (bare_scene 2 0 0 1 (1 / 2) false).step = 0 ∧
      s1.step = 1 ∧ ¬ ((bare_scene 2 0 0 1 (1 / 2) false).frame_steps ∣ s1.step) ∧
      s1.frame = (bare_scene 2 0 0 1 (1 / 2) false).frame + 1 ∧
      Call.remeshing_step ∈ s1.trace ∧
      s2.step = 2 ∧ (bare_scene 2 0 0 1 (1 / 2) false).frame_steps ∣ s2.step ∧
      s2.frame = s1.frame ∧ s2.trace.count Call.remeshing_step = 1 :=
  ⟨_, _, rfl, rfl, by decide!, by decide!, by decide!, by decide!, by decide!, by decide!,
    by decide!, by decide!, by decide!⟩

/-- C5, as amended.  In a steady run started at step 0 with wait counter `w`,
after `q * frame_steps + r + 1` steps, for `r < frame_steps`, that is after the
frame boundary number `q + 1`, the wait counter is `max 0 (w - (q + 1))` and the
frame counter is `max 0 (q + 1 - max 0 (w - 1))` above its start: the counter is
decremented before it is tested, so the frame counter is not advanced at the
first `w - 1` boundaries and is advanced by 1 at boundary `w` and at every later
one.  The first advance is delayed by `max 0 (w - 1)` frames.  In rigid mode
every run completes. -/
theorem wait_frames_delay (E : Ext) (s : Simulation) (F : Nat) (hF : 0 < F) (w : Int)
    (hfs : s.frame_steps = F) (hifs : s.init_frame_steps = 0) (hw : s.init_wait_frames = w)
    (h0 : s.step = 0) :
    (∀ q r : Nat, r < F → ∀ s1, run E (q * F + r + 1) s = Outcome.ret s1 →
      s1.init_wait_frames = max 0 (w - (q + 1)) ∧
      s1.frame = s.frame + max 0 ((q : Int) + 1 - max 0 (w - 1))) ∧
    (s.non_rigid = false → ∀ n, ∃ s1, run E n s = Outcome.ret s1) := by
  refine ⟨?_, ?_⟩
  · intro q r hr s1 hrun
    have hc := run_ret_toClock E _ s s1 hrun
    rw [after_steady_closed s.toClock h0 hifs] at hc
    have hfr := congrArg Clock.frame hc
    have hiw := congrArg Clock.init_wait_frames hc
    have hfs' : s.toClock.frame_steps = F := hfs
    have hw' : s.toClock.init_wait_frames = w := hw
    simp only [hfs', hw', boundaries_closed F hF q r hr] at hfr hiw
    constructor
    · have e : s1.init_wait_frames =
          if q + 1 = 0 then w else max 0 (w - ((q + 1 : Nat) : Int)) := hiw
      rw [e, if_neg (by omega)]
      push_cast
      rfl
    · have e : s1.frame = s.frame + max 0 (((q + 1 : Nat) : Int) - max 0 (w - 1)) := hfr
      rw [e]
      push_cast
      rfl
  · intro hr n
    obtain ⟨s1, h1, _⟩ := run_rigid E n s hr
    exact ⟨s1, h1⟩

/-- C5, as amended, at a concrete input: an empty steady scene with
`frame_steps = 2` and wait counter 3, after the second frame boundary. -/
theorem wait_frames_delay_witness :
    ∃ s1, run Ext.idle 3 (bare_scene 2 0 3 1 (1 / 2) false) = Outcome.ret s1 ∧
      s1.init_wait_frames = max 0 ((3 : Int) - ((1 : Nat) + 1)) ∧
      s1.frame = (bare_scene 2 0 3 1 (1 / 2) false).frame +
        max 0 (((1 : Nat) : Int) + 1 - max 0 (3 - 1)) :=
  ⟨_, rfl,
    (wait_frames_delay Ext.idle (bare_scene 2 0 3 1 (1 / 2) false) 2 (by decide) 3 rfl rfl rfl
      rfl).1 1 0 (by decide) _ rfl⟩

/-- C5 fails as stated: with wait counter 1 the frame counter is advanced at
the first frame boundary, exactly as with wait counter 0; the first advance is
not delayed by one frame. -/
theorem wait_frames_delay_counterexample :
    ∃ s1 t1, advance_step Ext.idle (bare_scene 1 0 1 1 1 false) = Outcome.ret s1 ∧
      advance_step Ext.idle (bare_scene 1 0 0 1 1 false) = Outcome.ret t1 ∧
      (bare_scene 1 0 1 1 1 false).init_wait_frames = 1 ∧
      (bare_scene 1 0 1 1 1 false).toClock.boundary_step ∧
      s1.frame = (bare_scene 1 0 1 1 1 false).frame + 1 ∧
      s1.frame = t1.frame :=
  ⟨_, _, rfl, rfl, by decide!, by decide!, by decide!, by decide!⟩

theorem finish_step_ops_last (E : Ext) (s : Simulation) :
    (finish_step E s).ops.getLast? = some (Op.delete_constraints (get_constraints E s true).1) := by
  simp [finish_step, delete_constraints]

/-- C8, as amended.  From a state that is in ramp-up or has a nonzero
`frame_steps` (in the steady regime with `frame_steps = 0` the remainder
`(sim.step - 1) % sim.frame_steps` of the code is a division by zero), the
statements one `advance_step` executes are, in this order: the increment of
time and step, `update_obstacles`, `get_constraints` with proximity requested,
`physics_step`, `plasticity_step`, `strainlimiting_step`, `collision_step`,
then `remeshing_step` followed by the update of the wait and frame counters,
these two exactly when either the state is in ramp-up and the step count after
the increment is `init_frame_steps + 1`, or the state is steady and the step
count after the increment, minus one, is a multiple of `frame_steps`; and last
`delete_constraints` on the very constraint set `get_constraints` returned,
which is also the last operation logged.  A step that a fatal exit cuts short
inside `update_obstacles` has executed the first two only. -/
theorem step_trace_fixed_order (E : Ext) (s : Simulation)
    (_hz : s.init_frame_steps ≠ 0 ∨ s.frame_steps ≠ 0) :
    (∀ s1, advance_step E s = Outcome.ret s1 →
      ∃ s2, update_obstacles E s.ticked (if s.non_rigid then true else false) = Outcome.ret s2 ∧
        s1.step = s.step + 1 ∧
        s1.trace = s.trace ++
          ([Call.advance_clock, Call.update_obstacles s.non_rigid,
            Call.get_constraints true (get_constraints E s2 true).1,
            Call.physics_step (get_constraints E s2 true).1, Call.plasticity_step,
            Call.strainlimiting_step (get_constraints E s2 true).1, Call.collision_step] ++
          (if (s.init_frame_steps ≠ 0 ∧ s1.step = s.init_frame_steps + 1) ∨
              (s.init_frame_steps = 0 ∧ s.frame_steps ∣ s1.step - 1) then
            [Call.remeshing_step, Call.counter_update] else []) ++
          [Call.delete_constraints (get_constraints E s2 true).1]) ∧
        s1.ops.getLast? = some (Op.delete_constraints (get_constraints E s2 true).1)) ∧
    (∀ c s1, advance_step E s = Outcome.exited c s1 →
      s1.trace = s.trace ++ [Call.advance_clock, Call.update_obstacles s.non_rigid]) := by
  constructor
  · intro s1 h
    obtain ⟨s2, hu, htr⟩ := advance_step_ret_trace E s s1 h
    have hc := advance_step_ret_toClock E s s1 h
    have hstep : s1.step = s.step + 1 := by
      have := congrArg Clock.step hc
      rw [advance_step_count] at this
      exact this
    obtain ⟨s2', hu', rfl⟩ := advance_step_ret E s s1 h
    rw [hu] at hu'
    cases hu'
    refine ⟨s2, hu, hstep, ?_, finish_step_ops_last E s2⟩
    rw [htr, hstep]
    simp only [step_calls, Clock.transition_step, Clock.boundary_step, add_sub_cancel_right,
      tmod_zero_iff_dvd]
  · intro c s1 h
    obtain ⟨obs, rfl⟩ := advance_step_exited_state E s s1 c h
    simp only [Simulation.ticked]
    cases s.non_rigid <;> simp

/-- C8, as amended, at a concrete input: the first step of an empty steady
scene with `frame_steps = 2`; the step count becomes 1 and 2 divides 0. -/
theorem step_trace_fixed_order_witness :
    ∃ s1 s2, advance_step Ext.idle (bare_scene 2 0 0 1 (1 / 2) false) = Outcome.ret s1 ∧
      s1.step = 1 ∧
      s1.trace = (bare_scene 2 0 0 1 (1 / 2) false).trace ++
        ([Call.advance_clock, Call.update_obstacles false,
          Call.get_constraints true (get_constraints Ext.idle s2 true).1,
          Call.physics_step (get_constraints Ext.idle s2 true).1, Call.plasticity_step,
          Call.strainlimiting_step (get_constraints Ext.idle s2 true).1, Call.collision_step] ++
        (if ((bare_scene 2 0 0 1 (1 / 2) false).init_frame_steps ≠ 0 ∧
              s1.step = (bare_scene 2 0 0 1 (1 / 2) false).init_frame_steps + 1) ∨
            ((bare_scene 2 0 0 1 (1 / 2) false).init_frame_steps = 0 ∧
              (bare_scene 2 0 0 1 (1 / 2) false).frame_steps ∣ s1.step - 1) then
          [Call.remeshing_step, Call.counter_update] else []) ++
        [Call.delete_constraints (get_constraints Ext.idle s2 true).1]) := by
  obtain ⟨s2, _, hs, htr, _⟩ :=
    (step_trace_fixed_order Ext.idle (bare_scene 2 0 0 1 (1 / 2) false)
      (Or.inr (by decide))).1 _ rfl
  exact ⟨_, s2, rfl, hs, htr⟩

/-- C8 fails as stated, a frame-boundary step being one whose count is a
multiple of `frame_steps`: in a steady run with `frame_steps = 4`, step 1 runs
`remeshing_step` and the counter update although 1 is not a multiple of 4, and
step 4 runs neither although 4 is one. -/
theorem step_trace_multiple_counterexample :
    ∃ s1 s3 s4, advance_step Ext.idle (bare_scene 4 0 0 1 (1 / 4) false) = Outcome.ret s1 ∧
      run Ext.idle 3 (bare_scene 4 0 0 1 (1 / 4) false) = Outcome.ret s3 ∧
      advance_step Ext.idle s3 = Outcome.ret s4 ∧
      s1.step = 1 ∧ ¬ ((bare_scene 4 0 0 1 (1 / 4) false).frame_steps ∣ s1.step) ∧
      s1.trace = [Call.advance_clock, Call.update_obstacles false, Call.get_constraints true [],
        Call.physics_step [], Call.plasticity_step, Call.strainlimiting_step [],
        Call.collision_step, Call.remeshing_step, Call.counter_update,
        Call.delete_constraints []] ∧
      s3.init_frame_steps = 0 ∧ s4.step = 4 ∧ s3.frame_steps ∣ s4.step ∧
      s4.trace = s3.trace ++
        [Call.advance_clock, Call.update_obstacles false, Call.get_constraints true [],
          Call.physics_step [], Call.plasticity_step, Call.strainlimiting_step [],
          Call.collision_step, Call.delete_constraints []] :=
  ⟨_, _, _, rfl, rfl, rfl, by decide!, by decide!, by decide!, by decide!, by decide!,
    by decide!, by decide!⟩



theorem delete_meshes_all_released (ob : Obstacle) : ob.delete_meshes.all_released :=
  ⟨rfl, rfl, rfl, rfl⟩

/-- C9, as amended.  For a time after `end_time`, `get_mesh(time)` and
`get_mesh(time, frame)` release all four mesh slots, change nothing else and
return normally; the mesh returned is `curr_state_mesh`, then empty.  For a
time before `start_time` that is not after `end_time`, both calls return
normally and leave the obstacle, its mesh storage included, exactly as it was. -/
theorem get_mesh_outside_window (files : KeyframeFiles) (ob : Obstacle) (time : ℚ)
    (frame : Int) :
    (time > ob.end_time →
      ob.get_mesh_at time = ob.delete_meshes ∧
      ob.get_mesh_at_frame files time frame = Outcome.ret ob.delete_meshes ∧
      (ob.get_mesh_at time).all_released ∧
      (ob.get_mesh_at time).get_mesh = { nodes := [] }) ∧
    (time < ob.start_time → ¬ time > ob.end_time →
      ob.get_mesh_at time = ob ∧
      ob.get_mesh_at_frame files time frame = Outcome.ret ob ∧
      (ob.get_mesh_at time).get_mesh = ob.curr_state_mesh) := by
  constructor
  · intro h
    have h1 : ob.get_mesh_at time = ob.delete_meshes := by
      unfold Obstacle.get_mesh_at
      simp only [h, if_true]
      have h' : time > ob.delete_meshes.end_time := h
      simp [h']
    have h2 : ob.get_mesh_at_frame files time frame = Outcome.ret ob.delete_meshes := by
      unfold Obstacle.get_mesh_at_frame
      simp only [h, if_true]
      have h' : time > ob.delete_meshes.end_time := h
      simp [h']
    refine ⟨h1, h2, ?_, ?_⟩
    · rw [h1]; exact delete_meshes_all_released ob
    · rw [h1]; rfl
  · intro hs he
    have h1 : ob.get_mesh_at time = ob := by
      unfold Obstacle.get_mesh_at
      simp [he, hs]
    have h2 : ob.get_mesh_at_frame files time frame = Outcome.ret ob := by
      unfold Obstacle.get_mesh_at_frame
      simp [he, hs]
    exact ⟨h1, h2, by rw [h1]; rfl⟩

/-- C9, as amended, at a concrete input: a fresh obstacle with the window
`[1, 3]`, at time 4. -/
theorem get_mesh_outside_window_witness :
    ((fresh_obstacle none).get_mesh_at 4).all_released ∧
      (fresh_obstacle none).get_mesh_at_frame (fun _ => none) 4 0 =
        Outcome.ret (fresh_obstacle none).delete_meshes :=
  ⟨((get_mesh_outside_window (fun _ => none) (fresh_obstacle none) 4 0).1 (by decide!)).2.2.1,
    ((get_mesh_outside_window (fun _ => none) (fresh_obstacle none) 4 0).1 (by decide!)).2.1⟩

/-- C9 fails as stated for a time before `start_time`: a fresh obstacle with
the window `[1, 3]` keeps its base mesh through `get_mesh(0)` and through
`get_mesh(0, 0)`. -/
theorem get_mesh_before_start_counterexample :
    (0 : ℚ) < (fresh_obstacle none).start_time ∧
    ¬ ((fresh_obstacle none).get_mesh_at 0).all_released ∧
    ¬ ((fresh_obstacle none).get_mesh_at_frame (fun _ => none) 0 0).state.all_released ∧
    ((fresh_obstacle none).get_mesh_at 0).base_mesh.nodes = [node_at 0] := by
  refine ⟨by decide!, by decide!, by decide!, by decide!⟩

theorem apply_spline_nil (d : DTransformation) (bs : List Node) : apply_spline d [] bs = [] := by
  cases bs <;> rfl

theorem apply_spline_x0 (d : DTransformation) (cs bs : List Node) :
    (apply_spline d cs bs).map (fun n => n.x0) = cs.map (fun n => n.x0) := by
  induction cs generalizing bs with
  | nil => rw [apply_spline_nil]
  | cons c cs ih =>
    cases bs with
    | nil => rfl
    | cons b bs => simp [apply_spline, ih]

@[simp] theorem prepare_toClock (E : Ext) (s : Simulation) : (prepare E s).toClock = s.toClock := rfl

theorem validate_handles_state (s : Simulation) : (validate_handles s).state = s := by
  unfold validate_handles
  split <;> rfl

@[simp] theorem equilibration_step_toClock (E : Ext) (s : Simulation) :
    (equilibration_step E s).toClock = s.toClock := by
  unfold equilibration_step
  simp only []
  split_ifs <;> simp

@[simp] theorem reset_creases_toClock (E : Ext) (s : Simulation) :
    (reset_creases E s).toClock = s.toClock := by
  unfold reset_creases
  split <;> rfl

theorem relax_initial_state_toClock (E : Ext) (s : Simulation) :
    (relax_initial_state E s).state.toClock = s.toClock := by
  unfold relax_initial_state validate_handles
  split
  · simp only [Outcome.bind]
    split_ifs <;> simp [Outcome.state]
  · rfl

theorem init_physics_eq (E : Ext) (p : Process) (json_file outdir : String) (is_reloading : Bool)
    (cfg : Simulation) (h : E.load_json json_file = some cfg) :
    init_physics E p json_file outdir is_reloading =
      if !is_reloading then
        (relax_initial_state E (separated E (prepare E cfg))).bind
          (fun sim => { init_files E p json_file outdir is_reloading cfg with sim := sim })
          fun sim => Outcome.ret
            { init_files E p json_file outdir is_reloading cfg with sim := sim }
      else Outcome.ret { init_files E p json_file outdir is_reloading cfg with
        sim := prepare E cfg } := by
  unfold init_physics
  simp only [h]
  have e : (init_files E p json_file outdir is_reloading cfg).sim = cfg := by
    unfold init_files copy_file
    simp only []
    split_ifs <;> rfl
  unfold init_files at e ⊢
  simp only [] at e ⊢
  cases is_reloading
  · simp only [e, Bool.not_false, if_true]
    rfl
  · simp only [e, Bool.not_true, Bool.false_eq_true, if_false]


theorem init_files_sim (E : Ext) (p : Process) (json_file outdir : String) (is_reloading : Bool)
    (cfg : Simulation) : (init_files E p json_file outdir is_reloading cfg).sim = cfg := by
  unfold init_files copy_file
  simp only []
  split_ifs <;> rfl

theorem init_files_outdir (E : Ext) (p : Process) (json_file outdir : String)
    (is_reloading : Bool) (cfg : Simulation) :
    (init_files E p json_file outdir is_reloading cfg).outdir = outdir := by
  unfold init_files copy_file
  simp only []
  split_ifs <;> rfl

/-- The clock `init_physics` leaves is the one of the scene it loaded. -/
theorem init_physics_toClock (E : Ext) (p : Process) (json_file outdir : String)
    (is_reloading : Bool) (cfg : Simulation) (h : E.load_json json_file = some cfg) :
    (init_physics E p json_file outdir is_reloading).state.sim.toClock = cfg.toClock := by
  rw [init_physics_eq E p json_file outdir is_reloading cfg h]
  cases is_reloading
  · simp only [Bool.not_false, if_true]
    have hc := relax_initial_state_toClock E (separated E (prepare E cfg))
    cases hr : relax_initial_state E (separated E (prepare E cfg)) with
    | ret s2 =>
      rw [hr] at hc
      exact hc
    | exited c s2 =>
      rw [hr] at hc
      exact hc
  · rfl

/-- When the scene loads, `init_physics` returns if it is reloading. -/
theorem init_physics_reloading (E : Ext) (p : Process) (json_file outdir : String)
    (cfg : Simulation) (h : E.load_json json_file = some cfg) :
    ∃ p1, init_physics E p json_file outdir true = Outcome.ret p1 ∧
      p1.sim.toClock = cfg.toClock := by
  have hc := init_physics_toClock E p json_file outdir true cfg h
  unfold init_physics at hc ⊢
  simp only [h, Bool.not_true, Bool.false_eq_true, if_false, Outcome.state] at hc ⊢
  exact ⟨_, rfl, hc⟩

/-- The clock `init_resume` sets: the loaded configuration, with frame, time
and step fast-forwarded to the start frame. -/
theorem init_resume_toClock (E : Ext) (outdir start_frame_str : String) (cfg : Simulation)
    (h : E.load_json (outdir ++ "/conf.json") = some cfg) :
    (init_resume E outdir start_frame_str).state.sim.toClock =
      { cfg.toClock with
        frame := atoi start_frame_str
        time := (atoi start_frame_str : ℚ) * cfg.frame_time
        step := atoi start_frame_str * cfg.frame_steps } := by
  obtain ⟨p1, hp1, hc1⟩ := init_physics_reloading E Process.initial _ outdir cfg h
  unfold init_resume
  rw [hp1]
  simp only [Outcome.bind]
  split
  · simp [Outcome.state, hc1]
  · simp [Outcome.state, hc1]

/-- What `save_step` does, by the guard `save_due`. -/
theorem save_step_eq (p : Process) :
    save_step p =
      if save_due p.sim then
        (if p.sim.non_rigid then save p p.sim.frame else save_timings (save p p.sim.frame))
      else p := by
  unfold save_step save_due
  by_cases h : p.sim.non_rigid = true
  · simp only [h, if_true]
  · simp [h]

/-- C6, as amended.  For a configuration without ramp-up and without wait
frames, with `frame_steps >= 1` and `step_time = frame_time / frame_steps`,
started at step 0, frame 0, time 0: the clock `init_physics` leaves is the
configured one, and whenever the uninterrupted run is due to save, after any
number of steps, the clock `init_resume` sets for the frame being saved is the
clock the run has at that moment. -/
theorem resume_clock_matches_run (E : Ext) (outdir start_frame_str : String)
    (cfg s0 : Simulation) (F : Nat) (hF : 0 < F)
    (hcfg : E.load_json (outdir ++ "/conf.json") = some cfg)
    (hs0 : s0.toClock = cfg.toClock)
    (hstep : cfg.step = 0) (hframe : cfg.frame = 0) (htime : cfg.time = 0)
    (hifs : cfg.init_frame_steps = 0) (hw : cfg.init_wait_frames = 0)
    (hfs : cfg.frame_steps = F) (hst : cfg.step_time = cfg.frame_time / (F : ℚ))
    (n : Nat) (s : Simulation) (hrun : run E n s0 = Outcome.ret s) (hsave : save_due s)
    (hN : atoi start_frame_str = s.frame) :
    (∀ p scene, E.load_json scene = some cfg →
      (init_physics E p scene outdir false).state.sim.toClock = cfg.toClock) ∧
    (init_resume E outdir start_frame_str).state.sim.toClock = s.toClock := by
  refine ⟨fun p scene h => init_physics_toClock E p scene outdir false cfg h, ?_⟩
  have hc : s.toClock = Clock.after n cfg.toClock := by
    rw [← hs0]; exact run_ret_toClock E n s0 s hrun
  rw [after_steady_closed cfg.toClock hstep hifs n] at hc
  have hsstep : s.step = n := by
    have := congrArg Clock.step hc; exact this
  have hsfs : s.frame_steps = F := by
    have := congrArg Clock.frame_steps hc; exact this.trans hfs
  have hsifs : s.init_frame_steps = 0 := by
    have := congrArg Clock.init_frame_steps hc; exact this.trans hifs
  have hdvd : (F : Int) ∣ (n : Int) := by
    rw [← tmod_zero_iff_dvd, ← hsstep, ← hsfs]
    unfold save_due at hsave
    split_ifs at hsave with hnr h0
    · exact absurd hsifs h0
    · exact hsave.2.2
    · exact hsave
  obtain ⟨m, hm⟩ := Int.natCast_dvd_natCast.mp hdvd
  have hb : boundaries (F : Int) n = m := by
    rw [hm, Nat.mul_comm]; exact boundaries_mul F hF m
  have hfs' : cfg.toClock.frame_steps = F := hfs
  have hw' : cfg.toClock.init_wait_frames = 0 := hw
  have hframe' : cfg.toClock.frame = 0 := hframe
  have htime' : cfg.toClock.time = 0 := htime
  have hst' : cfg.toClock.step_time = cfg.toClock.frame_time / (F : ℚ) := hst
  rw [hfs', hb, hw', hframe', htime', hst'] at hc
  have hsframe : s.frame = m := by
    have := congrArg Clock.frame hc
    have e : s.frame = 0 + max 0 ((m : Int) - max 0 (0 - 1)) := this
    rw [e]
    simp only [max_def]
    split_ifs <;> omega
  rw [init_resume_toClock E outdir start_frame_str cfg hcfg, hc, hN, hsframe]
  have hFq : (F : ℚ) ≠ 0 := by exact_mod_cast (Nat.pos_iff_ne_zero.mp hF)
  simp only [Clock.mk.injEq, and_true, true_and]
  refine ⟨?_, ?_, ?_, hfs', ?_, hst'⟩
  · rw [hm]
    push_cast
    field_simp
    ring
  · rw [hfs', hm]
    push_cast
    ring
  · simp only [max_def]
    split_ifs <;> omega
  · rw [hw']
    simp only [max_def]
    split_ifs <;> omega

/-- C6, as amended, at a concrete input: an empty rigid scene with
`frame_steps = 2` and `step_time = 1/2`; after 4 steps the run saves frame 2. -/
theorem resume_clock_matches_run_witness :
    ∃ s, run (Ext.loading (bare_scene 2 0 0 1 (1 / 2) false)) 4
        (bare_scene 2 0 0 1 (1 / 2) false) = Outcome.ret s ∧
      save_due s ∧ s.frame = 2 ∧
      (init_resume (Ext.loading (bare_scene 2 0 0 1 (1 / 2) false)) "out" "2").state.sim.toClock =
        s.toClock :=
  ⟨_, rfl, by decide!, by decide!,
    (resume_clock_matches_run (Ext.loading (bare_scene 2 0 0 1 (1 / 2) false)) "out" "2"
      (bare_scene 2 0 0 1 (1 / 2) false) (bare_scene 2 0 0 1 (1 / 2) false) 2 (by decide) rfl rfl
      rfl rfl rfl rfl rfl rfl (by decide!) 4 _ rfl (by decide!) (by decide!)).2⟩

/-- C6 fails as stated for a configuration with ramp-up.  With
`init_frame_steps = 1` and `frame_steps = 1`, two iterations of the loop of
`run_physics` end with the save of frame 1, at step 2, time 2 and with
`init_frame_steps` reset to 0; `init_resume` for frame 1 sets step 1, time 1 and
reloads `init_frame_steps = 1`. -/
theorem resume_clock_rampup_counterexample :
    (run_physics (Ext.loading (bare_scene 1 1 0 1 1 false)) ["scene", "out"] 2).status = none ∧
    (run_physics (Ext.loading (bare_scene 1 1 0 1 1 false)) ["scene", "out"] 2).state.out.map
        Output.path =
      ["out", "out/timing", "out/conf.json", "out/obs", "out/0000", "out/0000", "timing",
        "out/0001", "timing"] ∧
    (run_physics (Ext.loading (bare_scene 1 1 0 1 1 false)) ["scene", "out"] 2).state.sim.toClock =
      { time := 2, step := 2, frame := 1, frame_steps := 1, init_frame_steps := 0,
        init_wait_frames := 0, frame_time := 1, step_time := 1 } ∧
    (init_resume (Ext.loading (bare_scene 1 1 0 1 1 false)) "out" "1").state.sim.toClock =
      { time := 1, step := 1, frame := 1, frame_steps := 1, init_frame_steps := 1,
        init_wait_frames := 0, frame_time := 1, step_time := 1 } :=
  ⟨by decide!, by decide!, by decide!, by decide!⟩

theorem relax_initial_state_valid (E : Ext) (s : Simulation) (h : handles_valid s) :
    relax_initial_state E s = Outcome.ret (relaxed E s) := by
  unfold relax_initial_state validate_handles
  unfold handles_valid at h
  simp only [h, if_true, Outcome.bind]
  rfl

theorem relax_initial_state_invalid (E : Ext) (s : Simulation) (h : ¬ handles_valid s) :
    relax_initial_state E s = Outcome.exited ABORTED s := by
  unfold relax_initial_state validate_handles
  unfold handles_valid at h
  simp only [h, Outcome.bind]
  rfl

theorem remeshing_step_disabled (E : Ext) (s : Simulation) (b : Bool)
    (h : s.enabled Module.Remeshing = false) : remeshing_step E s b = s := by
  unfold remeshing_step
  simp [h]

/-- With collision disabled, `equilibration_step` only runs the pop filter on
every cloth, with its accelerations zeroed. -/
theorem equilibration_step_no_collision (E : Ext) (s : Simulation)
    (h : s.enabled Module.Collision = false) :
    ∃ timers ops, equilibration_step E s = { s with
      cloths := (for_cloths (fun _ cloth =>
        (E.apply_pop_filter
          { cloth with mesh :=
              { nodes := cloth.mesh.nodes.map fun n => { n with acceleration := 0 } } }
          [] (some 1), [Op.solver Solver.apply_pop_filter])) 0 s.cloths).1
      timers := timers
      ops := ops } := by
  unfold equilibration_step get_constraints
  simp only [Bool.false_and, Bool.false_eq_true, if_false]
  have h' : ((((s.tick Module.Remeshing).each_cloth fun _ cloth =>
      (E.apply_pop_filter
        { cloth with mesh :=
            { nodes := cloth.mesh.nodes.map fun n => { n with acceleration := 0 } } }
        [] (some 1), [Op.solver Solver.apply_pop_filter])).tock E Module.Remeshing).enabled
      Module.Collision) = false := h
  simp only [delete_constraints, h']
  exact ⟨_, _, rfl⟩


theorem prepare_scene (E : Ext) (s : Simulation) (cloth : Cloth)
    (h : single_step_scene s cloth) :
    ∃ c, single_step_scene (prepare E s) c ∧ (prepare E s).non_rigid = s.non_rigid ∧
      (prepare E s).trace = s.trace := by
  obtain ⟨hc, ho, he, h1, h2, h3, h4, h5, h6⟩ := h
  have hcl : ∃ c, (prepare E s).cloths = [c] := by
    simp only [prepare, Simulation.each_cloth, hc, for_cloths]
    exact ⟨_, rfl⟩
  obtain ⟨c, hcl⟩ := hcl
  refine ⟨c, ⟨hcl, ?_, he, h1, h2, h3, h4, h5, h6⟩, rfl, rfl⟩
  simp only [prepare, Simulation.each_cloth, ho, List.map_nil]

theorem separated_scene (E : Ext) (s : Simulation) (cloth : Cloth)
    (h : single_step_scene s cloth) :
    single_step_scene (separated E s) cloth ∧ (separated E s).non_rigid = s.non_rigid ∧
      (separated E s).trace = s.trace := by
  obtain ⟨hc, ho, he, h1, h2, h3, h4, h5, h6⟩ := h
  refine ⟨⟨hc, ?_, he, h1, h2, h3, h4, h5, h6⟩, rfl, rfl⟩
  simp only [separated, Simulation.called, ho, set_obstacle_meshes]

theorem reset_creases_scene (E : Ext) (s : Simulation) (cloth : Cloth)
    (h : single_step_scene s cloth) :
    ∃ c, single_step_scene (reset_creases E s) c ∧ (reset_creases E s).non_rigid = s.non_rigid ∧
      (reset_creases E s).trace = s.trace ∧ (reset_creases E s).magic = s.magic := by
  obtain ⟨hc, ho, he, h1, h2, h3, h4, h5, h6⟩ := h
  unfold reset_creases
  split
  · have hcl : ∃ c, (s.each_cloth fun _ cloth =>
        (E.reset_plasticity cloth, [Op.solver Solver.reset_plasticity])).cloths = [c] := by
      simp only [Simulation.each_cloth, hc, for_cloths]
      exact ⟨_, rfl⟩
    obtain ⟨c, hcl⟩ := hcl
    exact ⟨c, ⟨hcl, ho, he, h1, h2, h3, h4, h5, h6⟩, rfl, rfl, rfl⟩
  · exact ⟨cloth, ⟨hc, ho, he, h1, h2, h3, h4, h5, h6⟩, rfl, rfl, rfl⟩

theorem equilibration_step_scene (E : Ext) (s : Simulation) (cloth : Cloth)
    (h : single_step_scene s cloth) :
    ∃ c, single_step_scene (equilibration_step E s) c ∧
      (equilibration_step E s).non_rigid = s.non_rigid ∧
      (equilibration_step E s).trace = s.trace ∧ (equilibration_step E s).magic = s.magic := by
  obtain ⟨hc, ho, he, h1, h2, h3, h4, h5, h6⟩ := h
  obtain ⟨timers, ops, e⟩ := equilibration_step_no_collision E s (by rw [he]; rfl)
  rw [e]
  have hcl : ∃ c, (for_cloths (fun _ cloth =>
      (E.apply_pop_filter
        { cloth with mesh :=
            { nodes := cloth.mesh.nodes.map fun n => { n with acceleration := 0 } } }
        [] (some 1), [Op.solver Solver.apply_pop_filter])) 0 s.cloths).1 = [c] := by
    simp only [hc, for_cloths]
    exact ⟨_, rfl⟩
  obtain ⟨c, hcl⟩ := hcl
  exact ⟨c, ⟨hcl, ho, he, h1, h2, h3, h4, h5, h6⟩, rfl, rfl, rfl⟩

theorem relaxed_scene (E : Ext) (s : Simulation) (cloth : Cloth)
    (h : single_step_scene s cloth) :
    ∃ c, single_step_scene (relaxed E s) c ∧ (relaxed E s).non_rigid = s.non_rigid ∧
      (relaxed E s).trace = s.trace := by
  obtain ⟨c1, h1, n1, t1, m1⟩ := reset_creases_scene E s cloth h
  obtain ⟨c2, h2, n2, t2, m2⟩ := equilibration_step_scene E _ c1 h1
  have hr : remeshing_step E (equilibration_step E (reset_creases E s)) true =
      equilibration_step E (reset_creases E s) :=
    remeshing_step_disabled E _ true (by rw [h2.2.2.1]; rfl)
  obtain ⟨c3, h3, n3, t3, m3⟩ := equilibration_step_scene E _ c2 h2
  obtain ⟨c4, h4, n4, t4, m4⟩ := reset_creases_scene E _ c3 h3
  unfold relaxed
  simp only [hr]
  obtain ⟨hc, ho, he, g1, g2, g3, g4, g5, g6⟩ := h4
  split
  · refine ⟨c4, ⟨hc, ho, ?_, g1, g2, g3, g4, g5, g6⟩, ?_, ?_⟩
    · intro m
      show (if m = Module.Remeshing then false else _) = _
      rw [he m]
      cases m <;> rfl
    · exact n4.trans (n3.trans (n2.trans n1))
    · exact t4.trans (t3.trans (t2.trans t1))
  · exact ⟨c4, ⟨hc, ho, he, g1, g2, g3, g4, g5, g6⟩, n4.trans (n3.trans (n2.trans n1)),
      t4.trans (t3.trans (t2.trans t1))⟩

/-- For a scene of the kind of C7 whose handles are valid, `init_physics`
returns, and leaves a scene of the same kind in the same mode. -/
theorem init_physics_scene (E : Ext) (p : Process) (json_file outdir : String)
    (cfg : Simulation) (cloth : Cloth) (hload : E.load_json json_file = some cfg)
    (hscene : single_step_scene cfg cloth) (hvalid : handles_valid cfg) :
    ∃ c0, single_step_scene (relaxed E (separated E (prepare E cfg))) c0 ∧
      (relaxed E (separated E (prepare E cfg))).non_rigid = cfg.non_rigid ∧
      (relaxed E (separated E (prepare E cfg))).trace = cfg.trace ∧
      init_physics E p json_file outdir false = Outcome.ret
        { init_files E p json_file outdir false cfg with
          sim := relaxed E (separated E (prepare E cfg)) } := by
  obtain ⟨c1, h1, n1, t1⟩ := prepare_scene E cfg cloth hscene
  obtain ⟨h2, n2, t2⟩ := separated_scene E _ c1 h1
  obtain ⟨c3, h3, n3, t3⟩ := relaxed_scene E _ c1 h2
  refine ⟨c3, h3, n3.trans (n2.trans n1), t3.trans (t2.trans t1), ?_⟩
  rw [init_physics_eq E p json_file outdir false cfg hload]
  have hv : handles_valid (separated E (prepare E cfg)) := hvalid
  simp only [Bool.not_false, if_true, relax_initial_state_valid E _ hv, Outcome.bind]


theorem update_obstacles_none (E : Ext) (s : Simulation) (b : Bool) (h : s.obstacles = []) :
    update_obstacles E s b = Outcome.ret s := by
  unfold update_obstacles
  rw [h]
  simp only [update_obstacle_list, Outcome.bind]
  rw [← h]

/-- The step of a scene of the kind of C7: only `physics_step` does anything. -/
theorem finish_step_physics_only (E : Ext) (s : Simulation) (c0 : Cloth)
    (hc : s.cloths = [c0]) (ho : s.obstacles = [])
    (he : ∀ m, s.enabled m = decide (m = Module.Physics)) :
    (finish_step E s).cloths =
        [{ (physics_cloth E s (get_constraints E s true).1 0 c0).1 with
            mesh := step_mesh (physics_cloth E s (get_constraints E s true).1 0 c0).1.mesh
              s.step_time }] ∧
      (finish_step E s).obstacles = [] ∧
      (finish_step E s).end_frame = s.end_frame ∧
      (finish_step E s).end_time = s.end_time := by
  have e1 : s.enabled Module.Proximity = false := by rw [he]; rfl
  have e2 : s.enabled Module.Physics = true := by rw [he]; rfl
  have e3 : s.enabled Module.Plasticity = false := by rw [he]; rfl
  have e4 : s.enabled Module.StrainLimiting = false := by rw [he]; rfl
  have e5 : s.enabled Module.Collision = false := by rw [he]; rfl
  have e6 : s.enabled Module.Remeshing = false := by rw [he]; rfl
  refine ⟨?_, ?_, ?_, ?_⟩ <;>
    simp [finish_step, get_constraints, physics_step, plasticity_step, strainlimiting_step,
      collision_step, frame_update, remeshing_step, delete_constraints, Simulation.tick,
      Simulation.tock, Simulation.each_cloth, e1, e2, e3, e4, e5, e6, hc, ho, for_cloths,
      physics_cloth] <;>
    split_ifs <;> rfl


theorem save_timings_sim (p : Process) : (save_timings p).sim = p.sim := by
  unfold save_timings
  split <;> rfl

theorem save_timings_out (p : Process) : (save_timings p).out = p.out ++
    (if p.timingfile = TimingFile.opened then
      [Output.timing_line (modules.map fun i => p.sim.timers i - p.old_totals i)] else []) := by
  unfold save_timings
  cases p.timingfile <;> simp

theorem save_rigid_no_obstacles (p : Process) (frame : Int) (hnr : p.sim.non_rigid = false)
    (ho : p.sim.obstacles = []) (hout : p.outdir.isEmpty = false) (hf : frame < 10000) :
    save p frame = { p with out := p.out ++
      [Output.save_objs p.sim.cloth_meshes (p.outdir ++ "/" ++ fmt_0d 4 frame) false] } := by
  simp [save, save_meshes, save_obstacle_transforms, hnr, ho, hout, hf, obstacle_transform_files]

/-- An iteration of the loop in rigid mode whose step completes on a frame
that is due and reaches the end frame: the frame is saved, then the process
exits with success. -/
theorem sim_step_last (E : Ext) (num_frames : Int) (p : Process) (s1 : Simulation)
    (hstep : advance_step E p.sim = Outcome.ret s1) (hnr : s1.non_rigid = false)
    (hdue : s1.step.tmod s1.frame_steps = 0) (hend : (s1.frame : ℚ) ≥ s1.end_frame) :
    sim_step E num_frames p =
      Outcome.exited EXIT_SUCCESS (save_timings (save { p with sim := s1 } s1.frame)) := by
  unfold sim_step
  rw [hstep]
  simp only [Outcome.bind]
  have e : save_step { p with sim := s1 } = save_timings (save { p with sim := s1 } s1.frame) := by
    simp [save_step, hnr, hdue]
  rw [e]
  have hs : (save_timings (save { p with sim := s1 } s1.frame)).sim = s1 := by
    rw [save_timings_sim]
    unfold save save_meshes save_obstacle_transforms
    simp only []
    split_ifs <;> rfl
  simp only [hs, hend, or_true, if_true]


theorem physics_cloth_implicit (E : Ext) (s : Simulation) (cons : List Constraint) (c : Nat)
    (cloth : Cloth) :
    ∃ forces, (physics_cloth E s cons c cloth).1 =
      E.implicit_update cloth forces cons s.step_time false :=
  ⟨_, rfl⟩

theorem run_physics_two (E : Ext) (scene outdir : String) (fuel : Nat) :
    run_physics E [scene, outdir] fuel =
      (init_physics E
        (if !outdir.isEmpty then
          { Process.initial with out := [Output.ensure_existing_directory outdir] }
        else Process.initial) scene outdir false).bind id fun p =>
          offline_loop E (if is_number outdir then atoi outdir else E.DEFAULT_NUM_FRAMES) fuel
            (if !p.sim.non_rigid && !outdir.isEmpty then save p 0 else p) := rfl

theorem zipWith_map_self {α β γ : Type} (f : β → α → γ) (g : α → β) (l : List α) :
    List.zipWith f (l.map g) l = l.map fun a => f (g a) a := by
  induction l with
  | nil => rfl
  | cons a l ih => simp [ih]

theorem fmt_frame_zero : fmt_0d 4 0 = "0000" := by decide

theorem fmt_frame_one : fmt_0d 4 1 = "0001" := by decide

theorem step_calls_count (s : Simulation) (cons : List Constraint) :
    (step_calls s cons).count Call.advance_clock = 1 := by
  unfold step_calls
  split_ifs <;> simp

/-- C7, as amended.  For a scene in rigid-obstacle mode with one cloth, no
obstacle, only the physics stage enabled, `frame_steps = 1`, `end_frame = 1`, no
ramp-up and no wait frames, that loads and whose constrained nodes are all
protected from remeshing: `run_physics` with an output directory saves frame 0
before the loop, and the first iteration of the loop performs exactly one
`advance_step`, in which the position of every cloth node becomes its position
after `implicit_update` plus `step_time` times its velocity after
`implicit_update` (so, when `implicit_update` leaves the positions as they are,
it changes by exactly that product); then `frame = 1`, the frame-1 geometry is
saved and the process exits with success status, without a second step. -/
theorem single_step_run (E : Ext) (scene outdir : String) (cfg : Simulation) (cloth : Cloth)
    (fuel : Nat) (hload : E.load_json scene = some cfg) (hout : outdir.isEmpty = false)
    (hrigid : cfg.non_rigid = false) (hscene : single_step_scene cfg cloth)
    (hvalid : handles_valid cfg) :
    ∃ p0 c0 pf forces cons,
      init_physics E { Process.initial with out := [Output.ensure_existing_directory outdir] }
        scene outdir false = Outcome.ret p0 ∧
      p0.sim.cloths = [c0] ∧
      run_physics E [scene, outdir] (fuel + 1) = Outcome.exited EXIT_SUCCESS pf ∧
      pf.sim.step = 1 ∧ pf.sim.frame = 1 ∧
      pf.sim.trace.count Call.advance_clock = p0.sim.trace.count Call.advance_clock + 1 ∧
      pf.sim.cloths = [{ E.implicit_update c0 forces cons cfg.step_time false with
        mesh := step_mesh (E.implicit_update c0 forces cons cfg.step_time false).mesh
          cfg.step_time }] ∧
      pf.sim.cloth_meshes.map (fun m => m.nodes.map fun n => n.x) =
        [(E.implicit_update c0 forces cons cfg.step_time false).mesh.nodes.map
          fun n => n.x + cfg.step_time • n.v] ∧
      pf.out = p0.out ++
        [Output.save_objs [c0.mesh] (outdir ++ "/" ++ "0000") false,
          Output.save_objs pf.sim.cloth_meshes (outdir ++ "/" ++ "0001") false] ++
        (if p0.timingfile = TimingFile.opened then
          [Output.timing_line (modules.map fun i => pf.sim.timers i - p0.old_totals i)]
        else []) ∧
      ((E.implicit_update c0 forces cons cfg.step_time false).mesh.nodes.map (fun n => n.x) =
          c0.mesh.nodes.map (fun n => n.x) →
        pf.sim.cloth_meshes.map (fun m => m.nodes.map fun n => n.x) =
          [List.zipWith (fun x n => x + cfg.step_time • n.v) (c0.mesh.nodes.map fun n => n.x)
            (E.implicit_update c0 forces cons cfg.step_time false).mesh.nodes]) := by
  obtain ⟨c0, hsc, hnr, htr, hinit⟩ := init_physics_scene E
    { Process.initial with out := [Output.ensure_existing_directory outdir] }
    scene outdir cfg cloth hload hscene hvalid
  have hclk := init_physics_toClock E
    { Process.initial with out := [Output.ensure_existing_directory outdir] }
    scene outdir false cfg hload
  rw [hinit] at hclk
  simp only [Outcome.state] at hclk
  generalize hsim0 : relaxed E (separated E (prepare E cfg)) = sim0 at hsc hnr htr hinit hclk
  generalize hpf : init_files E
    { Process.initial with out := [Output.ensure_existing_directory outdir] }
    scene outdir false cfg = pfiles at hinit
  have hpo : pfiles.outdir = outdir := by rw [← hpf]; exact init_files_outdir _ _ _ _ _ _
  have hnr0 : sim0.non_rigid = false := hnr.trans hrigid
  obtain ⟨hc, ho, he, h1, h2, h3, h4, h5, h6⟩ := hsc
  -- the step
  have hupd : update_obstacles E sim0.ticked (if sim0.non_rigid then true else false) =
      Outcome.ret sim0.ticked := update_obstacles_none _ _ _ ho
  have hadv : advance_step E sim0 = Outcome.ret (finish_step E sim0.ticked) := by
    rw [advance_step_eq, hupd]; rfl
  obtain ⟨hcl1, ho1, hef1, _⟩ := finish_step_physics_only E sim0.ticked c0 hc ho he
  generalize hs1 : finish_step E sim0.ticked = s1 at hadv hcl1 ho1 hef1
  have hclock1 := advance_step_ret_toClock E sim0 s1 hadv
  rw [advance_steady_boundary sim0.toClock h3 (by
    show sim0.step.tmod sim0.frame_steps = 0
    rw [h5, h1]; decide)] at hclock1
  have hstep1 : s1.step = 1 := by
    have := congrArg Clock.step hclock1
    have e : s1.step = sim0.step + 1 := this
    rw [e, h5]; rfl
  have hframe1 : s1.frame = 1 := by
    have := congrArg Clock.frame hclock1
    have e : s1.frame = if max 0 (sim0.init_wait_frames - 1) = 0 then sim0.frame + 1
        else sim0.frame := this
    rw [e, h4, h6]; decide
  have hfs1 : s1.frame_steps = 1 := by
    have := congrArg Clock.frame_steps hclock1
    exact this.trans h1
  have hnr1 : s1.non_rigid = false := by
    rw [← hs1, finish_step_non_rigid]; exact hnr0
  have hend1 : s1.end_frame = 1 := hef1.trans h2
  obtain ⟨s2, hu2, htrace⟩ := advance_step_ret_trace E sim0 s1 hadv
  have hcount : s1.trace.count Call.advance_clock = sim0.trace.count Call.advance_clock + 1 := by
    rw [htrace, List.count_append, step_calls_count]
  -- the save before the loop
  have hpre : save { pfiles with sim := sim0 } 0 = { pfiles with
      sim := sim0
      out := pfiles.out ++ [Output.save_objs [c0.mesh] (outdir ++ "/" ++ "0000") false] } := by
    rw [save_rigid_no_obstacles _ 0 hnr0 ho (by show pfiles.outdir.isEmpty = false; rw [hpo]; exact hout)
      (by decide)]
    simp only [Simulation.cloth_meshes, hc, List.map, hpo, fmt_frame_zero]
  -- the iteration of the loop
  have hlast := sim_step_last E
    (if is_number outdir then atoi outdir else E.DEFAULT_NUM_FRAMES)
    { pfiles with
      sim := sim0
      out := pfiles.out ++ [Output.save_objs [c0.mesh] (outdir ++ "/" ++ "0000") false] }
    s1 hadv hnr1 (by rw [hstep1, hfs1]; decide) (by rw [hframe1, hend1]; norm_num)
  rw [save_rigid_no_obstacles _ _ hnr1 ho1
    (by show pfiles.outdir.isEmpty = false; rw [hpo]; exact hout)
    (by rw [hframe1]; decide)] at hlast
  obtain ⟨forces, hforces⟩ := physics_cloth_implicit E sim0.ticked
    (get_constraints E sim0.ticked true).1 0 c0
  rw [hforces] at hcl1
  have hst0 : sim0.ticked.step_time = cfg.step_time := by
    have := congrArg Clock.step_time hclk
    exact this
  rw [hst0] at hcl1
  generalize hpfin : save_timings _ = pfin at hlast
  have hfsim : pfin.sim = s1 := by rw [← hpfin, save_timings_sim]
  have hfout := save_timings_out
    ({ ({ ({ pfiles with
        sim := sim0
        out := pfiles.out ++ [Output.save_objs [c0.mesh] (outdir ++ "/" ++ "0000") false] } :
          Process) with sim := s1 } : Process) with
      out := pfiles.out ++ [Output.save_objs [c0.mesh] (outdir ++ "/" ++ "0000") false] ++
        [Output.save_objs s1.cloth_meshes (pfiles.outdir ++ "/" ++ fmt_0d 4 s1.frame) false] })
  rw [hpfin] at hfout
  refine ⟨{ pfiles with sim := sim0 }, c0, pfin, forces, (get_constraints E sim0.ticked true).1,
    hinit, hc, ?_, ?_, ?_, ?_, ?_, ?_, ?_, ?_⟩
  · rw [run_physics_two]
    simp only [hout, Bool.not_false, if_true, hinit, Outcome.bind, hnr0, Bool.and_self, hpre,
      offline_loop, hlast, id]
  · rw [hfsim]; exact hstep1
  · rw [hfsim]; exact hframe1
  · rw [hfsim]; exact hcount
  · rw [hfsim]; exact hcl1
  · rw [hfsim]
    simp only [Simulation.cloth_meshes, hcl1, step_mesh, List.map, List.map_map]
    rfl
  · rw [hfout, hfsim, hframe1, hpo, fmt_frame_one]
    simp only [List.append_assoc, List.singleton_append]
  · intro hx
    rw [← hx, zipWith_map_self, hfsim]
    simp only [Simulation.cloth_meshes, hcl1, step_mesh, List.map, List.map_map]
    rfl


/-- C7, as amended, at a concrete input: the free fall of a one-node cloth in
rigid mode, with the output directory `out`. -/
theorem single_step_run_witness :
    (∃ pf, run_physics (Ext.falling (one_cloth_scene false)) ["scene", "out"] 1 =
        Outcome.exited EXIT_SUCCESS pf ∧
      pf.sim.step = 1 ∧ pf.sim.frame = 1) ∧
    (run_physics (Ext.falling (one_cloth_scene false)) ["scene", "out"] 1).state.sim.cloth_meshes.map
      (fun m => m.nodes.map fun n => (n.x, n.v)) = [[((0, 0, -10), (0, 0, -10))]] := by
  obtain ⟨_, _, pf, _, _, _, _, h, hs, hf, _⟩ :=
    single_step_run (Ext.falling (one_cloth_scene false)) "scene" "out" (one_cloth_scene false)
      { mesh := { nodes := [node_at 0] }, rest := 0 } 0 rfl (by decide) rfl
      ⟨rfl, rfl, fun _ => rfl, rfl, rfl, rfl, rfl, rfl, rfl⟩ (by decide)
  exact ⟨⟨pf, h, hs, hf⟩, by decide!⟩

/-- C7 fails as stated for a scene in non-rigid mode: `run_physics` exits with
success after one step, at frame 1, having written the frame-1 geometry only;
frame 0 is not saved before the loop. -/
theorem single_step_run_non_rigid_counterexample :
    (run_physics (Ext.falling (one_cloth_scene true)) ["scene", "out"] 1).status =
      some EXIT_SUCCESS ∧
    (run_physics (Ext.falling (one_cloth_scene true)) ["scene", "out"] 1).state.sim.step = 1 ∧
    (run_physics (Ext.falling (one_cloth_scene true)) ["scene", "out"] 1).state.sim.frame = 1 ∧
    (run_physics (Ext.falling (one_cloth_scene true)) ["scene", "out"] 1).state.out.map
      Output.path = ["out", "out/cloth0001"] ∧
    (run_physics (Ext.falling (one_cloth_scene false)) ["scene", "out"] 1).state.out.map
      Output.path =
      ["out", "out/timing", "out/conf.json", "out/obs", "out/0000", "out/0001", "timing"] :=
  ⟨by decide!, by decide!, by decide!, by decide!, by decide!⟩

/-- C11.  For an activated obstacle and a time inside `[start_time, end_time]`:
when `frame > curr_frame` and the keyframe file of `frame` can be opened,
`get_mesh(time, frame)` returns with `curr_frame = frame`, `cache_mesh` a copy
of `curr_state_mesh` as it was before the call, `next_state_mesh` the geometry
loaded from that file, and `curr_state_mesh` (so every node position of it), the
base mesh and the other scalars as they were; when `frame <= curr_frame` the
call returns the obstacle as it was, no slot and no scalar changed. -/
theorem get_mesh_keyframe_load (files : KeyframeFiles) (ob : Obstacle) (time : ℚ) (frame : Int)
    (hact : ob.activated = true) (hlo : ob.start_time ≤ time) (hhi : time ≤ ob.end_time) :
    (frame > ob.curr_frame →
      ∀ loaded, files (ob.base_path ++ ("body" ++ fmt_0d 4 frame ++ ".obj")) = some loaded →
        ob.get_mesh_at_frame files time frame =
            Outcome.ret { ob with
              curr_frame := frame
              cache_mesh := deep_copy ob.curr_state_mesh
              next_state_mesh := loaded } ∧
          (ob.get_mesh_at_frame files time frame).state.curr_frame = frame ∧
          (ob.get_mesh_at_frame files time frame).state.cache_mesh.nodes =
            ob.curr_state_mesh.nodes ∧
          (ob.get_mesh_at_frame files time frame).state.next_state_mesh = loaded ∧
          (ob.get_mesh_at_frame files time frame).state.curr_state_mesh = ob.curr_state_mesh ∧
          (ob.get_mesh_at_frame files time frame).state.get_mesh.nodes.map (fun n => n.x) =
            ob.curr_state_mesh.nodes.map (fun n => n.x)) ∧
    (frame ≤ ob.curr_frame → ob.get_mesh_at_frame files time frame = Outcome.ret ob) := by
  have hw : ¬ (time < ob.start_time ∨ time > ob.end_time) := by
    rintro (h | h)
    · exact absurd hlo (not_le.mpr h)
    · exact absurd hhi (not_le.mpr h)
  have he : ¬ time > ob.end_time := fun h => hw (Or.inr h)
  constructor
  · intro hf loaded hfile
    have h : ob.get_mesh_at_frame files time frame =
        Outcome.ret { ob with
          curr_frame := frame
          cache_mesh := deep_copy ob.curr_state_mesh
          next_state_mesh := loaded } := by
      have hs : ¬ time < ob.start_time := not_lt.mpr hlo
      obtain ⟨bm, cm, nm, km, st, et, act, cf, sp, bp⟩ := ob
      simp only at hact hfile hf hs he
      subst hact
      simp [Obstacle.get_mesh_at_frame, he, hs, hf, hfile]
    rw [h]
    exact ⟨rfl, rfl, rfl, rfl, rfl, rfl⟩
  · intro hf
    have hs : ¬ time < ob.start_time := not_lt.mpr hlo
    have hf' : ¬ frame > ob.curr_frame := not_lt.mpr hf
    simp [Obstacle.get_mesh_at_frame, he, hs, hf', hact]

/-- C11 at a concrete input: the activated obstacle `keyframed_obstacle` at
time 2, for frame 1 (whose file exists) and again for frame 0. -/
theorem get_mesh_keyframe_load_witness :
    keyframed_obstacle.get_mesh_at_frame one_keyframe 2 1 =
        Outcome.ret { keyframed_obstacle with
          curr_frame := 1
          cache_mesh := deep_copy keyframed_obstacle.curr_state_mesh
          next_state_mesh := { nodes := [node_at (1, 0, 0)] } } ∧
      keyframed_obstacle.get_mesh_at_frame one_keyframe 2 0 = Outcome.ret keyframed_obstacle :=
  ⟨((get_mesh_keyframe_load one_keyframe keyframed_obstacle 2 1 rfl (by decide!) (by decide!)).1
      (by decide) _ (by decide)).1,
    (get_mesh_keyframe_load one_keyframe keyframed_obstacle 2 0 rfl (by decide!) (by decide!)).2
      (by decide)⟩

/-- C12.  The call `get_mesh(time, frame)` ends the process exactly when the
obstacle is activated, `time` is inside `[start_time, end_time]`,
`frame > curr_frame` and the keyframe file `base_path + "body<frame as 4
digits>.obj"` cannot be opened; the exit status is then 1, which is not 0, and
all four mesh slots are released in the state the process exits in; in every
other case the call returns. -/
theorem get_mesh_missing_keyframe (files : KeyframeFiles) (ob : Obstacle) (time : ℚ)
    (frame : Int) :
    ((∃ c ob1, ob.get_mesh_at_frame files time frame = Outcome.exited c ob1) ↔
      (ob.activated = true ∧ (ob.start_time ≤ time ∧ time ≤ ob.end_time) ∧
        frame > ob.curr_frame ∧
        files (ob.base_path ++ ("body" ++ fmt_0d 4 frame ++ ".obj")) = none)) ∧
    ((ob.activated = true ∧ (ob.start_time ≤ time ∧ time ≤ ob.end_time) ∧
        frame > ob.curr_frame ∧
        files (ob.base_path ++ ("body" ++ fmt_0d 4 frame ++ ".obj")) = none) →
      ob.get_mesh_at_frame files time frame =
          Outcome.exited 1 { ob with curr_frame := frame }.delete_meshes ∧
        (ob.get_mesh_at_frame files time frame).status = some 1 ∧
        (1 : Int) ≠ 0 ∧
        (ob.get_mesh_at_frame files time frame).state.all_released) ∧
    (¬ (ob.activated = true ∧ (ob.start_time ≤ time ∧ time ≤ ob.end_time) ∧
        frame > ob.curr_frame ∧
        files (ob.base_path ++ ("body" ++ fmt_0d 4 frame ++ ".obj")) = none) →
      ∃ ob1, ob.get_mesh_at_frame files time frame = Outcome.ret ob1) := by
  have hexit : (ob.activated = true ∧ (ob.start_time ≤ time ∧ time ≤ ob.end_time) ∧
        frame > ob.curr_frame ∧
        files (ob.base_path ++ ("body" ++ fmt_0d 4 frame ++ ".obj")) = none) →
      ob.get_mesh_at_frame files time frame =
        Outcome.exited 1 { ob with curr_frame := frame }.delete_meshes := by
    rintro ⟨hact, ⟨hlo, hhi⟩, hf, hfile⟩
    have hs : ¬ time < ob.start_time := not_lt.mpr hlo
    have he : ¬ time > ob.end_time := not_lt.mpr hhi
    obtain ⟨bm, cm, nm, km, st, et, act, cf, sp, bp⟩ := ob
    simp only at hact hfile hf hs he
    subst hact
    simp [Obstacle.get_mesh_at_frame, he, hs, hf, hfile]
  have hret : ¬ (ob.activated = true ∧ (ob.start_time ≤ time ∧ time ≤ ob.end_time) ∧
        frame > ob.curr_frame ∧
        files (ob.base_path ++ ("body" ++ fmt_0d 4 frame ++ ".obj")) = none) →
      ∃ ob1, ob.get_mesh_at_frame files time frame = Outcome.ret ob1 := by
    intro hn
    unfold Obstacle.get_mesh_at_frame
    by_cases he : time > ob.end_time
    · have he1 : time > ob.delete_meshes.end_time := he
      simp only [he, if_true, he1, or_true]
      exact ⟨_, rfl⟩
    · simp only [he, if_false, or_false]
      by_cases hs : time < ob.start_time
      · simp only [hs, if_true]
        exact ⟨_, rfl⟩
      · simp only [hs, if_false]
        by_cases hact : ob.activated = true
        · simp only [hact, Bool.not_true]
          by_cases hf : frame > ob.curr_frame
          · simp only [hf, if_true]
            cases hfile : files (ob.base_path ++ ("body" ++ fmt_0d 4 frame ++ ".obj")) with
            | none => exact absurd ⟨hact, ⟨not_lt.mp hs, not_lt.mp he⟩, hf, hfile⟩ hn
            | some loaded => simp
          · simp [hf]
        · simp [hact]
  refine ⟨⟨?_, fun h => ⟨_, _, hexit h⟩⟩, fun h => ?_, hret⟩
  · rintro ⟨c, ob1, h⟩
    by_contra hn
    obtain ⟨ob2, h2⟩ := hret hn
    rw [h2] at h
    cases h
  · have h1 := hexit h
    refine ⟨h1, ?_, by decide, ?_⟩
    · rw [h1]; rfl
    · rw [h1]; exact delete_meshes_all_released _

/-- C13, as amended.  For every node of the obstacle, with current position `x`
and target `T = trans(x0)` (`trans` the motion between `t - dt` and `t`, the
identity without a motion curve), `blend_with_previous(t, dt, blend)` sets the
position to `T + blend * (x - T)` and leaves the rest of the node as it is: the
factor weighs the current position, so `blend = 1` leaves the obstacle as it
is, and `blend = 0` puts every node on its target. -/
theorem blend_with_previous_formula (ob : Obstacle) (t dt blend : ℚ) :
    (ob.blend_with_previous t dt blend).curr_state_mesh.nodes =
        ob.curr_state_mesh.nodes.map (fun node =>
          { node with x := (ob.step_trans t dt).apply node.x0 +
              blend • (node.x - (ob.step_trans t dt).apply node.x0) }) ∧
      (ob.transform_spline = none → ob.step_trans t dt = identity) ∧
      (∀ spline, ob.transform_spline = some spline →
        ob.step_trans t dt = (spline.get_trans t).mul (inverse (spline.get_trans (t - dt)))) ∧
      ob.blend_with_previous t dt 1 = ob ∧
      (ob.blend_with_previous t dt 0).curr_state_mesh.nodes.map (fun n => n.x) =
        ob.curr_state_mesh.nodes.map (fun n => (ob.step_trans t dt).apply n.x0) := by
  have h : ∀ b, (ob.blend_with_previous t dt b).curr_state_mesh.nodes =
      ob.curr_state_mesh.nodes.map (fun node =>
        { node with x := (ob.step_trans t dt).apply node.x0 +
            b • (node.x - (ob.step_trans t dt).apply node.x0) }) := by
    intro b
    unfold Obstacle.blend_with_previous Obstacle.step_trans
    cases ob.transform_spline <;> rfl
  refine ⟨h blend, ?_, ?_, ?_, ?_⟩
  · intro hs
    unfold Obstacle.step_trans
    rw [hs]
  · intro spline hs
    unfold Obstacle.step_trans
    rw [hs]
  · have h1 := h 1
    have h2 : (ob.blend_with_previous t dt 1).curr_state_mesh.nodes = ob.curr_state_mesh.nodes := by
      rw [h1]
      conv_rhs => rw [← List.map_id ob.curr_state_mesh.nodes]
      apply List.map_congr_left
      intro node _
      simp
    obtain ⟨bm, ⟨cm⟩, nm, km, st, et, act, cf, sp, bp⟩ := ob
    simp only [Obstacle.blend_with_previous] at h2 ⊢
    simp only [Obstacle.mk.injEq, Mesh.mk.injEq, true_and, and_true]
    exact h2
  · rw [h 0, List.map_map]
    apply List.map_congr_left
    intro node _
    simp

/-- C13 fails as stated: for the node of `displaced_obstacle`, at `x = (1, 0, 0)`
with the target `T = (0, 0, 0)`, the blend factor 1 leaves the node at `x`,
not at `T`, and the blend factor 0 puts it at `T`, not at `x`. -/
theorem blend_with_previous_direction_counterexample :
    (displaced_obstacle.step_trans 2 1).apply (0, 0, 0) = (0, 0, 0) ∧
    (displaced_obstacle.blend_with_previous 2 1 1).curr_state_mesh.nodes.map (fun n => n.x) =
      [(1, 0, 0)] ∧
    (displaced_obstacle.blend_with_previous 2 1 1).curr_state_mesh.nodes.map (fun n => n.x) ≠
      displaced_obstacle.curr_state_mesh.nodes.map (fun n =>
        n.x + (1 : ℚ) • ((displaced_obstacle.step_trans 2 1).apply n.x0 - n.x)) ∧
    (displaced_obstacle.blend_with_previous 2 1 0).curr_state_mesh.nodes.map (fun n => n.x) =
      [(0, 0, 0)] ∧
    (displaced_obstacle.blend_with_previous 2 1 0).curr_state_mesh.nodes.map (fun n => n.x) ≠
      displaced_obstacle.curr_state_mesh.nodes.map (fun n =>
        n.x + (0 : ℚ) • ((displaced_obstacle.step_trans 2 1).apply n.x0 - n.x)) := by
  refine ⟨by decide!, by decide!, by decide!, by decide!, by decide!⟩

theorem blend_nodes_zero (c n k : List Node) : blend_nodes 0 c n k = c := by
  induction c generalizing n k with
  | nil => cases n <;> cases k <;> rfl
  | cons a c ih =>
    cases n with
    | nil => rfl
    | cons b n =>
      cases k with
      | nil => rfl
      | cons d k => simp [blend_nodes, ih]

theorem blend_nodes_add (b1 b2 : ℚ) (c n k : List Node) :
    blend_nodes b2 (blend_nodes b1 c n k) n k = blend_nodes (b1 + b2) c n k := by
  induction c generalizing n k with
  | nil => cases n <;> cases k <;> rfl
  | cons a c ih =>
    cases n with
    | nil => rfl
    | cons b n =>
      cases k with
      | nil => rfl
      | cons d k =>
        simp only [blend_nodes, ih, List.cons.injEq, and_true]
        congr 1
        rw [add_smul, add_assoc]

theorem blend_nodes_length (b : ℚ) (c n k : List Node) :
    (blend_nodes b c n k).length = c.length := by
  induction c generalizing n k with
  | nil => cases n <;> cases k <;> rfl
  | cons a c ih =>
    cases n with
    | nil => rfl
    | cons b n =>
      cases k with
      | nil => rfl
      | cons d k => simp [blend_nodes, ih]

theorem blend_nodes_getElem (b : ℚ) (cs ns ks : List Node) (i : Nat) (c0 n0 k0 : Node)
    (hc : cs[i]? = some c0) (hn : ns[i]? = some n0) (hk : ks[i]? = some k0) :
    (blend_nodes b cs ns ks)[i]? = some { c0 with x := c0.x + b • (n0.x - k0.x) } := by
  induction cs generalizing ns ks i with
  | nil => simp at hc
  | cons a cs ih =>
    cases ns with
    | nil => simp at hn
    | cons m ns =>
      cases ks with
      | nil => simp at hk
      | cons d ks =>
        cases i with
        | zero =>
          simp only [List.getElem?_cons_zero, Option.some.injEq] at hc hn hk
          subst hc hn hk
          simp [blend_nodes]
        | succ i =>
          simp only [List.getElem?_cons_succ] at hc hn hk
          simp only [blend_nodes, List.getElem?_cons_succ]
          exact ih ns ks i hc hn hk

theorem blend_with_next_sum (ob : Obstacle) (blends : List ℚ) :
    blends.foldl Obstacle.blend_with_next ob = ob.blend_with_next blends.sum := by
  induction blends generalizing ob with
  | nil =>
    simp only [List.foldl_nil, List.sum_nil, Obstacle.blend_with_next, blend_nodes_zero]
  | cons b bs ih =>
    rw [List.foldl_cons, ih, List.sum_cons]
    simp only [Obstacle.blend_with_next, blend_nodes_add]

/-- C14.  For an obstacle whose `cache_mesh` node positions equal its
`curr_state_mesh` node positions and blend factors that sum to 1, the calls
`blend_with_next(b_1)`, ..., `blend_with_next(b_m)` leave every node of
`curr_state_mesh` that has a corresponding node in `next_state_mesh` at the
position of that node (so the position lists are equal when the two meshes have
the same number of nodes), and leave `next_state_mesh` and `cache_mesh` as they
are.  Each single call adds `blend * (next - cache)` to the position, so any
sequence of calls has the effect of one call with the sum of the factors. -/
theorem blend_with_next_reaches_keyframe (ob : Obstacle) (blends : List ℚ)
    (hcache : ob.cache_mesh.nodes.map (fun n => n.x) =
      ob.curr_state_mesh.nodes.map (fun n => n.x))
    (hsum : blends.sum = 1) :
    (∀ i, i < ob.curr_state_mesh.nodes.length → i < ob.next_state_mesh.nodes.length →
      ((blends.foldl Obstacle.blend_with_next ob).curr_state_mesh.nodes.map (fun n => n.x))[i]? =
        (ob.next_state_mesh.nodes.map (fun n => n.x))[i]?) ∧
    (ob.next_state_mesh.nodes.length = ob.curr_state_mesh.nodes.length →
      (blends.foldl Obstacle.blend_with_next ob).curr_state_mesh.nodes.map (fun n => n.x) =
        ob.next_state_mesh.nodes.map (fun n => n.x)) ∧
    (blends.foldl Obstacle.blend_with_next ob).next_state_mesh = ob.next_state_mesh ∧
    (blends.foldl Obstacle.blend_with_next ob).cache_mesh = ob.cache_mesh ∧
    (∀ bs : List ℚ, bs.foldl Obstacle.blend_with_next ob = ob.blend_with_next bs.sum) ∧
    (∀ (b : ℚ) (i : Nat) (c0 n0 k0 : Node), ob.curr_state_mesh.nodes[i]? = some c0 →
      ob.next_state_mesh.nodes[i]? = some n0 → ob.cache_mesh.nodes[i]? = some k0 →
      (ob.blend_with_next b).curr_state_mesh.nodes[i]? =
        some { c0 with x := c0.x + b • (n0.x - k0.x) }) := by
  have hlen : ob.cache_mesh.nodes.length = ob.curr_state_mesh.nodes.length := by
    have := congrArg List.length hcache
    simpa using this
  have hidx : ∀ i, i < ob.curr_state_mesh.nodes.length → i < ob.next_state_mesh.nodes.length →
      ((blends.foldl Obstacle.blend_with_next ob).curr_state_mesh.nodes.map (fun n => n.x))[i]? =
        (ob.next_state_mesh.nodes.map (fun n => n.x))[i]? := by
    intro i hi hn
    have hk : i < ob.cache_mesh.nodes.length := by rw [hlen]; exact hi
    have hc0 : ob.curr_state_mesh.nodes[i]? = some ob.curr_state_mesh.nodes[i] :=
      List.getElem?_eq_getElem hi
    have hn0 : ob.next_state_mesh.nodes[i]? = some ob.next_state_mesh.nodes[i] :=
      List.getElem?_eq_getElem hn
    have hk0 : ob.cache_mesh.nodes[i]? = some ob.cache_mesh.nodes[i] :=
      List.getElem?_eq_getElem hk
    have hx : ob.cache_mesh.nodes[i].x = ob.curr_state_mesh.nodes[i].x := by
      have := congrArg (fun l => l[i]?) hcache
      simp only [List.getElem?_map, hc0, hk0, Option.map_some', Option.some.injEq] at this
      exact this
    rw [blend_with_next_sum, hsum]
    simp only [Obstacle.blend_with_next, List.getElem?_map]
    rw [blend_nodes_getElem 1 _ _ _ i _ _ _ hc0 hn0 hk0, hn0]
    simp [hx]
  refine ⟨hidx, ?_, ?_, ?_, blend_with_next_sum ob, ?_⟩
  · intro hl
    apply List.ext_getElem?
    intro i
    by_cases hi : i < ob.curr_state_mesh.nodes.length
    · exact hidx i hi (by rw [hl]; exact hi)
    · have h1 : ((blends.foldl Obstacle.blend_with_next ob).curr_state_mesh.nodes.map
          (fun n => n.x)).length ≤ i := by
        rw [blend_with_next_sum]
        simp only [Obstacle.blend_with_next, List.length_map, blend_nodes_length]
        exact not_lt.mp hi
      have h2 : (ob.next_state_mesh.nodes.map (fun n => n.x)).length ≤ i := by
        simp only [List.length_map, hl]
        exact not_lt.mp hi
      rw [List.getElem?_eq_none h1, List.getElem?_eq_none h2]
  · rw [blend_with_next_sum]; rfl
  · rw [blend_with_next_sum]; rfl
  · intro b i c0 n0 k0 hc hn hk
    exact blend_nodes_getElem b _ _ _ i c0 n0 k0 hc hn hk

/-- C14 at a concrete input: the obstacle `loaded_obstacle`, whose anchor is a
copy of its current mesh, blended twice with factor 1/2. -/
theorem blend_with_next_reaches_keyframe_witness :
    ([1 / 2, 1 / 2] : List ℚ).sum = 1 ∧
      (([1 / 2, 1 / 2] : List ℚ).foldl Obstacle.blend_with_next
          loaded_obstacle).curr_state_mesh.nodes.map (fun n => n.x) =
        loaded_obstacle.next_state_mesh.nodes.map (fun n => n.x) :=
  ⟨by norm_num,
    (blend_with_next_reaches_keyframe loaded_obstacle [1 / 2, 1 / 2] rfl (by norm_num)).2.1 rfl⟩

theorem remeshing_step_eq (E : Ext) (sim : Simulation) (initializing : Bool) :
    remeshing_step E sim initializing =
      if !sim.enabled Module.Remeshing then sim
      else
        popfilter_pass E
          (separation_pass E (sim.cloths.map fun c => deep_copy c.mesh)
            (restore_pass E (sim.cloths.map fun c => deep_copy c.mesh)
              (if sim.enabled Module.Plasticity && !initializing then
                sim.cloths.map fun c => E.back_up_residuals c.mesh else [])
              (remesh_pass E (backup_pass E sim initializing)) initializing))
          initializing := rfl

theorem quiet_refl (s : Module) (a : Simulation) : quiet s a a :=
  ⟨rfl, rfl, [], by simp, by simp⟩

theorem quiet_trans {s : Module} {a b c : Simulation} (h1 : quiet s a b) (h2 : quiet s b c) :
    quiet s a c := by
  obtain ⟨e1, t1, n1, o1, p1⟩ := h1
  obtain ⟨e2, t2, n2, o2, p2⟩ := h2
  refine ⟨e2.trans e1, t2.trans t1, n1 ++ n2, ?_, ?_⟩
  · rw [o2, o1, List.append_assoc]
  · intro op hop
    rcases List.mem_append.mp hop with h | h
    · exact p1 op h
    · exact p2 op h

theorem quiet_of_eq (s : Module) (a b : Simulation) (he : b.enabled = a.enabled)
    (ht : b.timers = a.timers) (ho : b.ops = a.ops) : quiet s a b :=
  ⟨he, by rw [ht], [], by simp [ho], by simp⟩

theorem quiet_tick {s m : Module} (a : Simulation) (hm : m ≠ s) : quiet s a (a.tick m) :=
  ⟨rfl, rfl, [Op.tick m], rfl, by simp [Op.of_stage, hm]⟩

theorem quiet_tock {s m : Module} (E : Ext) (a : Simulation) (hm : m ≠ s) :
    quiet s a (a.tock E m) :=
  ⟨rfl, by simp [Simulation.tock, Ne.symm hm], [Op.tock m], rfl, by simp [Op.of_stage, hm]⟩

theorem quiet_called {s : Module} (a : Simulation) (f : Solver) (hf : f.stage ≠ some s) :
    quiet s a (a.called f) :=
  ⟨rfl, rfl, [Op.solver f], rfl, by simp [Op.of_stage, hf]⟩

theorem quiet_delete_constraints (s : Module) (a : Simulation) (cons : List Constraint) :
    quiet s a (delete_constraints a cons) :=
  ⟨rfl, rfl, [Op.delete_constraints cons], rfl, by simp [Op.of_stage]⟩

theorem for_cloths_ops (P : Op → Prop) (body : Nat → Cloth → Cloth × List Op)
    (hb : ∀ c cloth, ∀ op ∈ (body c cloth).2, P op) (n : Nat) (cloths : List Cloth) :
    ∀ op ∈ (for_cloths body n cloths).2, P op := by
  induction cloths generalizing n with
  | nil => intro op hop; simp [for_cloths] at hop
  | cons cloth cloths ih =>
    intro op hop
    simp only [for_cloths, List.mem_append] at hop
    rcases hop with h | h
    · exact hb n cloth op h
    · exact ih (n + 1) op h

theorem quiet_each_cloth {s : Module} (a : Simulation) (body : Nat → Cloth → Cloth × List Op)
    (hb : ∀ c cloth, ∀ op ∈ (body c cloth).2, Op.of_stage s op = false) :
    quiet s a (a.each_cloth body) :=
  ⟨rfl, rfl, (for_cloths body 0 a.cloths).2, rfl,
    for_cloths_ops (fun op => Op.of_stage s op = false) body hb 0 a.cloths⟩

theorem get_constraints_false (E : Ext) (sim : Simulation) :
    (get_constraints E sim false).2 = sim := by
  simp [get_constraints]

theorem get_constraints_quiet {s : Module} (E : Ext) (sim : Simulation) (b : Bool)
    (h : s = Module.Proximity → sim.enabled Module.Proximity = false) :
    quiet s sim (get_constraints E sim b).2 := by
  unfold get_constraints
  by_cases hc : (b && sim.enabled Module.Proximity) = true
  · have he : sim.enabled Module.Proximity = true := by
      cases b <;> simp_all
    have hm : Module.Proximity ≠ s := fun e => by
      rw [h e.symm] at he; cases he
    simp only [hc, if_true]
    refine quiet_trans (quiet_tick sim hm) (quiet_trans (quiet_called _ _ ?_) (quiet_tock E _ hm))
    intro e
    exact hm (Option.some.inj e)
  · simp only [hc]
    exact quiet_refl s sim

theorem physics_step_quiet {s : Module} (E : Ext) (sim : Simulation) (cons : List Constraint)
    (h : s = Module.Physics → sim.enabled Module.Physics = false) :
    quiet s sim (physics_step E sim cons) := by
  unfold physics_step
  by_cases he : sim.enabled Module.Physics = true
  · have hm : Module.Physics ≠ s := fun e => by
      rw [h e.symm] at he; cases he
    have hs : ∀ m, m = Module.Physics → ¬ m = s := fun m e1 e2 => hm (e1.symm.trans e2)
    simp only [he, Bool.not_true]
    refine quiet_trans (quiet_tick sim hm) (quiet_trans (quiet_each_cloth _ _ ?_)
      (quiet_trans (quiet_of_eq s _ _ rfl rfl rfl) (quiet_tock E _ hm)))
    intro c cloth op hop
    simp only [physics_cloth, List.mem_append, List.mem_singleton, List.mem_map] at hop
    rcases hop with (rfl | ⟨_, _, rfl⟩) | rfl <;> simp [Op.of_stage, Solver.stage, hm]
  · have he' : sim.enabled Module.Physics = false := by
      cases hb : sim.enabled Module.Physics
      · rfl
      · exact absurd hb he
    simp only [he', Bool.not_false, if_true]
    exact quiet_refl s sim

theorem plasticity_step_quiet {s : Module} (E : Ext) (sim : Simulation)
    (h : s = Module.Plasticity → sim.enabled Module.Plasticity = false) :
    quiet s sim (plasticity_step E sim) := by
  unfold plasticity_step
  by_cases he : sim.enabled Module.Plasticity = true
  · have hm : Module.Plasticity ≠ s := fun e => by
      rw [h e.symm] at he; cases he
    simp only [he, Bool.not_true]
    refine quiet_trans (quiet_tick sim hm) (quiet_trans (quiet_each_cloth _ _ ?_)
      (quiet_tock E _ hm))
    intro c cloth op hop
    simp only [List.mem_cons, List.mem_singleton, List.not_mem_nil, or_false] at hop
    rcases hop with rfl | rfl <;> simp [Op.of_stage, Solver.stage, hm]
  · have he' : sim.enabled Module.Plasticity = false := by
      cases hb : sim.enabled Module.Plasticity
      · rfl
      · exact absurd hb he
    simp only [he', Bool.not_false, if_true]
    exact quiet_refl s sim

theorem strainlimiting_step_quiet {s : Module} (E : Ext) (sim : Simulation)
    (cons : List Constraint)
    (h : s = Module.StrainLimiting → sim.enabled Module.StrainLimiting = false) :
    quiet s sim (strainlimiting_step E sim cons) := by
  unfold strainlimiting_step
  by_cases he : sim.enabled Module.StrainLimiting = true
  · have hm : Module.StrainLimiting ≠ s := fun e => by
      rw [h e.symm] at he; cases he
    simp only [he, Bool.not_true]
    refine quiet_trans (quiet_tick sim hm) (quiet_trans (quiet_called _ Solver.strain_limiting ?_)
      (quiet_trans (quiet_of_eq s _ _ rfl rfl rfl) (quiet_tock E _ hm)))
    intro e
    exact hm (Option.some.inj e)
  · have he' : sim.enabled Module.StrainLimiting = false := by
      cases hb : sim.enabled Module.StrainLimiting
      · rfl
      · exact absurd hb he
    simp only [he', Bool.not_false, if_true]
    exact quiet_refl s sim

theorem collision_step_quiet {s : Module} (E : Ext) (sim : Simulation)
    (h : s = Module.Collision → sim.enabled Module.Collision = false) :
    quiet s sim (collision_step E sim) := by
  unfold collision_step
  by_cases he : sim.enabled Module.Collision = true
  · have hm : Module.Collision ≠ s := fun e => by
      rw [h e.symm] at he; cases he
    simp only [he, Bool.not_true, get_constraints_false]
    refine quiet_trans (quiet_tick sim hm) (quiet_trans (quiet_called _ Solver.collision_response ?_)
      (quiet_trans (quiet_of_eq s _ _ rfl rfl rfl)
        (quiet_trans (quiet_delete_constraints s _ _)
          (quiet_trans (quiet_of_eq s _ _ rfl rfl rfl) (quiet_tock E _ hm)))))
    intro e
    exact hm (Option.some.inj e)
  · have he' : sim.enabled Module.Collision = false := by
      cases hb : sim.enabled Module.Collision
      · rfl
      · exact absurd hb he
    simp only [he', Bool.not_false, if_true]
    exact quiet_refl s sim

theorem bool_not_true {b : Bool} (h : ¬ b = true) : b = false := by
  cases b
  · rfl
  · exact absurd rfl h

theorem backup_pass_quiet {s : Module} (E : Ext) (sim : Simulation) (initializing : Bool)
    (h : s = Module.Plasticity → sim.enabled Module.Plasticity = false) :
    quiet s sim (backup_pass E sim initializing) := by
  unfold backup_pass
  by_cases hc : (sim.enabled Module.Plasticity && !initializing) = true
  · have he : sim.enabled Module.Plasticity = true := by
      cases hb : sim.enabled Module.Plasticity
      · rw [hb] at hc; simp at hc
      · rfl
    have hm : Module.Plasticity ≠ s := fun e => by
      rw [h e.symm] at he; cases he
    simp only [hc, if_true]
    refine quiet_trans (quiet_tick sim hm) (quiet_trans (quiet_each_cloth _ _ ?_)
      (quiet_tock E _ hm))
    intro c cloth op hop
    simp only [List.mem_singleton] at hop
    subst hop
    simp [Op.of_stage, Solver.stage, hm]
  · simp only [hc]
    exact quiet_refl s sim

theorem remesh_pass_quiet {s : Module} (E : Ext) (sim : Simulation)
    (hm : Module.Remeshing ≠ s) : quiet s sim (remesh_pass E sim) := by
  unfold remesh_pass
  refine quiet_trans (quiet_tick sim hm) (quiet_trans (quiet_each_cloth _ _ ?_)
    (quiet_tock E _ hm))
  intro c cloth op hop
  unfold remesh_cloth at hop
  split at hop
  · simp only [List.mem_singleton] at hop
    subst hop
    simp [Op.of_stage, Solver.stage, hm]
  · simp only [List.mem_cons, List.mem_singleton, List.not_mem_nil, or_false] at hop
    rcases hop with rfl | rfl <;> simp [Op.of_stage, Solver.stage, hm]

theorem restore_pass_quiet {s : Module} (E : Ext) (old_meshes : List Mesh)
    (res : List (List Residual)) (sim : Simulation) (initializing : Bool)
    (h : s = Module.Plasticity → sim.enabled Module.Plasticity = false) :
    quiet s sim (restore_pass E old_meshes res sim initializing) := by
  unfold restore_pass
  by_cases hc : (sim.enabled Module.Plasticity && !initializing) = true
  · have he : sim.enabled Module.Plasticity = true := by
      cases hb : sim.enabled Module.Plasticity
      · rw [hb] at hc; simp at hc
      · rfl
    have hm : Module.Plasticity ≠ s := fun e => by
      rw [h e.symm] at he; cases he
    simp only [hc, if_true]
    refine quiet_trans (quiet_tick sim hm) (quiet_trans (quiet_each_cloth _ _ ?_)
      (quiet_tock E _ hm))
    intro c cloth op hop
    split at hop
    · simp only [List.mem_singleton] at hop
      subst hop
      simp [Op.of_stage, Solver.stage, hm]
    · simp at hop
  · simp only [hc]
    exact quiet_refl s sim

theorem separation_pass_quiet {s : Module} (E : Ext) (old_meshes : List Mesh)
    (sim : Simulation) (h : s = Module.Separation → sim.enabled Module.Separation = false) :
    quiet s sim (separation_pass E old_meshes sim) := by
  unfold separation_pass
  by_cases he : sim.enabled Module.Separation = true
  · have hm : Module.Separation ≠ s := fun e => by
      rw [h e.symm] at he; cases he
    simp only [he, if_true]
    refine quiet_trans (quiet_tick sim hm) (quiet_trans (quiet_called _ Solver.separate ?_)
      (quiet_trans (quiet_of_eq s _ _ rfl rfl rfl) (quiet_tock E _ hm)))
    intro e
    exact hm (Option.some.inj e)
  · simp only [he]
    exact quiet_refl s sim

theorem popfilter_pass_quiet {s : Module} (E : Ext) (sim : Simulation) (initializing : Bool)
    (h : s = Module.PopFilter → sim.enabled Module.PopFilter = false)
    (hp : s = Module.Proximity → sim.enabled Module.Proximity = false) :
    quiet s sim (popfilter_pass E sim initializing) := by
  unfold popfilter_pass
  by_cases hc : (sim.enabled Module.PopFilter && !initializing) = true
  · have he : sim.enabled Module.PopFilter = true := by
      cases hb : sim.enabled Module.PopFilter
      · rw [hb] at hc; simp at hc
      · rfl
    have hm : Module.PopFilter ≠ s := fun e => by
      rw [h e.symm] at he; cases he
    simp only [hc, if_true]
    refine quiet_trans (quiet_tick sim hm)
      (quiet_trans (get_constraints_quiet E _ true hp)
        (quiet_trans (quiet_each_cloth _ _ ?_)
          (quiet_trans (quiet_delete_constraints s _ _) (quiet_tock E _ hm))))
    intro c cloth op hop
    simp only [List.mem_singleton] at hop
    subst hop
    simp [Op.of_stage, Solver.stage, hm]
  · simp only [hc]
    exact quiet_refl s sim

theorem remeshing_step_quiet {s : Module} (E : Ext) (sim : Simulation) (initializing : Bool)
    (h : sim.enabled Module.Remeshing = false ∨ sim.enabled s = false) :
    quiet s sim (remeshing_step E sim initializing) := by
  rw [remeshing_step_eq]
  by_cases he : sim.enabled Module.Remeshing = true
  · have hs : sim.enabled s = false := by
      rcases h with h | h
      · rw [h] at he; cases he
      · exact h
    have hoff : ∀ m, s = m → sim.enabled m = false := fun m e => by rw [← e]; exact hs
    have hm : Module.Remeshing ≠ s := fun e => by
      rw [hoff _ e.symm] at he; cases he
    simp only [he, Bool.not_true]
    have h1 := backup_pass_quiet E sim initializing (hoff _)
    have h2 := remesh_pass_quiet E (backup_pass E sim initializing) hm
    have h12 := quiet_trans h1 h2
    have h3 := restore_pass_quiet E (sim.cloths.map fun c => deep_copy c.mesh)
      (if sim.enabled Module.Plasticity && !initializing then
        sim.cloths.map fun c => E.back_up_residuals c.mesh else [])
      (remesh_pass E (backup_pass E sim initializing)) initializing
      (fun e => by rw [h12.1]; exact hoff _ e)
    have h13 := quiet_trans h12 h3
    have h4 := separation_pass_quiet E (sim.cloths.map fun c => deep_copy c.mesh) _
      (fun e => by rw [h13.1]; exact hoff _ e)
    have h14 := quiet_trans h13 h4
    have h5 := popfilter_pass_quiet E _ initializing
      (fun e => by rw [h14.1]; exact hoff _ e) (fun e => by rw [h14.1]; exact hoff _ e)
    exact quiet_trans h14 h5
  · simp only [bool_not_true he, Bool.not_false, if_true]
    exact quiet_refl s sim

theorem quiet_around_remeshing {s : Module} (E : Ext) (sim x y : Simulation)
    (h : sim.enabled Module.Remeshing = false ∨ sim.enabled s = false)
    (hy : y.enabled = (remeshing_step E x false).enabled ∧
      y.timers = (remeshing_step E x false).timers ∧ y.ops = (remeshing_step E x false).ops)
    (hx : x.enabled = sim.enabled ∧ x.timers = sim.timers ∧ x.ops = sim.ops) :
    quiet s sim y :=
  quiet_trans (quiet_of_eq s sim x hx.1 hx.2.1 hx.2.2)
    (quiet_trans (remeshing_step_quiet E x false (by rw [hx.1]; exact h))
      (quiet_of_eq s _ y hy.1 hy.2.1 hy.2.2))

theorem frame_update_quiet {s : Module} (E : Ext) (sim : Simulation)
    (h : sim.enabled Module.Remeshing = false ∨ sim.enabled s = false) :
    quiet s sim (frame_update E sim) := by
  unfold frame_update
  dsimp only
  split_ifs
  · exact quiet_around_remeshing E sim _ _ h ⟨rfl, rfl, rfl⟩ ⟨rfl, rfl, rfl⟩
  · exact quiet_around_remeshing E sim _ _ h ⟨rfl, rfl, rfl⟩ ⟨rfl, rfl, rfl⟩
  · exact quiet_refl s sim
  · exact quiet_around_remeshing E sim _ _ h ⟨rfl, rfl, rfl⟩ ⟨rfl, rfl, rfl⟩
  · exact quiet_around_remeshing E sim _ _ h ⟨rfl, rfl, rfl⟩ ⟨rfl, rfl, rfl⟩
  · exact quiet_refl s sim

theorem quiet_step {s : Module} {a b c : Simulation} (hab : quiet s a b)
    (hbc : b.enabled = a.enabled → quiet s b c) : quiet s a c :=
  quiet_trans hab (hbc hab.1)

theorem quiet_traced {s : Module} {a b : Simulation} (t : List Call) (hab : quiet s a b) :
    quiet s a { b with trace := t } :=
  quiet_trans hab (quiet_of_eq s b _ rfl rfl rfl)

theorem finish_step_quiet {s : Module} (E : Ext) (sim : Simulation)
    (h : sim.enabled s = false ∨
      (sim.enabled Module.Remeshing = false ∧ (s = Module.Separation ∨ s = Module.PopFilter))) :
    quiet s sim (finish_step E sim) := by
  have hoff : ∀ m, m ≠ Module.Separation → m ≠ Module.PopFilter →
      ∀ x : Simulation, x.enabled = sim.enabled → s = m → x.enabled m = false := by
    intro m h1 h2 x hx e
    rcases h with h | ⟨_, h | h⟩
    · rw [hx, ← e]; exact h
    · exact absurd (h.symm.trans e).symm h1
    · exact absurd (h.symm.trans e).symm h2
  have hrem : ∀ x : Simulation, x.enabled = sim.enabled →
      (x.enabled Module.Remeshing = false ∨ x.enabled s = false) := by
    intro x hx
    rcases h with h | ⟨h, _⟩
    · exact Or.inr (by rw [hx]; exact h)
    · exact Or.inl (by rw [hx]; exact h)
  unfold finish_step
  dsimp only
  refine quiet_step ?_ (fun _ => quiet_delete_constraints s _ _)
  refine quiet_traced _ ?_
  refine quiet_step ?_ (fun hx => frame_update_quiet E _ (hrem _ hx))
  refine quiet_step ?_ (fun hx =>
    collision_step_quiet E _ (hoff _ (by decide) (by decide) _ hx))
  refine quiet_traced _ ?_
  refine quiet_step ?_ (fun hx =>
    strainlimiting_step_quiet E _ _ (hoff _ (by decide) (by decide) _ hx))
  refine quiet_traced _ ?_
  refine quiet_step ?_ (fun hx =>
    plasticity_step_quiet E _ (hoff _ (by decide) (by decide) _ hx))
  refine quiet_traced _ ?_
  refine quiet_step ?_ (fun hx =>
    physics_step_quiet E _ _ (hoff _ (by decide) (by decide) _ hx))
  refine quiet_traced _ ?_
  exact get_constraints_quiet E sim true (hoff _ (by decide) (by decide) sim rfl)

theorem advance_step_quiet {s : Module} (E : Ext) (sim : Simulation)
    (h : sim.enabled s = false ∨
      (sim.enabled Module.Remeshing = false ∧ (s = Module.Separation ∨ s = Module.PopFilter))) :
    quiet s sim (advance_step E sim).state := by
  rw [advance_step_eq]
  obtain ⟨obs, ho⟩ := update_obstacles_state E sim.ticked (if sim.non_rigid then true else false)
  cases hu : update_obstacles E sim.ticked (if sim.non_rigid then true else false) with
  | ret s2 =>
    rw [hu] at ho
    simp only [Outcome.state] at ho
    subst ho
    simp only [Outcome.bind, Outcome.state]
    exact quiet_step (quiet_of_eq s sim _ rfl rfl rfl) (fun _ => finish_step_quiet E _ h)
  | exited c s2 =>
    rw [hu] at ho
    simp only [Outcome.state] at ho
    subst ho
    simp only [Outcome.bind, Outcome.state, id]
    exact quiet_of_eq s sim _ rfl rfl rfl

theorem of_stage_false (s : Module) (op : Op) (h : Op.of_stage s op = false) :
    op ≠ Op.tick s ∧ op ≠ Op.tock s ∧ ∀ f, f.stage = some s → op ≠ Op.solver f := by
  refine ⟨?_, ?_, ?_⟩
  · rintro rfl
    simp [Op.of_stage] at h
  · rintro rfl
    simp [Op.of_stage] at h
  · rintro f hf rfl
    simp [Op.of_stage, hf] at h

/-- C15.  For every stage `s` whose enable flag is false, one `advance_step`
leaves the total of the timer of `s` as it was and adds to the log of
operations no tick and no tock of that timer and no call of a solver operation
of that stage (`Solver.stage`); the enable flags are the same at every point of
the step.  In particular, with physics disabled `physics_step`, the one caller
of `step_mesh`, returns the state it is given (no node position is integrated by
velocity), and with remeshing disabled `remeshing_step` returns the state it is
given and the step logs no tick, tock or solver call of the separation and
pop-filter stages, whatever their flags. -/
theorem disabled_stage_untouched (E : Ext) (sim : Simulation) (s : Module)
    (h : sim.enabled s = false) :
    (advance_step E sim).state.timers s = sim.timers s ∧
    (∃ new, (advance_step E sim).state.ops = sim.ops ++ new ∧
      ∀ op ∈ new, op ≠ Op.tick s ∧ op ≠ Op.tock s ∧ ∀ f, f.stage = some s → op ≠ Op.solver f) ∧
    (advance_step E sim).state.enabled = sim.enabled ∧
    (s = Module.Physics → ∀ (x : Simulation) (cons : List Constraint),
      x.enabled = sim.enabled → physics_step E x cons = x) ∧
    (s = Module.Remeshing →
      (∀ (x : Simulation) (initializing : Bool),
        x.enabled = sim.enabled → remeshing_step E x initializing = x) ∧
      (advance_step E sim).state.timers Module.Separation = sim.timers Module.Separation ∧
      (advance_step E sim).state.timers Module.PopFilter = sim.timers Module.PopFilter ∧
      ∃ new, (advance_step E sim).state.ops = sim.ops ++ new ∧
        ∀ op ∈ new, Op.of_stage Module.Separation op = false ∧
          Op.of_stage Module.PopFilter op = false ∧
          op ≠ Op.solver Solver.separate ∧ op ≠ Op.solver Solver.apply_pop_filter) := by
  obtain ⟨he, ht, new, ho, hp⟩ := advance_step_quiet E sim (Or.inl h)
  refine ⟨ht, ⟨new, ho, fun op hop => of_stage_false s op (hp op hop)⟩, he, ?_, ?_⟩
  · rintro rfl x cons hx
    unfold physics_step
    simp [hx, h]
  · rintro rfl
    refine ⟨?_, ?_, ?_, ?_⟩
    · intro x initializing hx
      unfold remeshing_step
      simp [hx, h]
    · exact (advance_step_quiet E sim (Or.inr ⟨h, Or.inl rfl⟩)).2.1
    · exact (advance_step_quiet E sim (Or.inr ⟨h, Or.inr rfl⟩)).2.1
    · obtain ⟨_, _, n1, o1, p1⟩ :=
        advance_step_quiet (s := Module.Separation) E sim (Or.inr ⟨h, Or.inl rfl⟩)
      obtain ⟨_, _, n2, o2, p2⟩ :=
        advance_step_quiet (s := Module.PopFilter) E sim (Or.inr ⟨h, Or.inr rfl⟩)
      have hn : n1 = n2 := by
        rw [o1] at o2
        exact List.append_cancel_left o2
      subst hn
      refine ⟨n1, o1, fun op hop => ⟨p1 op hop, p2 op hop, ?_, ?_⟩⟩
      · exact (of_stage_false _ op (p1 op hop)).2.2 _ rfl
      · exact (of_stage_false _ op (p2 op hop)).2.2 _ rfl

/-- C15 at a concrete input: one step of the scene with one cloth in which the
physics stage alone is enabled, for the collision stage. -/
theorem disabled_stage_untouched_witness :
    (one_cloth_scene false).enabled Module.Collision = false ∧
      (advance_step Ext.idle (one_cloth_scene false)).state.timers Module.Collision =
        (one_cloth_scene false).timers Module.Collision :=
  ⟨rfl, (disabled_stage_untouched Ext.idle (one_cloth_scene false) Module.Collision rfl).1⟩

theorem foldl_append_flatten {α β : Type} (f : α → List β) (l : List α) (acc : List β) :
    l.foldl (fun cons h => cons ++ f h) acc = acc ++ (l.map f).flatten := by
  induction l generalizing acc with
  | nil => simp
  | cons a l ih => simp [ih]

/-- C16.  The call `get_constraints(sim, include_proximity)` returns the
constraints `handles[h]->get_constraints(sim.time)` of every handle, joined in
handle order, followed by the result of `proximity_constraints` on the cloth
and obstacle meshes exactly when `include_proximity` holds and the proximity
stage is enabled.  When that pass runs, the log grows by the tick of the
proximity timer, the solver call and the tock, and the timer total grows by the
time elapsed; otherwise the simulation is left as it was. -/
theorem get_constraints_concatenation (E : Ext) (sim : Simulation) (include_proximity : Bool) :
    (get_constraints E sim include_proximity).1 =
        (sim.handles.map fun h => h.get_constraints sim.time).flatten ++
          (if include_proximity = true ∧ sim.enabled Module.Proximity = true then
            E.proximity_constraints sim.cloth_meshes sim.obstacle_meshes
              sim.friction sim.obs_friction
          else []) ∧
      ((include_proximity = true ∧ sim.enabled Module.Proximity = true) →
        (get_constraints E sim include_proximity).2 =
            ((sim.tick Module.Proximity).called Solver.proximity_constraints).tock E
              Module.Proximity ∧
          (get_constraints E sim include_proximity).2.ops =
            sim.ops ++ [Op.tick Module.Proximity, Op.solver Solver.proximity_constraints,
              Op.tock Module.Proximity] ∧
          (get_constraints E sim include_proximity).2.timers Module.Proximity =
            sim.timers Module.Proximity +
              E.elapsed (sim.ops ++
                [Op.tick Module.Proximity, Op.solver Solver.proximity_constraints])) ∧
      (¬ (include_proximity = true ∧ sim.enabled Module.Proximity = true) →
        (get_constraints E sim include_proximity).2 = sim) := by
  unfold get_constraints
  rw [foldl_append_flatten]
  by_cases hc : include_proximity = true ∧ sim.enabled Module.Proximity = true
  · have hb : (include_proximity && sim.enabled Module.Proximity) = true := by
      rw [hc.1, hc.2]; rfl
    simp only [hb, if_true, hc, and_self, List.nil_append, not_true_eq_false, false_implies,
      and_true, true_implies, true_and]
    refine ⟨rfl, ?_, ?_⟩
    · simp [Simulation.tock, Simulation.called, Simulation.tick]
    · simp [Simulation.tock, Simulation.called, Simulation.tick]
  · have hb : ¬ (include_proximity && sim.enabled Module.Proximity) = true := by
      intro h
      simp only [Bool.and_eq_true] at h
      exact hc h
    simp [hb, hc]

theorem handles_valid_iff (sim : Simulation) :
    handles_valid sim ↔ ∀ h ∈ sim.handles, ∀ n ∈ h.get_nodes, n.preserve = true := by
  unfold handles_valid
  simp [List.all_eq_true]

/-- C17.  The call `relax_initial_state(sim)` aborts the process exactly when
some node returned by `get_nodes` of some handle has `preserve == false`; it
then aborts inside `validate_handles`, in the state it was called in, before
any equilibration, remeshing or plasticity-reset operation.  When every
constrained node has `preserve == true`, `validate_handles` returns with the
simulation unchanged and `relax_initial_state` runs to its end. -/
theorem relax_initial_state_aborts (E : Ext) (sim : Simulation) :
    ((∃ c s1, relax_initial_state E sim = Outcome.exited c s1) ↔
      ∃ h ∈ sim.handles, ∃ n ∈ h.get_nodes, n.preserve = false) ∧
    ((∃ h ∈ sim.handles, ∃ n ∈ h.get_nodes, n.preserve = false) →
      validate_handles sim = Outcome.exited ABORTED sim ∧
        relax_initial_state E sim = Outcome.exited ABORTED sim ∧
        (relax_initial_state E sim).state.ops = sim.ops) ∧
    ((∀ h ∈ sim.handles, ∀ n ∈ h.get_nodes, n.preserve = true) →
      validate_handles sim = Outcome.ret sim ∧
        relax_initial_state E sim = Outcome.ret (relaxed E sim)) := by
  have hinv : (∃ h ∈ sim.handles, ∃ n ∈ h.get_nodes, n.preserve = false) ↔
      ¬ handles_valid sim := by
    rw [handles_valid_iff]
    push_neg
    constructor
    · rintro ⟨h, hh, n, hn, hp⟩
      exact ⟨h, hh, n, hn, by rw [hp]; decide⟩
    · rintro ⟨h, hh, n, hn, hp⟩
      exact ⟨h, hh, n, hn, by cases hb : n.preserve <;> simp_all⟩
  refine ⟨?_, ?_, ?_⟩
  · rw [hinv]
    constructor
    · rintro ⟨c, s1, h⟩ hv
      rw [relax_initial_state_valid E sim hv] at h
      cases h
    · intro hv
      exact ⟨_, _, relax_initial_state_invalid E sim hv⟩
  · intro h
    have hv := hinv.mp h
    have h1 := relax_initial_state_invalid E sim hv
    refine ⟨?_, h1, by rw [h1]; rfl⟩
    unfold validate_handles
    unfold handles_valid at hv
    simp only [hv]
    rfl
  · intro h
    have hv := (handles_valid_iff sim).mpr h
    refine ⟨?_, relax_initial_state_valid E sim hv⟩
    unfold validate_handles
    unfold handles_valid at hv
    simp only [hv, if_true]

theorem save_timings_opened (p : Process) (h : p.timingfile = TimingFile.opened) :
    save_timings p =
      { p with
        out := p.out ++ [Output.timing_line (modules.map fun i => p.sim.timers i - p.old_totals i)]
        old_totals := fun i => p.sim.timers i } := by
  unfold save_timings
  rw [h]

theorem latest_totals_cons (old : Module → ℚ) (sim : Simulation) (sims : List Simulation) :
    ((sim :: sims).getLast?.map fun s => s.timers).getD old =
      (sims.getLast?.map fun s => s.timers).getD sim.timers := by
  cases sims with
  | nil => rfl
  | cons a l =>
    obtain ⟨x, hx⟩ : ∃ x, (a :: l).getLast? = some x :=
      ⟨_, List.getLast?_eq_getLast _ (by simp)⟩
    rw [List.getLast?_cons_cons, hx]
    rfl

theorem save_timings_calls_opened (p : Process) (sims : List Simulation)
    (h : p.timingfile = TimingFile.opened) :
    (save_timings_calls p sims).out =
        p.out ++ (timing_deltas p.old_totals sims).map Output.timing_line ∧
      (save_timings_calls p sims).timingfile = TimingFile.opened ∧
      (save_timings_calls p sims).old_totals = (sims.getLast?.map fun s => s.timers).getD p.old_totals := by
  induction sims generalizing p with
  | nil => simp [save_timings_calls, timing_deltas, h]
  | cons sim sims ih =>
    have h1 : ({ p with sim := sim } : Process).timingfile = TimingFile.opened := h
    have h2 := save_timings_opened _ h1
    have h3 : (save_timings { p with sim := sim }).timingfile = TimingFile.opened := by
      rw [h2]; exact h
    obtain ⟨i1, i2, i3⟩ := ih (save_timings { p with sim := sim }) h3
    have hfold : save_timings_calls p (sim :: sims) =
        save_timings_calls (save_timings { p with sim := sim }) sims := rfl
    rw [hfold]
    refine ⟨?_, i2, ?_⟩
    · rw [i1, h2]
      simp [timing_deltas]
    · rw [i3, h2, latest_totals_cons]

theorem delta_column_add (a b c : Module → ℚ) (j : Nat) :
    (modules.map fun i => b i - a i).getD j 0 + (modules.map fun i => c i - b i).getD j 0 =
      (modules.map fun i => c i - a i).getD j 0 := by
  simp only [List.getD_eq_getElem?_getD, List.getElem?_map]
  cases modules[j]? with
  | none => simp
  | some i => simp

theorem timing_deltas_column (old : Module → ℚ) (sims : List Simulation) (j : Nat) :
    ((timing_deltas old sims).map (fun line => line.getD j 0)).sum =
      (modules.map fun i => (sims.getLast?.map fun s => s.timers).getD old i - old i).getD j 0 := by
  induction sims generalizing old with
  | nil =>
    simp only [timing_deltas, List.map_nil, List.sum_nil, List.getLast?_nil, Option.map_none',
      Option.getD_none, sub_self]
    simp only [List.getD_eq_getElem?_getD, List.getElem?_map]
    cases modules[j]? <;> simp
  | cons sim sims ih =>
    simp only [timing_deltas, List.map_cons, List.sum_cons, ih, latest_totals_cons]
    exact delta_column_add old sim.timers _ j

theorem timing_deltas_length (old : Module → ℚ) (sims : List Simulation) :
    (timing_deltas old sims).length = sims.length := by
  induction sims generalizing old with
  | nil => rfl
  | cons sim sims ih => simp [timing_deltas, ih]

theorem timing_deltas_line_length (old : Module → ℚ) (sims : List Simulation) :
    ∀ line ∈ timing_deltas old sims, line.length = 8 := by
  induction sims generalizing old with
  | nil => intro line hl; simp [timing_deltas] at hl
  | cons sim sims ih =>
    intro line hl
    simp only [timing_deltas, List.mem_cons] at hl
    rcases hl with rfl | hl
    · rfl
    · exact ih _ line hl

/-- C18, as amended.  For every sequence of `save_timings` calls made while the
timing file is open, every call writes exactly one line, of one value per
module, the value for module `i` being the timer total at that call minus the
total at the previous call (minus the remembered total, initially 0, on the
first); the sum of a column over the lines written equals the latest total
minus the total remembered before the first call, and the file stays open.  A
call on a timing stream in failed state (the file could not be opened, or a
write to the unopened stream failed) writes nothing and changes nothing.  The
first call on a stream that was never opened writes nothing, but records the
current totals as the remembered ones and leaves the stream in failed state. -/
theorem save_timings_deltas (p : Process) (sims : List Simulation) :
    (p.timingfile = TimingFile.opened →
      (save_timings_calls p sims).out =
          p.out ++ (timing_deltas p.old_totals sims).map Output.timing_line ∧
        (timing_deltas p.old_totals sims).length = sims.length ∧
        (∀ line ∈ timing_deltas p.old_totals sims, line.length = 8) ∧
        (∀ j, ((timing_deltas p.old_totals sims).map (fun line => line.getD j 0)).sum =
          (modules.map fun i =>
            (save_timings_calls p sims).old_totals i - p.old_totals i).getD j 0) ∧
        (∀ last, sims.getLast? = some last →
          (save_timings_calls p sims).old_totals = last.timers) ∧
        (save_timings_calls p sims).timingfile = TimingFile.opened) ∧
    (p.timingfile = TimingFile.failed → save_timings p = p) ∧
    (p.timingfile = TimingFile.unopened →
      (save_timings p).out = p.out ∧
        (save_timings p).old_totals = p.sim.timers ∧
        (save_timings p).timingfile = TimingFile.failed) := by
  refine ⟨fun h => ?_, fun h => ?_, fun h => ?_⟩
  · obtain ⟨h1, h2, h3⟩ := save_timings_calls_opened p sims h
    refine ⟨h1, timing_deltas_length _ _, timing_deltas_line_length _ _, ?_, ?_, h2⟩
    · intro j
      rw [timing_deltas_column, h3]
    · intro last hl
      rw [h3, hl]
      rfl
  · unfold save_timings
    rw [h]
  · unfold save_timings
    rw [h]
    exact ⟨rfl, rfl, rfl⟩

/-- C18, as amended, at a concrete input: two calls on an open timing file, the
physics total being 1 at the first call and 3 at the second. -/
theorem save_timings_deltas_witness :
    (save_timings_calls timing_process timing_states).out =
        timing_process.out ++
          (timing_deltas timing_process.old_totals timing_states).map Output.timing_line ∧
      timing_deltas timing_process.old_totals timing_states =
        [[0, 1, 0, 0, 0, 0, 0, 0], [0, 2, 0, 0, 0, 0, 0, 0]] :=
  ⟨((save_timings_deltas timing_process timing_states).1 rfl).1, by decide!⟩

/-- C18 fails as stated for a timing stream that was never opened: in a run of
`run_physics` in rigid mode without output directory the one `save_timings`
call writes nothing, yet the remembered total of the physics timer, 0 at the
start, is 1 after it. -/
theorem save_timings_unopened_counterexample :
    Process.initial.timingfile = TimingFile.unopened ∧
    Process.initial.old_totals Module.Physics = 0 ∧
    (run_physics (Ext.timed (one_cloth_scene false)) ["scene.json"] 1).status =
      some EXIT_SUCCESS ∧
    (run_physics (Ext.timed (one_cloth_scene false)) ["scene.json"] 1).state.out.isEmpty = true ∧
    (run_physics (Ext.timed (one_cloth_scene false)) ["scene.json"] 1).state.old_totals
      Module.Physics = 1 ∧
    (save_timings { Process.initial with
        sim := { Simulation.initial with timers := fun _ => 1 } }).out = [] ∧
    (save_timings { Process.initial with
        sim := { Simulation.initial with timers := fun _ => 1 } }).old_totals Module.Physics = 1 := by
  refine ⟨rfl, rfl, by decide!, by decide!, by decide!, rfl, rfl⟩

theorem init_resume_eq (E : Ext) (outdir start_frame_str : String) :
    init_resume E outdir start_frame_str =
      (init_physics E Process.initial (outdir ++ "/conf.json") outdir true).bind id fun q =>
        (resume_obstacles E (resume_clock q.sim start_frame_str)
            (resume_clock q.sim start_frame_str).obstacles).bind
          (fun obs => { q with sim := { resume_clock q.sim start_frame_str with obstacles := obs } })
          fun obs => Outcome.ret { q with
            sim := reload_cloths E (reload_path outdir (atoi start_frame_str))
              { resume_clock q.sim start_frame_str with obstacles := obs } } := rfl

theorem save_out (p : Process) (frame : Int) (hdir : p.outdir.isEmpty = false)
    (hf : frame < 10000) :
    (save p frame).out =
      p.out ++ [Output.save_objs p.sim.cloth_meshes
          (cloth_path p.outdir frame p.sim.non_rigid) p.sim.non_rigid] ++
        (if p.sim.non_rigid then []
          else obstacle_transform_files p.outdir frame p.sim.time 0 p.sim.obstacles) := by
  unfold save save_meshes save_obstacle_transforms cloth_path
  cases hnr : p.sim.non_rigid <;> simp [hdir, hf, hnr]

theorem cloth_path_ne_reload_path (outdir : String) (frame : Int) :
    cloth_path outdir frame true ≠ reload_path outdir frame := by
  intro h
  have hl := congrArg String.length h
  simp only [cloth_path, reload_path, if_true, String.length_append] at hl
  have h1 : "/cloth".length = 6 := by decide
  have h2 : "/".length = 1 := by decide
  omega

/-- C19, against the code.  For a non-empty output directory and a frame
`N < 10000`, `save(sim, N)` writes the cloth geometry under the prefix
`cloth_path` and `init_resume` reloads the cloth geometry of frame `N` from the
prefix `reload_path`.  In rigid mode the two are the same prefix,
`"%s/%04d"`.  In non_rigid mode they differ: the save writes under
`"%s/cloth%04d"`, the reload reads from `"%s/%04d"`. -/
theorem cloth_path_round_trip (E : Ext) (p : Process) (start_frame_str : String)
    (hdir : p.outdir.isEmpty = false) (hN : atoi start_frame_str < 10000) :
    (save p (atoi start_frame_str)).out =
        p.out ++ [Output.save_objs p.sim.cloth_meshes
            (cloth_path p.outdir (atoi start_frame_str) p.sim.non_rigid) p.sim.non_rigid] ++
          (if p.sim.non_rigid then []
            else obstacle_transform_files p.outdir (atoi start_frame_str) p.sim.time 0
              p.sim.obstacles) ∧
      init_resume E p.outdir start_frame_str =
        ((init_physics E Process.initial (p.outdir ++ "/conf.json") p.outdir true).bind id fun q =>
          (resume_obstacles E (resume_clock q.sim start_frame_str)
              (resume_clock q.sim start_frame_str).obstacles).bind
            (fun obs =>
              { q with sim := { resume_clock q.sim start_frame_str with obstacles := obs } })
            fun obs => Outcome.ret { q with
              sim := reload_cloths E (reload_path p.outdir (atoi start_frame_str))
                { resume_clock q.sim start_frame_str with obstacles := obs } }) ∧
      (p.sim.non_rigid = false →
        cloth_path p.outdir (atoi start_frame_str) p.sim.non_rigid =
          reload_path p.outdir (atoi start_frame_str)) ∧
      (p.sim.non_rigid = true →
        cloth_path p.outdir (atoi start_frame_str) p.sim.non_rigid ≠
          reload_path p.outdir (atoi start_frame_str)) := by
  refine ⟨save_out p _ hdir hN, init_resume_eq E p.outdir start_frame_str, ?_, ?_⟩
  · intro h
    rw [h]
    rfl
  · intro h
    rw [h]
    exact cloth_path_ne_reload_path _ _

/-- C19 at a concrete input in rigid mode: the output directory `out` and the
start frame `1`. -/
theorem cloth_path_round_trip_witness :
    (output_process false).outdir.isEmpty = false ∧ atoi "1" < 10000 ∧
      cloth_path (output_process false).outdir (atoi "1") (output_process false).sim.non_rigid =
        reload_path (output_process false).outdir (atoi "1") :=
  ⟨by decide, by decide,
    (cloth_path_round_trip Ext.idle (output_process false) "1" (by decide) (by decide)).2.2.1
      rfl⟩

/-- C19 fails on the code in non_rigid mode: with the output directory `out`,
`save(sim, 1)` writes the cloth geometry under `out/cloth0001`, while
`init_resume` for the start frame `1` loads the cloth geometry from the prefix
`out/0001`; in rigid mode the save writes under `out/0001`. -/
theorem reload_path_non_rigid_counterexample :
    (save (output_process true) 1).out.map Output.path = ["out/cloth0001"] ∧
    (init_resume (Ext.recording (one_cloth_scene true)) "out" "1").status = none ∧
    (init_resume (Ext.recording (one_cloth_scene true)) "out" "1").state.sim.cloth_meshes =
      [path_mesh "out/0001"] ∧
    (save (output_process false) 1).out.map Output.path = ["out/0001"] := by
  refine ⟨by decide!, by decide!, by decide!, by decide!⟩

theorem obstacle_transform_files_length (outdir : String) (frame : Int) (time : ℚ) (k : Nat)
    (obs : List Obstacle) : (obstacle_transform_files outdir frame time k obs).length = obs.length := by
  induction obs generalizing k with
  | nil => rfl
  | cons ob obs ih => simp [obstacle_transform_files, ih]

theorem obstacle_transform_files_getElem (outdir : String) (frame : Int) (time : ℚ) (k : Nat)
    (obs : List Obstacle) (o : Nat) (ob : Obstacle) (h : obs[o]? = some ob) :
    (obstacle_transform_files outdir frame time k obs)[o]? =
      some (Output.save_transformation (ob.saved_transform time)
        (outdir ++ "/" ++ fmt_0d 4 frame ++ "obs" ++ fmt_0d 2 ((k + o : Nat) : Int) ++ ".txt")) := by
  induction obs generalizing k o with
  | nil => simp at h
  | cons a obs ih =>
    cases o with
    | zero =>
      simp only [List.getElem?_cons_zero, Option.some.injEq] at h
      subst h
      simp only [obstacle_transform_files, List.getElem?_cons_zero, Nat.add_zero,
        Obstacle.saved_transform]
    | succ o =>
      simp only [List.getElem?_cons_succ] at h
      simp only [obstacle_transform_files, List.getElem?_cons_succ]
      rw [ih (k + 1) o h]
      have : k + 1 + o = k + (o + 1) := by omega
      rw [this]

theorem save_not_written (p : Process) (frame : Int) (hf : 10000 ≤ frame) : save p frame = p := by
  have h : ¬ frame < 10000 := not_lt.mpr hf
  unfold save save_meshes save_obstacle_transforms
  simp [h]

/-- C20, as amended.  For every frame number below 10000 and every non-empty
output directory, `save(sim, frame)` writes the cloth geometry of the frame,
under the prefix `"%s/%04d"` in rigid mode and `"%s/cloth%04d"` in non_rigid
mode.  In rigid mode it then writes, for every obstacle index `o`, in order, one
transform file `"%s/%04dobs%02d.txt"` named by the zero-padded frame and
obstacle index, holding the transform of the obstacle at `sim.time` (the
identity when the obstacle has no motion curve), and nothing else; in non_rigid
mode it writes no transform file.  For a frame number of 10000 or more it writes
nothing at all. -/
theorem save_writes_frame (p : Process) (frame : Int) (hdir : p.outdir.isEmpty = false)
    (hf : frame < 10000) :
    (save p frame).out =
        p.out ++ [Output.save_objs p.sim.cloth_meshes
            (cloth_path p.outdir frame p.sim.non_rigid) p.sim.non_rigid] ++
          (if p.sim.non_rigid then []
            else obstacle_transform_files p.outdir frame p.sim.time 0 p.sim.obstacles) ∧
      (obstacle_transform_files p.outdir frame p.sim.time 0 p.sim.obstacles).length =
        p.sim.obstacles.length ∧
      (∀ (o : Nat) (ob : Obstacle), p.sim.obstacles[o]? = some ob →
        (obstacle_transform_files p.outdir frame p.sim.time 0 p.sim.obstacles)[o]? =
          some (Output.save_transformation (ob.saved_transform p.sim.time)
            (p.outdir ++ "/" ++ fmt_0d 4 frame ++ "obs" ++ fmt_0d 2 (o : Int) ++ ".txt"))) ∧
      (∀ (ob : Obstacle) (time : ℚ),
        (ob.transform_spline = none → ob.saved_transform time = identity) ∧
        (∀ spline, ob.transform_spline = some spline →
          ob.saved_transform time = (spline.get_dtrans time).first)) ∧
      (p.sim.non_rigid = true →
        (save p frame).out =
          p.out ++ [Output.save_objs p.sim.cloth_meshes
            (p.outdir ++ "/cloth" ++ fmt_0d 4 frame) true]) ∧
      (p.sim.non_rigid = false →
        (save p frame).out =
          p.out ++ Output.save_objs p.sim.cloth_meshes (p.outdir ++ "/" ++ fmt_0d 4 frame) false ::
            obstacle_transform_files p.outdir frame p.sim.time 0 p.sim.obstacles) ∧
      (∀ big : Int, 10000 ≤ big → save p big = p) := by
  have h1 := save_out p frame hdir hf
  refine ⟨h1, obstacle_transform_files_length _ _ _ _ _, ?_, ?_, ?_, ?_,
    fun big hb => save_not_written p big hb⟩
  · intro o ob h
    have := obstacle_transform_files_getElem p.outdir frame p.sim.time 0 p.sim.obstacles o ob h
    rw [Nat.zero_add] at this
    exact this
  · intro ob time
    constructor
    · intro h
      unfold Obstacle.saved_transform
      rw [h]
    · intro spline h
      unfold Obstacle.saved_transform
      rw [h]
  · intro h
    rw [h1, h]
    simp [cloth_path]
  · intro h
    rw [h1, h]
    simp [cloth_path]

/-- C20, as amended, at a concrete input: frame 7 of a process in rigid mode
with two obstacles, the first on a motion curve. -/
theorem save_writes_frame_witness :
    obstacle_process.outdir.isEmpty = false ∧ (7 : Int) < 10000 ∧
      (save obstacle_process 7).out =
        obstacle_process.out ++
          Output.save_objs obstacle_process.sim.cloth_meshes
              (obstacle_process.outdir ++ "/" ++ fmt_0d 4 7) false ::
            obstacle_transform_files obstacle_process.outdir 7 obstacle_process.sim.time 0
              obstacle_process.sim.obstacles ∧
      (save obstacle_process 7).out.map Output.path =
        ["out/0007", "out/0007obs00.txt", "out/0007obs01.txt"] :=
  ⟨by decide, by decide,
    (save_writes_frame obstacle_process 7 (by decide) (by decide)).2.2.2.2.2.1 rfl, by decide!⟩

/-- C20 fails as stated for a frame number of 10000 or more: with the output
directory `out`, `save(sim, 10000)` writes nothing, in rigid mode and in
non_rigid mode. -/
theorem save_frame_limit_counterexample :
    (0 : Int) ≤ 10000 ∧ obstacle_process.outdir = "out" ∧
    (save obstacle_process 10000).out.isEmpty = true ∧
    (save (output_process true) 10000).out.isEmpty = true ∧
    (save obstacle_process 9999).out.map Output.path =
      ["out/9999", "out/9999obs00.txt", "out/9999obs01.txt"] := by
  refine ⟨by decide, by decide, by decide!, by decide!, by decide!⟩

/-- C12 at a concrete input: the activated obstacle `keyframed_obstacle` at
time 2 for frame 2, whose keyframe file does not exist. -/
theorem get_mesh_missing_keyframe_witness :
    (keyframed_obstacle.get_mesh_at_frame one_keyframe 2 2).status = some 1 ∧
      (keyframed_obstacle.get_mesh_at_frame one_keyframe 2 2).state.all_released :=
  ⟨((get_mesh_missing_keyframe one_keyframe keyframed_obstacle 2 2).2.1
      ⟨rfl, ⟨by decide!, by decide!⟩, by decide, by decide⟩).2.1,
    ((get_mesh_missing_keyframe one_keyframe keyframed_obstacle 2 2).2.1
      ⟨rfl, ⟨by decide!, by decide!⟩, by decide, by decide⟩).2.2.2⟩

/-- C16 at a concrete input: two handles and an enabled proximity stage. -/
theorem get_constraints_concatenation_witness :
    (get_constraints Ext.near constrained_scene true).1 = [1, 2, 3, 9] ∧
      (get_constraints Ext.near constrained_scene false).1 = [1, 2, 3] ∧
      (get_constraints Ext.near constrained_scene false).2 = constrained_scene :=
  ⟨(get_constraints_concatenation Ext.near constrained_scene true).1.trans (by decide),
    (get_constraints_concatenation Ext.near constrained_scene false).1.trans (by decide),
    (get_constraints_concatenation Ext.near constrained_scene false).2.2 (by decide)⟩

/-- C17 at a concrete input: a scene whose first handle constrains a node that
is not marked `preserve`. -/
theorem relax_initial_state_aborts_witness :
    relax_initial_state Ext.idle constrained_scene = Outcome.exited ABORTED constrained_scene :=
  ((relax_initial_state_aborts Ext.idle constrained_scene).2.1
    ⟨_, List.mem_cons_self _ _, node_at 0, List.mem_cons_self _ _, rfl⟩).2.1

theorem grows_refl (P : Op → Prop) (T : Module → Prop) (a : Simulation) : grows P T a a :=
  ⟨rfl, rfl, rfl, fun _ _ => rfl, [], by simp, by simp⟩

theorem grows_trans {P : Op → Prop} {T : Module → Prop} {a b c : Simulation}
    (h1 : grows P T a b) (h2 : grows P T b c) : grows P T a c := by
  obtain ⟨e1, m1, l1, t1, n1, o1, p1⟩ := h1
  obtain ⟨e2, m2, l2, t2, n2, o2, p2⟩ := h2
  refine ⟨e2.trans e1, m2.trans m1, l2.trans l1, fun m hm => (t2 m hm).trans (t1 m hm),
    n1 ++ n2, ?_, ?_⟩
  · rw [o2, o1, List.append_assoc]
  · intro op hop
    rcases List.mem_append.mp hop with h | h
    · exact p1 op h
    · exact p2 op h

theorem grows_step {P : Op → Prop} {T : Module → Prop} {a b c : Simulation}
    (hab : grows P T a b)
    (hbc : b.enabled = a.enabled → b.magic = a.magic → grows P T b c) : grows P T a c :=
  grows_trans hab (hbc hab.1 hab.2.1)

theorem grows_of_eq (P : Op → Prop) (T : Module → Prop) (a b : Simulation)
    (he : b.enabled = a.enabled) (hm : b.magic = a.magic)
    (hl : b.cloths.length = a.cloths.length) (ht : b.timers = a.timers) (ho : b.ops = a.ops) :
    grows P T a b :=
  ⟨he, hm, hl, fun _ _ => by rw [ht], [], by simp [ho], by simp⟩

theorem grows_tick {P : Op → Prop} {T : Module → Prop} (a : Simulation) (m : Module)
    (hp : P (Op.tick m)) : grows P T a (a.tick m) :=
  ⟨rfl, rfl, rfl, fun _ _ => rfl, [Op.tick m], rfl, by simpa using hp⟩

theorem grows_tock {P : Op → Prop} {T : Module → Prop} (E : Ext) (a : Simulation) (m : Module)
    (hp : P (Op.tock m)) (ht : ∀ x, T x → x ≠ m) : grows P T a (a.tock E m) :=
  ⟨rfl, rfl, rfl, fun x hx => by simp [Simulation.tock, ht x hx], [Op.tock m], rfl,
    by simpa using hp⟩

theorem grows_called {P : Op → Prop} {T : Module → Prop} (a : Simulation) (f : Solver)
    (hp : P (Op.solver f)) : grows P T a (a.called f) :=
  ⟨rfl, rfl, rfl, fun _ _ => rfl, [Op.solver f], rfl, by simpa using hp⟩

theorem grows_delete_constraints {P : Op → Prop} {T : Module → Prop} (a : Simulation)
    (cons : List Constraint) (hp : P (Op.delete_constraints cons)) :
    grows P T a (delete_constraints a cons) :=
  ⟨rfl, rfl, rfl, fun _ _ => rfl, [Op.delete_constraints cons], rfl, by simpa using hp⟩

theorem for_cloths_length (body : Nat → Cloth → Cloth × List Op) (n : Nat)
    (cloths : List Cloth) : (for_cloths body n cloths).1.length = cloths.length := by
  induction cloths generalizing n with
  | nil => rfl
  | cons cloth cloths ih => simp [for_cloths, ih]

theorem for_cloths_const (body : Nat → Cloth → Cloth × List Op) (op : Op)
    (hb : ∀ c cloth, (body c cloth).2 = [op]) (n : Nat) (cloths : List Cloth) :
    (for_cloths body n cloths).2 = List.replicate cloths.length op := by
  induction cloths generalizing n with
  | nil => rfl
  | cons cloth cloths ih => simp [for_cloths, ih, hb, List.replicate_succ]

theorem set_cloth_meshes_length (cloths : List Cloth) (meshes : List Mesh) :
    (set_cloth_meshes cloths meshes).length = cloths.length := by
  induction cloths generalizing meshes with
  | nil => cases meshes <;> rfl
  | cons c cloths ih =>
    cases meshes with
    | nil => rfl
    | cons m meshes => simp [set_cloth_meshes, ih]

theorem grows_each_cloth {P : Op → Prop} {T : Module → Prop} (a : Simulation)
    (body : Nat → Cloth → Cloth × List Op)
    (hb : ∀ c cloth, ∀ op ∈ (body c cloth).2, P op) : grows P T a (a.each_cloth body) :=
  ⟨rfl, rfl, for_cloths_length body 0 a.cloths, fun _ _ => rfl, (for_cloths body 0 a.cloths).2, rfl,
    for_cloths_ops P body hb 0 a.cloths⟩

theorem grows_set_cloths {P : Op → Prop} {T : Module → Prop} {a b : Simulation}
    (meshes : List Mesh) (hab : grows P T a b) :
    grows P T a { b with cloths := set_cloth_meshes b.cloths meshes } :=
  grows_trans hab
    (grows_of_eq P T b _ rfl rfl (set_cloth_meshes_length _ _) rfl rfl)

theorem reset_creases_grows {P : Op → Prop} {T : Module → Prop} (E : Ext) (x : Simulation)
    (hp : x.magic.preserve_creases = true → P (Op.solver Solver.reset_plasticity)) :
    grows P T x (reset_creases E x) := by
  unfold reset_creases
  split
  · rename_i hc
    refine grows_each_cloth x _ ?_
    intro c cloth op hop
    simp only [List.mem_singleton] at hop
    rw [hop]
    exact hp hc
  · exact grows_refl P T x

theorem reset_creases_ops (E : Ext) (x : Simulation) :
    (reset_creases E x).ops =
      x.ops ++ List.replicate (if x.magic.preserve_creases then x.cloths.length else 0)
        (Op.solver Solver.reset_plasticity) := by
  unfold reset_creases
  split
  · simp only [Simulation.each_cloth]
    rw [for_cloths_const _ (Op.solver Solver.reset_plasticity) (fun _ _ => rfl)]
  · simp

theorem equilibration_step_grows {P : Op → Prop} {T : Module → Prop} (E : Ext) (x : Simulation)
    (h1 : P (Op.tick Module.Remeshing)) (h2 : P (Op.tock Module.Remeshing))
    (h3 : P (Op.solver Solver.apply_pop_filter)) (h4 : ∀ cons, P (Op.delete_constraints cons))
    (ht : ∀ m, T m → m ≠ Module.Remeshing)
    (h5 : x.enabled Module.Collision = true →
      P (Op.tick Module.Collision) ∧ P (Op.solver Solver.collision_response) ∧
        P (Op.tock Module.Collision) ∧ ∀ m, T m → m ≠ Module.Collision) :
    grows P T x (equilibration_step E x) := by
  unfold equilibration_step
  simp only [get_constraints_false]
  refine grows_step ?_ (fun _ _ => grows_delete_constraints _ _ (h4 _))
  have h0 : grows P T x
      (delete_constraints
        (Simulation.tock E
          ((x.tick Module.Remeshing).each_cloth fun _ cloth =>
            (E.apply_pop_filter
                { cloth with mesh :=
                    { nodes := cloth.mesh.nodes.map fun n => { n with acceleration := 0 } } }
                [] (some 1),
              [Op.solver Solver.apply_pop_filter]))
          Module.Remeshing) []) := by
    refine grows_trans (grows_tick x _ h1) (grows_trans (grows_each_cloth _ _ ?_)
      (grows_trans (grows_tock E _ _ h2 ht) (grows_delete_constraints _ _ (h4 _))))
    intro c cloth op hop
    simp only [List.mem_singleton] at hop
    rw [hop]
    exact h3
  split
  · rename_i hc
    obtain ⟨c1, c2, c3, c4⟩ := h5 hc
    refine grows_trans h0 (grows_trans (grows_tick _ _ c1)
      (grows_trans (grows_set_cloths _ (grows_called _ _ c2)) (grows_tock E _ _ c3 c4)))
  · exact h0

theorem remeshing_step_init (E : Ext) (x : Simulation) :
    remeshing_step E x true =
      if x.enabled Module.Remeshing then
        separation_pass E (x.cloths.map fun c => deep_copy c.mesh) (remesh_pass E x)
      else x := by
  rw [remeshing_step_eq]
  cases x.enabled Module.Remeshing <;>
    simp [backup_pass, restore_pass, popfilter_pass]

theorem remesh_pass_grows {P : Op → Prop} {T : Module → Prop} (E : Ext) (x : Simulation)
    (h1 : P (Op.tick Module.Remeshing)) (h2 : P (Op.tock Module.Remeshing))
    (ht : ∀ m, T m → m ≠ Module.Remeshing)
    (h3 : P (Op.solver Solver.static_remesh) ∧ P (Op.solver Solver.nearest_obstacle_planes) ∧
      P (Op.solver Solver.dynamic_remesh)) :
    grows P T x (remesh_pass E x) := by
  unfold remesh_pass
  refine grows_trans (grows_tick x _ h1) (grows_trans (grows_each_cloth _ _ ?_)
    (grows_tock E _ _ h2 ht))
  intro c cloth op hop
  unfold remesh_cloth at hop
  split at hop
  · simp only [List.mem_singleton] at hop
    rw [hop]; exact h3.1
  · simp only [List.mem_cons, List.mem_singleton, List.not_mem_nil, or_false] at hop
    rcases hop with rfl | rfl
    · exact h3.2.1
    · exact h3.2.2

theorem separation_pass_grows {P : Op → Prop} {T : Module → Prop} (E : Ext)
    (old_meshes : List Mesh) (x : Simulation)
    (h : x.enabled Module.Separation = true →
      P (Op.tick Module.Separation) ∧ P (Op.solver Solver.separate) ∧
        P (Op.tock Module.Separation) ∧ ∀ m, T m → m ≠ Module.Separation) :
    grows P T x (separation_pass E old_meshes x) := by
  unfold separation_pass
  split
  · rename_i hc
    obtain ⟨c1, c2, c3, c4⟩ := h hc
    exact grows_trans (grows_tick _ _ c1)
      (grows_trans (grows_set_cloths _ (grows_called _ _ c2)) (grows_tock E _ _ c3 c4))
  · exact grows_refl P T x

theorem remeshing_init_grows {P : Op → Prop} {T : Module → Prop} (E : Ext) (x : Simulation)
    (hr : x.enabled Module.Remeshing = true →
      P (Op.tick Module.Remeshing) ∧ P (Op.tock Module.Remeshing) ∧
        (∀ m, T m → m ≠ Module.Remeshing) ∧
        P (Op.solver Solver.static_remesh) ∧ P (Op.solver Solver.nearest_obstacle_planes) ∧
        P (Op.solver Solver.dynamic_remesh))
    (hs : x.enabled Module.Remeshing = true → x.enabled Module.Separation = true →
      P (Op.tick Module.Separation) ∧ P (Op.solver Solver.separate) ∧
        P (Op.tock Module.Separation) ∧ ∀ m, T m → m ≠ Module.Separation) :
    grows P T x (remeshing_step E x true) := by
  rw [remeshing_step_init]
  split
  · rename_i hc
    obtain ⟨r1, r2, r3, r4⟩ := hr hc
    exact grows_step (remesh_pass_grows E x r1 r2 r3 r4)
      (fun he _ => separation_pass_grows E _ _ (fun h => hs hc (by rw [← he]; exact h)))
  · exact grows_refl P T x

theorem relaxed_timers_ops (E : Ext) (sim : Simulation) :
    (relaxed E sim).timers =
        (reset_creases E (equilibration_step E (remeshing_step E
          (equilibration_step E (reset_creases E sim)) true))).timers ∧
      (relaxed E sim).ops =
        (reset_creases E (equilibration_step E (remeshing_step E
          (equilibration_step E (reset_creases E sim)) true))).ops := by
  unfold relaxed
  dsimp only
  split <;> exact ⟨rfl, rfl⟩

theorem relaxing_grows {P : Op → Prop} {T : Module → Prop} (E : Ext) (sim : Simulation)
    (hreset : sim.magic.preserve_creases = true → P (Op.solver Solver.reset_plasticity))
    (h1 : P (Op.tick Module.Remeshing)) (h2 : P (Op.tock Module.Remeshing))
    (h3 : P (Op.solver Solver.apply_pop_filter)) (h4 : ∀ cons, P (Op.delete_constraints cons))
    (ht : ∀ m, T m → m ≠ Module.Remeshing)
    (h5 : sim.enabled Module.Collision = true →
      P (Op.tick Module.Collision) ∧ P (Op.solver Solver.collision_response) ∧
        P (Op.tock Module.Collision) ∧ ∀ m, T m → m ≠ Module.Collision)
    (hr : sim.enabled Module.Remeshing = true →
      P (Op.solver Solver.static_remesh) ∧ P (Op.solver Solver.nearest_obstacle_planes) ∧
        P (Op.solver Solver.dynamic_remesh))
    (hs : sim.enabled Module.Remeshing = true → sim.enabled Module.Separation = true →
      P (Op.tick Module.Separation) ∧ P (Op.solver Solver.separate) ∧
        P (Op.tock Module.Separation) ∧ ∀ m, T m → m ≠ Module.Separation) :
    grows P T sim
      (reset_creases E (equilibration_step E (remeshing_step E
        (equilibration_step E (reset_creases E sim)) true))) := by
  refine grows_step ?_ (fun _ hm => reset_creases_grows E _ (fun h => hreset (by rw [← hm]; exact h)))
  refine grows_step ?_ (fun he _ =>
    equilibration_step_grows E _ h1 h2 h3 h4 ht (fun h => h5 (by rw [← he]; exact h)))
  refine grows_step ?_ (fun he _ =>
    remeshing_init_grows E _
      (fun h => ⟨h1, h2, ht, hr (by rw [← he]; exact h)⟩)
      (fun h h' => hs (by rw [← he]; exact h) (by rw [← he]; exact h')))
  refine grows_step ?_ (fun he _ =>
    equilibration_step_grows E _ h1 h2 h3 h4 ht (fun h => h5 (by rw [← he]; exact h)))
  exact reset_creases_grows E sim hreset

theorem relaxed_grows {P : Op → Prop} {T : Module → Prop} (E : Ext) (sim : Simulation)
    (hg : grows P T sim
      (reset_creases E (equilibration_step E (remeshing_step E
        (equilibration_step E (reset_creases E sim)) true)))) :
    (∀ m, T m → (relax_initial_state E sim).state.timers m = sim.timers m) ∧
      ∃ new, (relax_initial_state E sim).state.ops = sim.ops ++ new ∧ ∀ op ∈ new, P op := by
  by_cases hv : handles_valid sim
  · rw [relax_initial_state_valid E sim hv]
    simp only [Outcome.state]
    obtain ⟨_, _, _, t, new, o, p⟩ := hg
    obtain ⟨rt, ro⟩ := relaxed_timers_ops E sim
    refine ⟨fun m hm => by rw [rt]; exact t m hm, new, by rw [ro]; exact o, p⟩
  · rw [relax_initial_state_invalid E sim hv]
    have hs : (Outcome.exited ABORTED sim : Outcome Simulation).state = sim := rfl
    rw [hs]
    exact ⟨fun _ _ => rfl, [], by simp, by simp⟩

theorem equilibration_step_parts (E : Ext) (x : Simulation) :
    equilibration_step E x = equilibration_collision E (equilibration_pop E x) := rfl

theorem equilibration_pop_ops (E : Ext) (x : Simulation) :
    (equilibration_pop E x).ops =
        x.ops ++ Op.tick Module.Remeshing ::
          (List.replicate x.cloths.length (Op.solver Solver.apply_pop_filter) ++
            [Op.tock Module.Remeshing, Op.delete_constraints []]) ∧
      (equilibration_pop E x).timers Module.Remeshing =
        x.timers Module.Remeshing +
          E.elapsed (x.ops ++ Op.tick Module.Remeshing ::
            List.replicate x.cloths.length (Op.solver Solver.apply_pop_filter)) := by
  have hc : ∀ (n : Nat) (cs : List Cloth),
      (for_cloths (fun _ cloth =>
        (E.apply_pop_filter
            { cloth with mesh :=
                { nodes := cloth.mesh.nodes.map fun n => { n with acceleration := 0 } } }
            [] (some 1),
          [Op.solver Solver.apply_pop_filter])) n cs).2 =
        List.replicate cs.length (Op.solver Solver.apply_pop_filter) :=
    fun n cs => for_cloths_const _ _ (fun _ _ => rfl) n cs
  constructor
  · simp [equilibration_pop, delete_constraints, Simulation.tock, Simulation.tick,
      Simulation.each_cloth, hc]
  · simp [equilibration_pop, delete_constraints, Simulation.tock, Simulation.tick,
      Simulation.each_cloth, hc]

theorem equilibration_collision_ops (E : Ext) (y : Simulation) :
    ∃ rest, (equilibration_collision E y).ops = y.ops ++ rest ∧
      (equilibration_collision E y).timers Module.Remeshing = y.timers Module.Remeshing := by
  unfold equilibration_collision
  simp only [get_constraints_false]
  split
  · exact ⟨[Op.tick Module.Collision, Op.solver Solver.collision_response,
        Op.tock Module.Collision, Op.delete_constraints (get_constraints E y false).1],
      by simp [delete_constraints, Simulation.tock, Simulation.called, Simulation.tick],
      by simp [delete_constraints, Simulation.tock, Simulation.called, Simulation.tick]⟩
  · exact ⟨[Op.delete_constraints (get_constraints E y false).1],
      by simp [delete_constraints], rfl⟩

theorem equilibration_step_ops (E : Ext) (x : Simulation) :
    ∃ rest, (equilibration_step E x).ops =
        x.ops ++ Op.tick Module.Remeshing ::
          (List.replicate x.cloths.length (Op.solver Solver.apply_pop_filter) ++
            Op.tock Module.Remeshing :: rest) ∧
      (equilibration_step E x).timers Module.Remeshing =
        x.timers Module.Remeshing +
          E.elapsed (x.ops ++ Op.tick Module.Remeshing ::
            List.replicate x.cloths.length (Op.solver Solver.apply_pop_filter)) := by
  rw [equilibration_step_parts]
  obtain ⟨rest, h1, h2⟩ := equilibration_collision_ops E (equilibration_pop E x)
  obtain ⟨p1, p2⟩ := equilibration_pop_ops E x
  refine ⟨Op.delete_constraints [] :: rest, ?_, ?_⟩
  · rw [h1, p1]
    simp
  · rw [h2, p2]

/-- C21, as amended.  For every stage `s` other than remeshing, pop filter and
plasticity whose enable flag is false, `relax_initial_state` leaves the total
of the timer of `s` as it was and logs no tick or tock of that timer and no
call of a solver operation of that stage.  Whatever the enable flag of the
plasticity stage, its timer is never ticked and its total never changed, and
the only plasticity operation called is `reset_plasticity`, and that only under
`magic.preserve_creases`: when `relax_initial_state` does not abort it calls
`reset_plasticity` once per cloth before and once per cloth after the
equilibration and remeshing passes if `magic.preserve_creases` is set, and
never otherwise.  The timer of the pop-filter stage is never ticked and its
total never changed, and with remeshing disabled no remeshing operation
(`static_remesh`, `nearest_obstacle_planes`, `dynamic_remesh`) is called.  But
every equilibration pass ticks and tocks the remeshing timer and calls
`apply_pop_filter` once per cloth in between, whatever the enable flags, and
`relax_initial_state` runs two such passes when it does not abort. -/
theorem relax_disabled_stages (E : Ext) (sim : Simulation) :
    (∀ s, s ≠ Module.Remeshing → s ≠ Module.PopFilter → s ≠ Module.Plasticity →
      sim.enabled s = false →
      (relax_initial_state E sim).state.timers s = sim.timers s ∧
      ∃ new, (relax_initial_state E sim).state.ops = sim.ops ++ new ∧
        ∀ op ∈ new, op ≠ Op.tick s ∧ op ≠ Op.tock s ∧
          ∀ f, f.stage = some s → op ≠ Op.solver f) ∧
    ((relax_initial_state E sim).state.timers Module.Plasticity = sim.timers Module.Plasticity ∧
      ∃ new, (relax_initial_state E sim).state.ops = sim.ops ++ new ∧
        ∀ op ∈ new, op ≠ Op.tick Module.Plasticity ∧ op ≠ Op.tock Module.Plasticity ∧
          ∀ f, f.stage = some Module.Plasticity → op = Op.solver f →
            f = Solver.reset_plasticity ∧ sim.magic.preserve_creases = true) ∧
    (handles_valid sim →
      ∃ mid, (relax_initial_state E sim).state.ops =
          sim.ops ++
            List.replicate (if sim.magic.preserve_creases then sim.cloths.length else 0)
              (Op.solver Solver.reset_plasticity) ++ mid ++
            List.replicate (if sim.magic.preserve_creases then sim.cloths.length else 0)
              (Op.solver Solver.reset_plasticity) ∧
        ∀ op ∈ mid, op ≠ Op.solver Solver.reset_plasticity) ∧
    ((relax_initial_state E sim).state.timers Module.PopFilter = sim.timers Module.PopFilter ∧
      ∃ new, (relax_initial_state E sim).state.ops = sim.ops ++ new ∧
        ∀ op ∈ new, op ≠ Op.tick Module.PopFilter ∧ op ≠ Op.tock Module.PopFilter) ∧
    (sim.enabled Module.Remeshing = false →
      ∃ new, (relax_initial_state E sim).state.ops = sim.ops ++ new ∧
        ∀ op ∈ new, ∀ f, f.stage = some Module.Remeshing → op ≠ Op.solver f) ∧
    (∀ x : Simulation, ∃ rest,
      (equilibration_step E x).ops =
          x.ops ++ Op.tick Module.Remeshing ::
            (List.replicate x.cloths.length (Op.solver Solver.apply_pop_filter) ++
              Op.tock Module.Remeshing :: rest) ∧
        (equilibration_step E x).timers Module.Remeshing =
          x.timers Module.Remeshing +
            E.elapsed (x.ops ++ Op.tick Module.Remeshing ::
              List.replicate x.cloths.length (Op.solver Solver.apply_pop_filter))) ∧
    (handles_valid sim →
      relax_initial_state E sim = Outcome.ret (relaxed E sim) ∧
        (relaxed E sim).ops =
          (reset_creases E (equilibration_step E (remeshing_step E
            (equilibration_step E (reset_creases E sim)) true))).ops ∧
        (relaxed E sim).timers =
          (reset_creases E (equilibration_step E (remeshing_step E
            (equilibration_step E (reset_creases E sim)) true))).timers) := by
  refine ⟨?_, ?_, ?_, ?_, ?_, equilibration_step_ops E, ?_⟩
  · intro s hR hP hL hs
    have hne : ∀ m, sim.enabled m = true → m ≠ s := fun m hm e => by
      rw [e, hs] at hm; cases hm
    have hg := relaxing_grows (P := fun op => Op.of_stage s op = false) (T := fun m => m = s)
      E sim (fun _ => by simp [Op.of_stage, Solver.stage, Ne.symm hL])
      (by simp [Op.of_stage, Ne.symm hR]) (by simp [Op.of_stage, Ne.symm hR])
      (by simp [Op.of_stage, Solver.stage, Ne.symm hP]) (fun _ => rfl)
      (fun m hm => by rw [hm]; exact hR)
      (fun h => ⟨by simp [Op.of_stage, hne _ h], by simp [Op.of_stage, Solver.stage, hne _ h],
        by simp [Op.of_stage, hne _ h], fun m hm => by rw [hm]; exact Ne.symm (hne _ h)⟩)
      (fun _ => ⟨by simp [Op.of_stage, Solver.stage, Ne.symm hR],
        by simp [Op.of_stage, Solver.stage, Ne.symm hR],
        by simp [Op.of_stage, Solver.stage, Ne.symm hR]⟩)
      (fun _ h => ⟨by simp [Op.of_stage, hne _ h], by simp [Op.of_stage, Solver.stage, hne _ h],
        by simp [Op.of_stage, hne _ h], fun m hm => by rw [hm]; exact Ne.symm (hne _ h)⟩)
    obtain ⟨ht, new, ho, hp⟩ := relaxed_grows E sim hg
    exact ⟨ht s rfl, new, ho, fun op hop => of_stage_false s op (hp op hop)⟩
  · have hg := relaxing_grows
      (P := fun op => op ≠ Op.tick Module.Plasticity ∧ op ≠ Op.tock Module.Plasticity ∧
        ∀ f, f.stage = some Module.Plasticity → op = Op.solver f →
          f = Solver.reset_plasticity ∧ sim.magic.preserve_creases = true)
      (T := fun m => m = Module.Plasticity)
      E sim
      (fun h => ⟨by simp, by simp, fun f _ e => by cases e; exact ⟨rfl, h⟩⟩)
      ⟨by simp, by simp, fun f _ e => by cases e⟩
      ⟨by simp, by simp, fun f _ e => by cases e⟩
      ⟨by simp, by simp, fun f hf e => by cases e; simp [Solver.stage] at hf⟩
      (fun _ => ⟨by simp, by simp, fun f _ e => by cases e⟩)
      (fun m hm => by rw [hm]; decide)
      (fun _ => ⟨⟨by simp, by simp, fun f _ e => by cases e⟩,
        ⟨by simp, by simp, fun f hf e => by cases e; simp [Solver.stage] at hf⟩,
        ⟨by simp, by simp, fun f _ e => by cases e⟩, fun m hm => by rw [hm]; decide⟩)
      (fun _ => ⟨⟨by simp, by simp, fun f hf e => by cases e; simp [Solver.stage] at hf⟩,
        ⟨by simp, by simp, fun f hf e => by cases e; simp [Solver.stage] at hf⟩,
        ⟨by simp, by simp, fun f hf e => by cases e; simp [Solver.stage] at hf⟩⟩)
      (fun _ _ => ⟨⟨by simp, by simp, fun f _ e => by cases e⟩,
        ⟨by simp, by simp, fun f hf e => by cases e; simp [Solver.stage] at hf⟩,
        ⟨by simp, by simp, fun f _ e => by cases e⟩, fun m hm => by rw [hm]; decide⟩)
    obtain ⟨ht, new, ho, hp⟩ := relaxed_grows E sim hg
    exact ⟨ht _ rfl, new, ho, hp⟩
  · intro hv
    rw [relax_initial_state_valid E sim hv]
    simp only [Outcome.state]
    rw [(relaxed_timers_ops E sim).2]
    have hmid : grows (fun op => op ≠ Op.solver Solver.reset_plasticity) (fun _ => False)
        (reset_creases E sim)
        (equilibration_step E (remeshing_step E
          (equilibration_step E (reset_creases E sim)) true)) := by
      refine grows_step ?_ (fun he _ =>
        equilibration_step_grows E _ (by simp) (by simp) (by simp) (fun _ => by simp)
          (fun _ hm => hm.elim) (fun _ => ⟨by simp, by simp, by simp, fun _ hm => hm.elim⟩))
      refine grows_step ?_ (fun he _ =>
        remeshing_init_grows E _
          (fun _ => ⟨by simp, by simp, fun _ hm => hm.elim, by simp, by simp, by simp⟩)
          (fun _ _ => ⟨by simp, by simp, by simp, fun _ hm => hm.elim⟩))
      exact equilibration_step_grows E _ (by simp) (by simp) (by simp) (fun _ => by simp)
        (fun _ hm => hm.elim) (fun _ => ⟨by simp, by simp, by simp, fun _ hm => hm.elim⟩)
    have hpre : grows (fun _ => True) (fun _ => False) sim (reset_creases E sim) :=
      reset_creases_grows E sim (fun _ => trivial)
    obtain ⟨_, hm2, hl2, _, mid, ho, hp⟩ := hmid
    refine ⟨mid, ?_, hp⟩
    rw [reset_creases_ops, ho, reset_creases_ops, hm2, hl2, hpre.2.1, hpre.2.2.1]
  · have hg := relaxing_grows
      (P := fun op => op ≠ Op.tick Module.PopFilter ∧ op ≠ Op.tock Module.PopFilter)
      (T := fun m => m = Module.PopFilter)
      E sim (fun _ => by simp) (by simp) (by simp) (by simp) (fun _ => by simp)
      (fun m hm => by rw [hm]; decide)
      (fun _ => ⟨by simp, by simp, by simp, fun m hm => by rw [hm]; decide⟩)
      (fun _ => ⟨by simp, by simp, by simp⟩)
      (fun _ _ => ⟨by simp, by simp, by simp, fun m hm => by rw [hm]; decide⟩)
    obtain ⟨ht, new, ho, hp⟩ := relaxed_grows E sim hg
    exact ⟨ht _ rfl, new, ho, hp⟩
  · intro h
    have hg := relaxing_grows
      (P := fun op => ∀ f, f.stage = some Module.Remeshing → op ≠ Op.solver f)
      (T := fun _ => False)
      E sim (fun _ => by intro f hf e; cases e; simp [Solver.stage] at hf)
      (by intro f _ e; cases e) (by intro f _ e; cases e)
      (by intro f hf e; cases e; simp [Solver.stage] at hf)
      (fun _ => by intro f _ e; cases e)
      (fun _ hm => hm.elim)
      (fun _ => ⟨(by intro f _ e; cases e),
        (by intro f hf e; cases e; simp [Solver.stage] at hf),
        (by intro f _ e; cases e), fun _ hm => hm.elim⟩)
      (fun h' => by rw [h] at h'; cases h')
      (fun h' => by rw [h] at h'; cases h')
    obtain ⟨_, new, ho, hp⟩ := relaxed_grows E sim hg
    exact ⟨new, ho, hp⟩
  · intro hv
    obtain ⟨rt, ro⟩ := relaxed_timers_ops E sim
    exact ⟨relax_initial_state_valid E sim hv, ro, rt⟩

/-- C21 fails as stated: in the scene with one cloth where the physics stage
alone is enabled (so remeshing and pop filter are disabled), with timers that
measure one unit per interval, `relax_initial_state` ticks and tocks the
remeshing timer twice, which brings its total from 0 to 2, and calls
`apply_pop_filter` twice.  In the same scene with `magic.preserve_creases` set,
where the plasticity stage is disabled too, it also calls the plasticity
operation `reset_plasticity` twice. -/
theorem relax_equilibration_counterexample :
    (one_cloth_scene false).enabled Module.Remeshing = false ∧
    (one_cloth_scene false).enabled Module.PopFilter = false ∧
    (one_cloth_scene false).timers Module.Remeshing = 0 ∧
    (one_cloth_scene false).ops = [] ∧
    (relax_initial_state (Ext.timed (one_cloth_scene false)) (one_cloth_scene false)).status =
      none ∧
    (relax_initial_state (Ext.timed (one_cloth_scene false))
      (one_cloth_scene false)).state.timers Module.Remeshing = 2 ∧
    (relax_initial_state (Ext.timed (one_cloth_scene false)) (one_cloth_scene false)).state.ops =
      [Op.tick Module.Remeshing, Op.solver Solver.apply_pop_filter, Op.tock Module.Remeshing,
        Op.delete_constraints [], Op.delete_constraints [],
        Op.tick Module.Remeshing, Op.solver Solver.apply_pop_filter, Op.tock Module.Remeshing,
        Op.delete_constraints [], Op.delete_constraints []] ∧
    creased_scene.enabled Module.Plasticity = false ∧
    creased_scene.ops = [] ∧
    Solver.reset_plasticity.stage = some Module.Plasticity ∧
    (relax_initial_state (Ext.timed creased_scene) creased_scene).status = none ∧
    (relax_initial_state (Ext.timed creased_scene) creased_scene).state.ops =
      [Op.solver Solver.reset_plasticity,
        Op.tick Module.Remeshing, Op.solver Solver.apply_pop_filter, Op.tock Module.Remeshing,
        Op.delete_constraints [], Op.delete_constraints [],
        Op.tick Module.Remeshing, Op.solver Solver.apply_pop_filter, Op.tock Module.Remeshing,
        Op.delete_constraints [], Op.delete_constraints [],
        Op.solver Solver.reset_plasticity] := by
  refine ⟨rfl, rfl, rfl, rfl, by decide!, by decide!, by decide!, rfl, rfl, rfl, by decide!,
    by decide!⟩

/-- C21, as amended, at a concrete input: the collision stage, disabled in the
scene with one cloth where the physics stage alone is enabled. -/
theorem relax_disabled_stages_witness :
    (one_cloth_scene false).enabled Module.Collision = false ∧
      (relax_initial_state (Ext.timed (one_cloth_scene false))
        (one_cloth_scene false)).state.timers Module.Collision =
          (one_cloth_scene false).timers Module.Collision :=
  ⟨rfl, ((relax_disabled_stages (Ext.timed (one_cloth_scene false)) (one_cloth_scene false)).1
    Module.Collision (by decide) (by decide) (by decide) rfl).1⟩

theorem run_quiet {s : Module} (E : Ext) (sim : Simulation) (n : Nat)
    (h : sim.enabled s = false) : quiet s sim (run E n sim).state := by
  induction n with
  | zero => exact quiet_refl s sim
  | succ n ih =>
    show quiet s sim ((run E n sim).bind id fun sim => advance_step E sim).state
    cases hr : run E n sim with
    | ret s1 =>
      rw [hr] at ih
      simp only [Outcome.state] at ih
      simp only [Outcome.bind]
      exact quiet_trans ih (advance_step_quiet E s1 (Or.inl (by rw [ih.1]; exact h)))
    | exited c s1 =>
      rw [hr] at ih
      simpa [Outcome.bind, Outcome.state] using ih

theorem remesh_pass_fixed (E : Ext) (x : Simulation)
    (hf : x.magic.fixed_high_res_mesh = true) :
    (remesh_pass E x).ops =
      x.ops ++ Op.tick Module.Remeshing ::
        (List.replicate x.cloths.length (Op.solver Solver.static_remesh) ++
          [Op.tock Module.Remeshing]) := by
  have hc : ∀ (n : Nat) (cs : List Cloth),
      (for_cloths (fun _ cloth => remesh_cloth E (x.tick Module.Remeshing) cloth) n cs).2 =
        List.replicate cs.length (Op.solver Solver.static_remesh) := by
    intro n cs
    refine for_cloths_const _ _ (fun _ cloth => ?_) n cs
    have hf' : (x.tick Module.Remeshing).magic.fixed_high_res_mesh = true := hf
    simp [remesh_cloth, hf']
  unfold remesh_pass
  simp only [Simulation.tock, Simulation.each_cloth, hc]
  simp [Simulation.tick]

theorem relaxing_fixed (E : Ext) (sim : Simulation)
    (hf : sim.magic.fixed_high_res_mesh = true) :
    ∃ pre post,
      (reset_creases E (equilibration_step E (remeshing_step E
        (equilibration_step E (reset_creases E sim)) true))).ops =
          sim.ops ++ pre ++
            List.replicate (if sim.enabled Module.Remeshing then sim.cloths.length else 0)
              (Op.solver Solver.static_remesh) ++ post ∧
      (∀ op ∈ pre, op ≠ Op.solver Solver.static_remesh ∧ op ≠ Op.solver Solver.dynamic_remesh) ∧
      (∀ op ∈ post, op ≠ Op.solver Solver.static_remesh ∧ op ≠ Op.solver Solver.dynamic_remesh) := by
  have heq : ∀ x : Simulation,
      grows (fun op => op ≠ Op.solver Solver.static_remesh ∧ op ≠ Op.solver Solver.dynamic_remesh)
        (fun _ => False) x (equilibration_step E x) := fun x =>
    equilibration_step_grows E x (by simp) (by simp) (by simp) (fun _ => by simp)
      (fun _ hm => hm.elim) (fun _ => ⟨by simp, by simp, by simp, fun _ hm => hm.elim⟩)
  have hrc : ∀ x : Simulation,
      grows (fun op => op ≠ Op.solver Solver.static_remesh ∧ op ≠ Op.solver Solver.dynamic_remesh)
        (fun _ => False) x (reset_creases E x) := fun x =>
    reset_creases_grows E x (by simp)
  have hsp : ∀ (old : List Mesh) (x : Simulation),
      grows (fun op => op ≠ Op.solver Solver.static_remesh ∧ op ≠ Op.solver Solver.dynamic_remesh)
        (fun _ => False) x (separation_pass E old x) := fun old x =>
    separation_pass_grows E old x (fun _ => ⟨by simp, by simp, by simp, fun _ hm => hm.elim⟩)
  obtain ⟨ea, ma, la, _, pre, oa, pa⟩ := grows_trans (hrc sim) (heq _)
  rw [remeshing_step_init]
  by_cases hr : sim.enabled Module.Remeshing = true
  · have hr' : (equilibration_step E (reset_creases E sim)).enabled Module.Remeshing = true := by
      rw [ea]; exact hr
    have hf' : (equilibration_step E (reset_creases E sim)).magic.fixed_high_res_mesh = true := by
      rw [ma]; exact hf
    simp only [hr', if_true, hr]
    obtain ⟨_, _, _, _, post, ob, pb⟩ :=
      grows_trans (hsp ((equilibration_step E (reset_creases E sim)).cloths.map
          fun c => deep_copy c.mesh) (remesh_pass E (equilibration_step E (reset_creases E sim))))
        (grows_trans (heq _) (hrc _))
    refine ⟨pre ++ [Op.tick Module.Remeshing], Op.tock Module.Remeshing :: post, ?_, ?_, ?_⟩
    · rw [ob, remesh_pass_fixed E _ hf', oa, la]
      simp
    · intro op hop
      rcases List.mem_append.mp hop with h | h
      · exact pa op h
      · simp only [List.mem_singleton] at h
        rw [h]; simp
    · intro op hop
      rcases List.mem_cons.mp hop with h | h
      · rw [h]; simp
      · exact pb op h
  · have hr0 : sim.enabled Module.Remeshing = false := bool_not_true hr
    have hr' : (equilibration_step E (reset_creases E sim)).enabled Module.Remeshing = false := by
      rw [ea]; exact hr0
    simp only [hr', hr0, Bool.false_eq_true, if_false]
    obtain ⟨_, _, _, _, post, ob, pb⟩ :=
      grows_trans (heq (equilibration_step E (reset_creases E sim))) (hrc _)
    refine ⟨pre, post, ?_, pa, pb⟩
    rw [ob, oa]
    simp

theorem relaxed_flags (E : Ext) (sim : Simulation) :
    (relaxed E sim).magic.preserve_creases = false ∧
      (relaxed E sim).magic.fixed_high_res_mesh = sim.magic.fixed_high_res_mesh ∧
      (sim.magic.fixed_high_res_mesh = true → (relaxed E sim).enabled Module.Remeshing = false) := by
  have hg := relaxing_grows (P := fun _ => True) (T := fun _ => False) E sim
    (fun _ => trivial) trivial trivial trivial (fun _ => trivial) (fun _ hm => hm.elim)
    (fun _ => ⟨trivial, trivial, trivial, fun _ hm => hm.elim⟩)
    (fun _ => ⟨trivial, trivial, trivial⟩)
    (fun _ _ => ⟨trivial, trivial, trivial, fun _ hm => hm.elim⟩)
  have hm := hg.2.1
  unfold relaxed
  dsimp only
  split
  · rename_i hc
    refine ⟨rfl, ?_, fun _ => by simp⟩
    simp only [hm]
  · rename_i hc
    refine ⟨rfl, ?_, fun hf => ?_⟩
    · simp only [hm]
    · exfalso
      apply hc
      simp only [hm]
      exact hf

theorem atoi_digits_all (cs : List Char) (h : cs.all Char.isDigit = true) (acc : Nat) :
    atoi_digits (acc : Int) cs = ((cs.foldl (fun n c => 10 * n + (c.toNat - 48)) acc : Nat) : Int) := by
  induction cs generalizing acc with
  | nil => rfl
  | cons c cs ih =>
    simp only [List.all_cons, Bool.and_eq_true] at h
    simp only [atoi_digits, h.1, if_true, List.foldl_cons]
    have e : (acc : Int) * 10 + ((c.toNat - 48 : Nat) : Int) = ((10 * acc + (c.toNat - 48) : Nat) : Int) := by
      push_cast
      ring
    rw [e]
    exact ih h.2 _

theorem digit_not_space (c : Char) (h : c.isDigit = true) :
    isspace c = false ∧ c ≠ '-' ∧ c ≠ '+' := by
  refine ⟨?_, ?_, ?_⟩
  · cases hw : isspace c
    · rfl
    · exfalso
      simp only [isspace, Bool.or_eq_true, decide_eq_true_eq] at hw
      rcases hw with ((((hw | hw) | hw) | hw) | hw) | hw <;> rw [hw] at h <;>
        exact absurd h (by decide)
  · rintro rfl
    exact absurd h (by decide)
  · rintro rfl
    exact absurd h (by decide)

theorem strtol_decimal (s : String) (h : is_number s = true) :
    strtol s = min LONG_MAX (decimal_value s : Int) := by
  unfold is_number at h
  simp only [Bool.and_eq_true] at h
  obtain ⟨_, hd⟩ := h
  unfold strtol decimal_value
  cases hs : s.data with
  | nil => rfl
  | cons c cs =>
    rw [hs] at hd
    have hc : c.isDigit = true := by
      simp only [List.all_cons, Bool.and_eq_true] at hd
      exact hd.1
    obtain ⟨hw, hm, hp⟩ := digit_not_space c hc
    have hdrop : List.dropWhile isspace (c :: cs) = c :: cs := by
      simp [List.dropWhile, hw]
    rw [hdrop]
    have := atoi_digits_all (c :: cs) hd 0
    simp only [Nat.cast_zero] at this
    split
    · rename_i heq
      simp only [List.cons.injEq] at heq
      exact absurd heq.1 hm
    · rename_i heq
      simp only [List.cons.injEq] at heq
      exact absurd heq.1 hp
    · rw [this]

theorem atoi_decimal (s : String) (h : is_number s = true) :
    atoi s = long_to_int (min LONG_MAX (decimal_value s : Int)) ∧
      (atoi s = (decimal_value s : Int) ↔ decimal_value s < 2 ^ 31) := by
  have e : atoi s = long_to_int (min LONG_MAX (decimal_value s : Int)) := by
    unfold atoi
    rw [strtol_decimal s h]
  refine ⟨e, ?_⟩
  rw [e]
  have hd : (0 : Int) ≤ (decimal_value s : Int) := Int.natCast_nonneg _
  have hp : (2 : Nat) ^ 31 = 2147483648 := by norm_num
  rw [hp]
  unfold long_to_int LONG_MAX
  simp only [min_def]
  split_ifs <;> omega

theorem run_physics_usage (E : Ext) (args : List String) (fuel : Nat)
    (h : args.length = 0 ∨ args.length > 3) :
    run_physics E args fuel = Outcome.exited EXIT_FAILURE Process.initial := by
  unfold run_physics
  rcases h with h | h
  · have : args = [] := List.length_eq_zero.mp h
    subst this
    rfl
  · cases hl : args.getLast? with
    | none => rfl
    | some last => simp [h]

theorem run_physics_valid (E : Ext) (args : List String) (fuel : Nat)
    (json last outdir : String) (h0 : args[0]? = some json) (hl : args.getLast? = some last)
    (hlen : args.length ≤ 3) (h2 : 2 ≤ args.length → args[1]? = some outdir)
    (h1 : args.length < 2 → outdir = "") :
    run_physics E args fuel =
      (init_physics E
        (if !outdir.isEmpty then
          { Process.initial with out := [Output.ensure_existing_directory outdir] }
        else Process.initial) json outdir false).bind id fun p =>
          offline_loop E (if is_number last then atoi last else E.DEFAULT_NUM_FRAMES) fuel
            (if !p.sim.non_rigid && !outdir.isEmpty then save p 0 else p) := by
  have hn : ¬ args.length > 3 := not_lt.mpr hlen
  unfold run_physics
  rw [hl]
  simp only [hn, if_false]
  match args, h0, h2, h1, hlen with
  | [a], h0, _, h1, _ =>
    simp only [List.getElem?_cons_zero, Option.some.injEq] at h0
    have ho := h1 (by simp)
    subst h0 ho
    rfl
  | [a, b], h0, h2, _, _ =>
    simp only [List.getElem?_cons_zero, Option.some.injEq] at h0
    have ho := h2 (by simp)
    simp only [List.getElem?_cons_succ, List.getElem?_cons_zero, Option.some.injEq] at ho
    subst h0 ho
    rfl
  | [a, b, c], h0, h2, _, _ =>
    simp only [List.getElem?_cons_zero, Option.some.injEq] at h0
    have ho := h2 (by simp)
    simp only [List.getElem?_cons_succ, List.getElem?_cons_zero, Option.some.injEq] at ho
    subst h0 ho
    rfl
  | [], h0, _, _, _ => simp at h0
  | _ :: _ :: _ :: _ :: _, _, _, _, hlen => simp at hlen

theorem init_physics_bare (p : Process) (json outdir : String) :
    ∃ q, init_physics (Ext.loading (bare_scene 1 0 0 1 1 false)) p json outdir false =
      Outcome.ret q := by
  rw [init_physics_eq _ p json outdir false (bare_scene 1 0 0 1 1 false) rfl]
  simp only [Bool.not_false, if_true]
  rw [relax_initial_state_valid _ _ (by decide!)]
  exact ⟨_, rfl⟩

/-- C25, as amended.  For every argument list, `run_physics` exits with
failure status whatever the files hold, in the state the process starts in
(nothing loaded, nothing written), exactly when the list has 0 or more than 3
elements.  Otherwise it goes on to `init_physics` with the scene file `args[0]`
and with the output directory `args[1]` when there are at least 2 elements and
the empty one otherwise, and it runs the loop with the frame budget `atoi` of
the last element when `is_number` holds for it and `DEFAULT_NUM_FRAMES`
otherwise.  `is_number` holds exactly for the non-empty strings of decimal
digits.  For such a string `atoi` is the decimal value, cut to the range of
`long` and then converted to `int`: it is the decimal value exactly when that
is below `2 ^ 31`.  In particular a 2-element list whose second element is all
digits uses that element both as the output directory and as the frame
budget. -/
theorem run_physics_arguments (args : List String) :
    ((∀ (E : Ext) (fuel : Nat),
        run_physics E args fuel = Outcome.exited EXIT_FAILURE Process.initial) ↔
      (args.length = 0 ∨ args.length > 3)) ∧
    (∀ (E : Ext) (fuel : Nat) (json last outdir : String),
      args[0]? = some json → args.getLast? = some last → args.length ≤ 3 →
      (2 ≤ args.length → args[1]? = some outdir) → (args.length < 2 → outdir = "") →
      run_physics E args fuel =
        (init_physics E
          (if !outdir.isEmpty then
            { Process.initial with out := [Output.ensure_existing_directory outdir] }
          else Process.initial) json outdir false).bind id fun p =>
            offline_loop E (if is_number last then atoi last else E.DEFAULT_NUM_FRAMES) fuel
              (if !p.sim.non_rigid && !outdir.isEmpty then save p 0 else p)) ∧
    (∀ s : String, is_number s = true ↔ (s.isEmpty = false ∧ ∀ c ∈ s.data, c.isDigit = true)) ∧
    (∀ s : String, is_number s = true →
      atoi s = long_to_int (min LONG_MAX (decimal_value s : Int)) ∧
        (atoi s = (decimal_value s : Int) ↔ decimal_value s < 2 ^ 31)) ∧
    (∀ (E : Ext) (fuel : Nat) (scene digits : String), is_number digits = true →
      run_physics E [scene, digits] fuel =
        (init_physics E
          { Process.initial with out := [Output.ensure_existing_directory digits] }
          scene digits false).bind id fun p =>
            offline_loop E (atoi digits) fuel (if !p.sim.non_rigid then save p 0 else p)) := by
  refine ⟨⟨?_, fun h E fuel => run_physics_usage E args fuel h⟩, ?_, ?_, ?_, ?_⟩
  · intro h
    by_contra hn
    push_neg at hn
    obtain ⟨hpos, hlen⟩ := hn
    have hne : args ≠ [] := fun e => hpos (by rw [e]; rfl)
    obtain ⟨json, h0⟩ : ∃ json, args[0]? = some json :=
      ⟨args[0], List.getElem?_eq_getElem (Nat.pos_of_ne_zero hpos)⟩
    obtain ⟨last, hl⟩ : ∃ last, args.getLast? = some last :=
      ⟨_, List.getLast?_eq_getLast _ hne⟩
    have hv := run_physics_valid (Ext.loading (bare_scene 1 0 0 1 1 false)) args 0 json last
      (if 2 ≤ args.length then (args[1]?).getD "" else "") h0 hl hlen
      (fun h2 => by
        have h1 : 1 < args.length := h2
        simp [h2, List.getElem?_eq_getElem h1])
      (fun h1 => by
        have : ¬ 2 ≤ args.length := not_le.mpr h1
        simp [this])
    obtain ⟨q, hq⟩ := init_physics_bare
      (if !(if 2 ≤ args.length then (args[1]?).getD "" else "").isEmpty then
        { Process.initial with out := [Output.ensure_existing_directory
          (if 2 ≤ args.length then (args[1]?).getD "" else "")] }
      else Process.initial) json (if 2 ≤ args.length then (args[1]?).getD "" else "")
    rw [hq] at hv
    rw [h] at hv
    simp [Outcome.bind, offline_loop] at hv
  · intro E fuel json last outdir h0 hl hlen h2 h1
    exact run_physics_valid E args fuel json last outdir h0 hl hlen h2 h1
  · intro s
    unfold is_number
    simp [List.all_eq_true]
  · intro s h
    exact atoi_decimal s h
  · intro E fuel scene digits h
    have he : digits.isEmpty = false := by
      unfold is_number at h
      simp only [Bool.and_eq_true, Bool.not_eq_true'] at h
      exact h.1
    rw [run_physics_two]
    simp [he, h]

/-- C25, as amended, at concrete inputs: no argument, four arguments, and the two arguments
`scene.json` and `12`. -/
theorem run_physics_arguments_witness :
    run_physics Ext.idle [] 5 = Outcome.exited EXIT_FAILURE Process.initial ∧
      run_physics Ext.idle ["a", "b", "c", "d"] 5 =
        Outcome.exited EXIT_FAILURE Process.initial ∧
      is_number "12" = true ∧ atoi "12" = 12 ∧
      run_physics Ext.idle ["scene.json", "12"] 5 =
        (init_physics Ext.idle
          { Process.initial with out := [Output.ensure_existing_directory "12"] }
          "scene.json" "12" false).bind id fun p =>
            offline_loop Ext.idle (atoi "12") 5 (if !p.sim.non_rigid then save p 0 else p) :=
  ⟨(run_physics_arguments []).1.2 (Or.inl rfl) Ext.idle 5,
    (run_physics_arguments ["a", "b", "c", "d"]).1.2 (Or.inr (by decide)) Ext.idle 5,
    by decide, by decide,
    (run_physics_arguments []).2.2.2.2 Ext.idle 5 "scene.json" "12" (by decide)⟩

/-- C25 fails as stated: `is_number` holds for `99999999999`, whose decimal
value is 99999999999, and the frame budget `run_physics` passes to the loop is
1215752191, what the conversion to `int` leaves of it.  For a string of twenty
nines the budget is -1. -/
theorem atoi_range_counterexample :
    is_number "99999999999" = true ∧ decimal_value "99999999999" = 99999999999 ∧
      atoi "99999999999" = 1215752191 ∧
      is_number "99999999999999999999" = true ∧ atoi "99999999999999999999" = -1 ∧
      run_physics Ext.idle ["scene.json", "99999999999"] 5 =
        (init_physics Ext.idle
          { Process.initial with out := [Output.ensure_existing_directory "99999999999"] }
          "scene.json" "99999999999" false).bind id fun p =>
            offline_loop Ext.idle 1215752191 5 (if !p.sim.non_rigid then save p 0 else p) := by
  have h1 : is_number "99999999999" = true := by decide
  have h2 : atoi "99999999999" = 1215752191 := by decide
  refine ⟨h1, by decide, h2, by decide, by decide, ?_⟩
  have he : ("99999999999" : String).isEmpty = false := by decide
  rw [run_physics_two]
  simp only [he, h1, h2, Bool.not_false, if_true, Bool.and_true]

theorem run_front (E : Ext) (s s1 : Simulation) (h : advance_step E s = Outcome.ret s1)
    (n : Nat) : run E (n + 1) s = run E n s1 := by
  induction n with
  | zero =>
    show (run E 0 s).bind id (fun sim => advance_step E sim) = run E 0 s1
    simp only [run, Outcome.bind, h]
  | succ n ih =>
    show (run E (n + 1) s).bind id (fun sim => advance_step E sim) = run E (n + 1) s1
    rw [ih]
    rfl

theorem save_sim (p : Process) (frame : Int) : (save p frame).sim = p.sim := by
  unfold save save_meshes save_obstacle_transforms
  dsimp only
  split_ifs <;> rfl

theorem save_outdir (p : Process) (frame : Int) : (save p frame).outdir = p.outdir := by
  unfold save save_meshes save_obstacle_transforms
  dsimp only
  split_ifs <;> rfl

theorem save_timings_outdir (p : Process) : (save_timings p).outdir = p.outdir := by
  unfold save_timings
  split <;> rfl

theorem save_step_sim (p : Process) : (save_step p).sim = p.sim := by
  rw [save_step_eq]
  split_ifs <;> simp [save_sim, save_timings_sim]

theorem save_step_outdir (p : Process) : (save_step p).outdir = p.outdir := by
  rw [save_step_eq]
  split_ifs <;> simp [save_outdir, save_timings_outdir]

theorem sim_step_state (E : Ext) (num_frames : Int) (p : Process) (s1 : Simulation)
    (h : advance_step E p.sim = Outcome.ret s1) :
    (sim_step E num_frames p).state = save_step { p with sim := s1 } := by
  unfold sim_step
  rw [h]
  simp only [Outcome.bind]
  split_ifs <;> rfl

theorem sim_step_ret (E : Ext) (num_frames : Int) (p q : Process)
    (h : sim_step E num_frames p = Outcome.ret q) :
    ∃ s1, advance_step E p.sim = Outcome.ret s1 ∧ q = save_step { p with sim := s1 } := by
  cases ha : advance_step E p.sim with
  | ret s1 =>
    have hs := sim_step_state E num_frames p s1 ha
    rw [h] at hs
    exact ⟨s1, rfl, hs⟩
  | exited c s1 =>
    unfold sim_step at h
    rw [ha] at h
    simp [Outcome.bind] at h

theorem offline_loop_ret (E : Ext) (num_frames : Int) (k : Nat) (p q : Process)
    (h : offline_loop E num_frames k p = Outcome.ret q) :
    run E k p.sim = Outcome.ret q.sim ∧ q.outdir = p.outdir := by
  induction k generalizing p with
  | zero =>
    simp only [offline_loop, Outcome.ret.injEq] at h
    subst h
    exact ⟨rfl, rfl⟩
  | succ k ih =>
    simp only [offline_loop] at h
    cases hs : sim_step E num_frames p with
    | ret p1 =>
      rw [hs] at h
      simp only [Outcome.bind] at h
      obtain ⟨s1, ha, hp1⟩ := sim_step_ret E num_frames p p1 hs
      obtain ⟨i1, i2⟩ := ih p1 h
      have e1 : p1.sim = s1 := by rw [hp1, save_step_sim]
      have e2 : p1.outdir = p.outdir := by rw [hp1, save_step_outdir]
      rw [run_front E p.sim s1 ha, ← e1]
      exact ⟨i1, i2.trans e2⟩
    | exited c p1 =>
      rw [hs] at h
      simp [Outcome.bind] at h

theorem outcome_of_status_none {σ : Type} (o : Outcome σ) (h : o.status = none) :
    o = Outcome.ret o.state := by
  cases o with
  | ret s => rfl
  | exited c s => simp [Outcome.status] at h

/-- C22.  In a rigid-mode run started at step 0, frame 0 with
`init_frame_steps = 0`, `init_wait_frames = 0`, `frame_steps = F >= 1` and a
non-empty output directory, after `k` iterations of `sim_step` that returned,
the next `sim_step` performs step `k + 1` (the step counter is `k + 1`, the
time has grown by `k + 1` increments of `step_time`).  If `k + 1 = m * F`, it
calls `save` with the frame index `m` (and `m >= 1`), then `save_timings`; for
`m < 10000` that save writes the cloth geometry under `"%s/%04d"` and the
obstacle transforms of frame `m`.  If `k + 1` is no multiple of `F`, it calls
no save and writes nothing.  So the saved frame indices grow strictly with the
steps, and every index is saved at most once. -/
theorem rigid_save_steps (E : Ext) (num_frames : Int) (p : Process) (F : Nat) (hF : 0 < F)
    (hnr : p.sim.non_rigid = false) (h0 : p.sim.step = 0) (hfr : p.sim.frame = 0)
    (hifs : p.sim.init_frame_steps = 0) (hw : p.sim.init_wait_frames = 0)
    (hfs : p.sim.frame_steps = F) (hdir : p.outdir.isEmpty = false) (k : Nat)
    (hk : (offline_loop E num_frames k p).status = none) :
    ∃ s1, advance_step E (offline_loop E num_frames k p).state.sim = Outcome.ret s1 ∧
      s1.step = k + 1 ∧
      s1.time = p.sim.time + ((k + 1 : Nat) : ℚ) * p.sim.step_time ∧
      (sim_step E num_frames (offline_loop E num_frames k p).state).state.sim = s1 ∧
      (∀ m : Nat, k + 1 = m * F →
        s1.frame = m ∧ 1 ≤ m ∧
        (sim_step E num_frames (offline_loop E num_frames k p).state).state =
          save_timings (save { (offline_loop E num_frames k p).state with sim := s1 } m) ∧
        (m < 10000 →
          (save { (offline_loop E num_frames k p).state with sim := s1 } m).out =
            (offline_loop E num_frames k p).state.out ++
              [Output.save_objs s1.cloth_meshes (p.outdir ++ "/" ++ fmt_0d 4 m) false] ++
              obstacle_transform_files p.outdir m s1.time 0 s1.obstacles)) ∧
      ((¬ ∃ m : Nat, k + 1 = m * F) →
        (sim_step E num_frames (offline_loop E num_frames k p).state).state =
          { (offline_loop E num_frames k p).state with sim := s1 }) ∧
      (∀ m1 m2 : Nat, m1 * F < m2 * F → m1 < m2) := by
  have hq := outcome_of_status_none _ hk
  generalize (offline_loop E num_frames k p).state = q at hq ⊢
  obtain ⟨hrun, hout⟩ := offline_loop_ret E num_frames k p q hq
  obtain ⟨s, hs, hsr⟩ := run_rigid E k p.sim hnr
  rw [hrun] at hs
  simp only [Outcome.ret.injEq] at hs
  subst hs
  obtain ⟨s1, ha, hr1⟩ := advance_step_rigid E q.sim hsr
  have hrun1 : run E (k + 1) p.sim = Outcome.ret s1 := by
    show (run E k p.sim).bind id (fun sim => advance_step E sim) = Outcome.ret s1
    rw [hrun]
    simpa [Outcome.bind] using ha
  have hc := run_ret_toClock E (k + 1) p.sim s1 hrun1
  rw [after_steady_closed p.sim.toClock h0 hifs (k + 1)] at hc
  have hstep : s1.step = k + 1 := by
    have := congrArg Clock.step hc
    simpa using this
  have htime : s1.time = p.sim.time + ((k + 1 : Nat) : ℚ) * p.sim.step_time := by
    have := congrArg Clock.time hc
    simpa using this
  have hframe : s1.frame = boundaries F (k + 1) := by
    have := congrArg Clock.frame hc
    simp only [hfr, hw, hfs] at this
    rw [this]
    simp
  have hfs1 : s1.frame_steps = F := by
    have := congrArg Clock.frame_steps hc
    simp only [hfs] at this
    exact this
  have hstate := sim_step_state E num_frames q s1 ha
  have hdue : save_due s1 ↔ (F : Int) ∣ ((k + 1 : Nat) : Int) := by
    unfold save_due
    simp only [hr1, Bool.false_eq_true, if_false, hstep, hfs1]
    rw [tmod_zero_iff_dvd]
    push_cast
    rfl
  refine ⟨s1, ha, hstep, htime, ?_, ?_, ?_, ?_⟩
  · rw [hstate, save_step_sim]
  · intro m hm
    have hm1 : 1 ≤ m := by
      rcases Nat.eq_zero_or_pos m with h | h
      · rw [h] at hm; simp at hm
      · exact h
    have hfm : s1.frame = m := by
      rw [hframe, hm, boundaries_mul F hF m]
    have hd : save_due s1 := hdue.mpr ⟨m, by rw [hm]; push_cast; ring⟩
    refine ⟨hfm, hm1, ?_, ?_⟩
    · rw [hstate, save_step_eq]
      simp only [hd, if_true, hr1, Bool.false_eq_true, if_false, hfm]
    · intro hlt
      have hdir1 : ({ q with sim := s1 } : Process).outdir.isEmpty = false := by
        show q.outdir.isEmpty = false
        rw [hout]; exact hdir
      have hlt1 : (m : Int) < 10000 := by exact_mod_cast hlt
      rw [save_out _ _ hdir1 hlt1]
      simp only [hr1, Bool.false_eq_true, if_false, cloth_path, hout]
  · intro hn
    have hd : ¬ save_due s1 := by
      rw [hdue]
      rintro ⟨c, hc⟩
      apply hn
      have hcpos : 0 ≤ c := by
        by_contra hneg
        push_neg at hneg
        have : (F : Int) * c < 0 := mul_neg_of_pos_of_neg (by exact_mod_cast hF) hneg
        rw [← hc] at this
        have : (0 : Int) ≤ ((k + 1 : Nat) : Int) := Int.natCast_nonneg _
        omega
      refine ⟨c.toNat, ?_⟩
      have : ((k + 1 : Nat) : Int) = ((c.toNat * F : Nat) : Int) := by
        rw [hc]
        push_cast
        rw [Int.toNat_of_nonneg hcpos]
        ring
      exact_mod_cast this
    rw [hstate, save_step_eq]
    simp only [hd, if_false]
  · intro m1 m2 h
    exact Nat.lt_of_mul_lt_mul_right h

/-- C22 at a concrete input: the second `sim_step` of a run with two steps per
frame saves frame 1; the first one saved nothing. -/
theorem rigid_save_steps_witness :
    (offline_loop Ext.idle 100 1 two_step_process).status = none ∧
      (∃ s1, advance_step Ext.idle (offline_loop Ext.idle 100 1 two_step_process).state.sim =
          Outcome.ret s1 ∧ s1.step = 2 ∧ s1.frame = 1) ∧
      (offline_loop Ext.idle 100 1 two_step_process).state.out.map Output.path = [] ∧
      (sim_step Ext.idle 100 (offline_loop Ext.idle 100 1 two_step_process).state).state.out.map
        Output.path = ["out/0001", "timing"] := by
  refine ⟨by decide!, ?_, by decide!, by decide!⟩
  obtain ⟨s1, ha, hs, _, _, hm, _⟩ :=
    rigid_save_steps Ext.idle 100 two_step_process 2 (by decide) rfl rfl rfl rfl rfl rfl
      (by decide) 1 (by decide!)
  exact ⟨s1, ha, by simpa using hs, by simpa using (hm 1 rfl).1⟩

@[simp] theorem tick_obstacles (s : Simulation) (m : Module) :
    (s.tick m).obstacles = s.obstacles := rfl

@[simp] theorem tock_obstacles (E : Ext) (s : Simulation) (m : Module) :
    (s.tock E m).obstacles = s.obstacles := rfl

@[simp] theorem called_obstacles (s : Simulation) (f : Solver) :
    (s.called f).obstacles = s.obstacles := rfl

@[simp] theorem each_cloth_obstacles (s : Simulation) (body : Nat → Cloth → Cloth × List Op) :
    (s.each_cloth body).obstacles = s.obstacles := rfl

@[simp] theorem delete_constraints_obstacles (s : Simulation) (cons : List Constraint) :
    (delete_constraints s cons).obstacles = s.obstacles := rfl

@[simp] theorem get_constraints_obstacles (E : Ext) (s : Simulation) (b : Bool) :
    (get_constraints E s b).2.obstacles = s.obstacles := by
  unfold get_constraints
  split <;> rfl

theorem step_mesh_still (mesh : Mesh) (dt : ℚ) (h : ∀ n ∈ mesh.nodes, n.v = 0) :
    step_mesh mesh dt = mesh := by
  unfold step_mesh
  cases mesh with
  | mk nodes =>
    simp only [Mesh.mk.injEq]
    conv_rhs => rw [← List.map_id nodes]
    apply List.map_congr_left
    intro n hn
    have hv : n.v = 0 := h n hn
    cases n
    simp only at hv
    simp [hv]

theorem physics_step_obstacles (E : Ext) (s : Simulation) (cons : List Constraint)
    (h : ∀ ob ∈ s.obstacles, Obstacle.still ob) :
    (physics_step E s cons).obstacles = s.obstacles := by
  unfold physics_step
  split
  · rfl
  · simp only [tock_obstacles]
    show List.map _ s.obstacles = s.obstacles
    conv_rhs => rw [← List.map_id s.obstacles]
    apply List.map_congr_left
    intro o ho
    have := step_mesh_still o.curr_state_mesh s.step_time (h o ho)
    cases o
    simp only at this
    simp only [id]
    congr

@[simp] theorem plasticity_step_obstacles (E : Ext) (s : Simulation) :
    (plasticity_step E s).obstacles = s.obstacles := by
  unfold plasticity_step
  split <;> rfl

@[simp] theorem strainlimiting_step_obstacles (E : Ext) (s : Simulation)
    (cons : List Constraint) : (strainlimiting_step E s cons).obstacles = s.obstacles := by
  unfold strainlimiting_step
  split <;> rfl

@[simp] theorem collision_step_obstacles (E : Ext) (s : Simulation) :
    (collision_step E s).obstacles = s.obstacles := by
  unfold collision_step
  split
  · rfl
  · simp

@[simp] theorem remeshing_step_obstacles (E : Ext) (s : Simulation) (initializing : Bool) :
    (remeshing_step E s initializing).obstacles = s.obstacles := by
  unfold remeshing_step
  split
  · rfl
  · simp only []
    split_ifs <;> simp

theorem frame_update_obstacles (E : Ext) (s : Simulation) :
    (frame_update E s).obstacles = s.obstacles := by
  unfold frame_update
  dsimp only
  split_ifs <;> simp

theorem finish_step_obstacles (E : Ext) (s : Simulation)
    (h : ∀ ob ∈ s.obstacles, Obstacle.still ob) :
    (finish_step E s).obstacles = s.obstacles := by
  unfold finish_step
  simp only [delete_constraints_obstacles, frame_update_obstacles, collision_step_obstacles,
    strainlimiting_step_obstacles, plasticity_step_obstacles]
  rw [physics_step_obstacles]
  · simp
  · intro ob hob
    simp only [get_constraints_obstacles] at hob
    exact h ob hob

theorem get_mesh_at_frame_load (files : KeyframeFiles) (ob : Obstacle) (time : ℚ) (frame : Int)
    (loaded : Mesh) (hact : ob.activated = true) (hlo : ob.start_time ≤ time)
    (hhi : time ≤ ob.end_time) (hf : frame > ob.curr_frame)
    (hfile : files (ob.base_path ++ ("body" ++ fmt_0d 4 frame ++ ".obj")) = some loaded) :
    ob.get_mesh_at_frame files time frame = Outcome.ret (ob.load frame loaded) := by
  have hs : ¬ time < ob.start_time := not_lt.mpr hlo
  have he : ¬ time > ob.end_time := not_lt.mpr hhi
  obtain ⟨bm, cm, nm, km, st, et, act, cf, sp, bp⟩ := ob
  simp only at hact hfile hf hs he
  subst hact
  simp [Obstacle.get_mesh_at_frame, Obstacle.load, he, hs, hf, hfile]

theorem get_mesh_at_frame_keep (files : KeyframeFiles) (ob : Obstacle) (time : ℚ) (frame : Int)
    (hact : ob.activated = true) (hlo : ob.start_time ≤ time)
    (hhi : time ≤ ob.end_time) (hf : frame ≤ ob.curr_frame) :
    ob.get_mesh_at_frame files time frame = Outcome.ret ob := by
  have hs : ¬ time < ob.start_time := not_lt.mpr hlo
  have he : ¬ time > ob.end_time := not_lt.mpr hhi
  have hf' : ¬ frame > ob.curr_frame := not_lt.mpr hf
  simp [Obstacle.get_mesh_at_frame, he, hs, hf', hact]

theorem blend_with_next_add (ob : Obstacle) (a b : ℚ) :
    (ob.blend_with_next a).blend_with_next b = ob.blend_with_next (a + b) := by
  simp only [Obstacle.blend_with_next, blend_nodes_add]

theorem blend_nodes_still (b : ℚ) (cs ns ks : List Node) (h : ∀ n ∈ cs, n.v = 0) :
    ∀ n ∈ blend_nodes b cs ns ks, n.v = 0 := by
  induction cs generalizing ns ks with
  | nil => cases ns <;> cases ks <;> simp [blend_nodes]
  | cons a cs ih =>
    cases ns with
    | nil => simpa [blend_nodes] using h
    | cons m ns =>
      cases ks with
      | nil => simpa [blend_nodes] using h
      | cons d ks =>
        intro n hn
        simp only [blend_nodes, List.mem_cons] at hn
        rcases hn with rfl | hn
        · exact h a (List.mem_cons_self _ _)
        · exact ih ns ks (fun x hx => h x (List.mem_cons_of_mem _ hx)) n hn

theorem blend_with_next_still (ob : Obstacle) (b : ℚ) (h : ob.still) :
    (ob.blend_with_next b).still :=
  blend_nodes_still b _ _ _ h

theorem advance_keyframe (E : Ext) (s : Simulation) (ob ob1 : Obstacle)
    (hnr : s.non_rigid = true) (hifs : s.init_frame_steps = 0) (hw : s.init_wait_frames = 0)
    (hobs : s.obstacles = [ob])
    (hget : ob.get_mesh_at_frame E.keyframes (s.time + s.step_time) s.frame = Outcome.ret ob1)
    (hstill : ob1.still) :
    ∃ s1, advance_step E s = Outcome.ret s1 ∧
      s1.obstacles = [ob1.blend_with_next (1 / (s.frame_steps : ℚ))] := by
  have hu : update_obstacles E s.ticked (if s.non_rigid then true else false) =
      Outcome.ret { s.ticked with
        obstacles := [ob1.blend_with_next (1 / (s.frame_steps : ℚ))] } := by
    have hb : obstacle_blend s.ticked = 1 / (s.frame_steps : ℚ) := by
      simp [obstacle_blend, Simulation.ticked, hnr, hifs]
    have ht : s.ticked.obstacles = [ob] := hobs
    have hnr' : s.ticked.non_rigid = true := hnr
    have hw' : s.ticked.init_wait_frames = 0 := hw
    have htime : s.ticked.time = s.time + s.step_time := rfl
    have hframe : s.ticked.frame = s.frame := rfl
    unfold update_obstacles
    rw [ht, hb]
    simp only [update_obstacle_list, update_obstacle, hnr', hw', htime, hframe, hget,
      Outcome.bind, hnr, if_true, ne_eq, not_true_eq_false, if_false, Bool.not_true,
      Bool.false_eq_true]
  refine ⟨_, by rw [advance_step_eq, hu]; rfl, ?_⟩
  rw [finish_step_obstacles]
  intro o ho
  simp only [List.mem_singleton] at ho
  rw [ho]
  exact blend_with_next_still ob1 _ hstill

theorem boundaries_mono_step (F : Int) (n : Nat) :
    boundaries F n ≤ boundaries F (n + 1) := by
  simp only [boundaries]
  split_ifs <;> omega

theorem get_mesh_at_frame_cases (files : KeyframeFiles) (a : Obstacle) (t : ℚ) (fr : Nat)
    (key : Nat → Mesh) (hact : a.activated = true) (hlo : a.start_time ≤ t)
    (hhi : t ≤ a.end_time)
    (hfile : files (a.base_path ++ ("body" ++ fmt_0d 4 (fr : Int) ++ ".obj")) = some (key fr)) :
    ((fr : Int) > a.curr_frame ∧
      a.get_mesh_at_frame files t fr = Outcome.ret (a.load fr (key fr))) ∨
    ((fr : Int) ≤ a.curr_frame ∧ a.get_mesh_at_frame files t fr = Outcome.ret a) := by
  by_cases hf : (fr : Int) > a.curr_frame
  · exact Or.inl ⟨hf, get_mesh_at_frame_load files a t fr (key fr) hact hlo hhi hf hfile⟩
  · exact Or.inr ⟨not_lt.mp hf, get_mesh_at_frame_keep files a t fr hact hlo hhi (not_lt.mp hf)⟩

theorem keyframe_track_inv (files : KeyframeFiles) (F : Nat) (t0 dt : ℚ) (ob : Obstacle)
    (key : Nat → Mesh) (N : Nat)
    (hact : ob.activated = true) (hcf : ob.curr_frame = -1) (hv : ob.still)
    (hfiles : ∀ f : Nat,
      files (ob.base_path ++ ("body" ++ fmt_0d 4 (f : Int) ++ ".obj")) = some (key f))
    (hwin : ∀ n : Nat, n ≤ N →
      ob.start_time ≤ t0 + (n : ℚ) * dt ∧ t0 + (n : ℚ) * dt ≤ ob.end_time)
    (n : Nat) (hn : n ≤ N) :
    (keyframe_track files F t0 dt n ob).activated = true ∧
      (keyframe_track files F t0 dt n ob).still ∧
      (keyframe_track files F t0 dt n ob).base_path = ob.base_path ∧
      (keyframe_track files F t0 dt n ob).start_time = ob.start_time ∧
      (keyframe_track files F t0 dt n ob).end_time = ob.end_time ∧
      (keyframe_track files F t0 dt n ob).curr_frame =
        (if n = 0 then -1 else (boundaries F (n - 1) : Int)) ∧
      (∀ m, n = m + 1 →
        ∃ a1, (keyframe_track files F t0 dt m ob).get_mesh_at_frame files
            (t0 + ((m + 1 : Nat) : ℚ) * dt) (boundaries F m) = Outcome.ret a1 ∧
          a1.still ∧
          keyframe_track files F t0 dt n ob = a1.blend_with_next (1 / (F : ℚ))) := by
  induction n with
  | zero =>
    refine ⟨hact, hv, rfl, rfl, rfl, by simpa using hcf, ?_⟩
    intro m hm
    omega
  | succ n ih =>
    obtain ⟨i1, i2, i3, i4, i5, i6, _⟩ := ih (Nat.le_of_succ_le hn)
    obtain ⟨w1, w2⟩ := hwin (n + 1) hn
    have hfile := hfiles (boundaries F n)
    rw [← i3] at hfile
    rw [← i4] at w1
    rw [← i5] at w2
    have hstep : keyframe_track files F t0 dt (n + 1) ob =
        ((keyframe_track files F t0 dt n ob).get_mesh_at_frame files
          (t0 + ((n + 1 : Nat) : ℚ) * dt) (boundaries F n)).state.blend_with_next
            (1 / (F : ℚ)) := rfl
    rcases get_mesh_at_frame_cases files _ _ (boundaries F n) key i1 w1 w2 hfile with
      ⟨hgt, hg⟩ | ⟨hle, hg⟩
    · rw [hstep, hg]
      refine ⟨i1, blend_with_next_still _ _ i2, i3, i4, i5, ?_, ?_⟩
      · simp [Outcome.state, Obstacle.blend_with_next, Obstacle.load]
      · intro m hm
        have : m = n := by omega
        subst this
        exact ⟨_, hg, i2, rfl⟩
    · rw [hstep, hg]
      refine ⟨i1, blend_with_next_still _ _ i2, i3, i4, i5, ?_, ?_⟩
      · simp only [Outcome.state, Obstacle.blend_with_next, Nat.add_one_ne_zero, if_false,
          Nat.add_sub_cancel]
        rw [i6] at hle ⊢
        cases n with
        | zero =>
          simp only [if_true, boundaries] at hle
          omega
        | succ k =>
          simp only [Nat.add_one_ne_zero, if_false, Nat.add_sub_cancel] at hle ⊢
          have := boundaries_mono_step F k
          omega
      · intro m hm
        have : m = n := by omega
        subst this
        exact ⟨_, hg, i2, rfl⟩

theorem advance_step_ret_non_rigid (E : Ext) (s s1 : Simulation)
    (h : advance_step E s = Outcome.ret s1) : s1.non_rigid = s.non_rigid := by
  obtain ⟨s2, hu, rfl⟩ := advance_step_ret E s s1 h
  obtain ⟨obs, rfl⟩ := update_obstacles_ret E _ _ _ hu
  rw [finish_step_non_rigid]
  rfl

theorem keyframe_run (E : Ext) (sim : Simulation) (ob : Obstacle) (F : Nat)
    (key : Nat → Mesh) (N : Nat)
    (hnr : sim.non_rigid = true) (h0 : sim.step = 0) (hfr : sim.frame = 0)
    (hifs : sim.init_frame_steps = 0) (hw : sim.init_wait_frames = 0)
    (hfs : sim.frame_steps = F) (hobs : sim.obstacles = [ob])
    (hact : ob.activated = true) (hcf : ob.curr_frame = -1) (hv : ob.still)
    (hfiles : ∀ f : Nat,
      E.keyframes (ob.base_path ++ ("body" ++ fmt_0d 4 (f : Int) ++ ".obj")) = some (key f))
    (hwin : ∀ n : Nat, n ≤ N →
      ob.start_time ≤ sim.time + (n : ℚ) * sim.step_time ∧
        sim.time + (n : ℚ) * sim.step_time ≤ ob.end_time)
    (n : Nat) (hn : n ≤ N) :
    ∃ s, run E n sim = Outcome.ret s ∧
      s.obstacles = [keyframe_track E.keyframes F sim.time sim.step_time n ob] ∧
      s.non_rigid = true ∧ s.step = n ∧ s.frame = boundaries F n ∧
      s.time = sim.time + (n : ℚ) * sim.step_time := by
  induction n with
  | zero =>
    refine ⟨sim, rfl, hobs, hnr, by simpa using h0, by simpa [boundaries] using hfr, by simp⟩
  | succ n ih =>
    obtain ⟨s, hrun, hso, hsn, _, _, _⟩ := ih (Nat.le_of_succ_le hn)
    have hc := run_ret_toClock E n sim s hrun
    rw [after_steady_closed sim.toClock h0 hifs n] at hc
    have htime : s.time = sim.time + (n : ℚ) * sim.step_time := by
      have := congrArg Clock.time hc
      simpa using this
    have hframe : s.frame = boundaries F n := by
      have := congrArg Clock.frame hc
      simp only [hfr, hw, hfs] at this
      rw [this]
      simp
    have hst : s.step_time = sim.step_time := by
      have := congrArg Clock.step_time hc
      simpa using this
    have hfs1 : s.frame_steps = F := by
      have := congrArg Clock.frame_steps hc
      simp only [hfs] at this
      exact this
    have hifs1 : s.init_frame_steps = 0 := by
      have := congrArg Clock.init_frame_steps hc
      simp only [hifs] at this
      exact this
    have hw1 : s.init_wait_frames = 0 := by
      have := congrArg Clock.init_wait_frames hc
      simp only [hw] at this
      rw [this]
      split_ifs <;> simp
    obtain ⟨_, _, _, _, _, _, hnext⟩ :=
      keyframe_track_inv E.keyframes F sim.time sim.step_time ob key N hact hcf hv hfiles hwin
        (n + 1) hn
    obtain ⟨a1, hget, hstill, htrack⟩ := hnext n rfl
    have hget' : (keyframe_track E.keyframes F sim.time sim.step_time n ob).get_mesh_at_frame
        E.keyframes (s.time + s.step_time) s.frame = Outcome.ret a1 := by
      rw [htime, hst, hframe]
      have e : sim.time + (n : ℚ) * sim.step_time + sim.step_time =
          sim.time + ((n + 1 : Nat) : ℚ) * sim.step_time := by
        push_cast
        ring
      rw [e]
      exact hget
    obtain ⟨s1, ha, ho1⟩ := advance_keyframe E s _ a1 hsn hifs1 hw1 hso hget' hstill
    have hrun1 : run E (n + 1) sim = Outcome.ret s1 := by
      show (run E n sim).bind id (fun sim => advance_step E sim) = Outcome.ret s1
      rw [hrun]
      simpa [Outcome.bind] using ha
    have hc1 := run_ret_toClock E (n + 1) sim s1 hrun1
    rw [after_steady_closed sim.toClock h0 hifs (n + 1)] at hc1
    refine ⟨s1, hrun1, ?_, ?_, ?_, ?_, ?_⟩
    · rw [ho1, hfs1, htrack]
      simp only [Int.cast_natCast]
    · rw [advance_step_ret_non_rigid E s s1 ha]; exact hsn
    · have := congrArg Clock.step hc1
      simpa using this
    · have := congrArg Clock.frame hc1
      simp only [hfr, hw, hfs] at this
      rw [this]
      simp
    · have := congrArg Clock.time hc1
      simpa using this

theorem keyframe_track_succ (files : KeyframeFiles) (F : Nat) (t0 dt : ℚ) (ob : Obstacle)
    (key : Nat → Mesh) (N : Nat)
    (hact : ob.activated = true) (hcf : ob.curr_frame = -1) (hv : ob.still)
    (hfiles : ∀ f : Nat,
      files (ob.base_path ++ ("body" ++ fmt_0d 4 (f : Int) ++ ".obj")) = some (key f))
    (hwin : ∀ n : Nat, n ≤ N →
      ob.start_time ≤ t0 + (n : ℚ) * dt ∧ t0 + (n : ℚ) * dt ≤ ob.end_time)
    (n : Nat) (hn : n + 1 ≤ N) :
    ((boundaries F n : Int) > (keyframe_track files F t0 dt n ob).curr_frame ∧
      keyframe_track files F t0 dt (n + 1) ob =
        ((keyframe_track files F t0 dt n ob).load (boundaries F n)
          (key (boundaries F n))).blend_with_next (1 / (F : ℚ))) ∨
    ((boundaries F n : Int) ≤ (keyframe_track files F t0 dt n ob).curr_frame ∧
      keyframe_track files F t0 dt (n + 1) ob =
        (keyframe_track files F t0 dt n ob).blend_with_next (1 / (F : ℚ))) := by
  obtain ⟨i1, _, i3, i4, i5, _, _⟩ :=
    keyframe_track_inv files F t0 dt ob key N hact hcf hv hfiles hwin n (Nat.le_of_succ_le hn)
  obtain ⟨w1, w2⟩ := hwin (n + 1) hn
  have hfile := hfiles (boundaries F n)
  rw [← i3] at hfile
  rw [← i4] at w1
  rw [← i5] at w2
  have hstep : keyframe_track files F t0 dt (n + 1) ob =
      ((keyframe_track files F t0 dt n ob).get_mesh_at_frame files
        (t0 + ((n + 1 : Nat) : ℚ) * dt) (boundaries F n)).state.blend_with_next
          (1 / (F : ℚ)) := rfl
  rcases get_mesh_at_frame_cases files _ _ (boundaries F n) key i1 w1 w2 hfile with
    ⟨hgt, hg⟩ | ⟨hle, hg⟩
  · exact Or.inl ⟨hgt, by rw [hstep, hg]; rfl⟩
  · exact Or.inr ⟨hle, by rw [hstep, hg]; rfl⟩

theorem keyframe_track_interval (files : KeyframeFiles) (F : Nat) (hF : 0 < F) (t0 dt : ℚ)
    (ob : Obstacle) (key : Nat → Mesh) (N : Nat)
    (hact : ob.activated = true) (hcf : ob.curr_frame = -1) (hv : ob.still)
    (hfiles : ∀ f : Nat,
      files (ob.base_path ++ ("body" ++ fmt_0d 4 (f : Int) ++ ".obj")) = some (key f))
    (hwin : ∀ n : Nat, n ≤ N →
      ob.start_time ≤ t0 + (n : ℚ) * dt ∧ t0 + (n : ℚ) * dt ≤ ob.end_time)
    (f : Nat) (hf : 1 ≤ f) (j : Nat) (hj1 : 1 ≤ j) (hjF : j ≤ F)
    (hN : (f - 1) * F + 1 + j ≤ N) :
    keyframe_track files F t0 dt ((f - 1) * F + 1 + j) ob =
        ((keyframe_track files F t0 dt ((f - 1) * F + 1) ob).load f (key f)).blend_with_next
          ((j : ℚ) / (F : ℚ)) ∧
      (keyframe_track files F t0 dt ((f - 1) * F + 1) ob).curr_frame = (f : Int) - 1 := by
  have hbase : (keyframe_track files F t0 dt ((f - 1) * F + 1) ob).curr_frame = (f : Int) - 1 := by
    obtain ⟨_, _, _, _, _, i6, _⟩ :=
      keyframe_track_inv files F t0 dt ob key N hact hcf hv hfiles hwin ((f - 1) * F + 1)
        (by omega)
    rw [i6]
    simp only [Nat.add_one_ne_zero, if_false, Nat.add_sub_cancel, boundaries_mul F hF]
    push_cast [Nat.cast_sub hf]
    ring
  refine ⟨?_, hbase⟩
  induction j with
  | zero => omega
  | succ j ih =>
    rcases Nat.eq_zero_or_pos j with hj0 | hjpos
    · subst hj0
      have hb : boundaries F ((f - 1) * F + 1) = f := by
        have := boundaries_closed F hF (f - 1) 0 hF
        simp only [Nat.add_zero] at this
        rw [this]
        omega
      rcases keyframe_track_succ files F t0 dt ob key N hact hcf hv hfiles hwin
          ((f - 1) * F + 1) (by omega) with ⟨_, h⟩ | ⟨hle, _⟩
      · show keyframe_track files F t0 dt ((f - 1) * F + 1 + 1) ob = _
        rw [h, hb]
        simp
      · rw [hb, hbase] at hle
        omega
    · have ihj := ih hjpos (by omega) (by omega)
      have hb : boundaries F ((f - 1) * F + 1 + j) = f := by
        have := boundaries_closed F hF (f - 1) j (by omega)
        have e : (f - 1) * F + 1 + j = (f - 1) * F + j + 1 := by omega
        rw [e, this]
        omega
      have hcur : (keyframe_track files F t0 dt ((f - 1) * F + 1 + j) ob).curr_frame = f := by
        rw [ihj]
        rfl
      rcases keyframe_track_succ files F t0 dt ob key N hact hcf hv hfiles hwin
          ((f - 1) * F + 1 + j) (by omega) with ⟨hgt, _⟩ | ⟨_, h⟩
      · rw [hb, hcur] at hgt
        omega
      · show keyframe_track files F t0 dt ((f - 1) * F + 1 + j + 1) ob = _
        rw [h, ihj, blend_with_next_add]
        congr 1
        push_cast
        ring

theorem blend_nodes_one_self (cs ns : List Node) (i : Nat) (c0 n0 : Node)
    (hc : cs[i]? = some c0) (hn : ns[i]? = some n0) :
    (blend_nodes 1 cs ns cs)[i]? = some { c0 with x := n0.x } := by
  rw [blend_nodes_getElem 1 cs ns cs i c0 n0 c0 hc hn hc]
  simp

theorem blend_nodes_one_positions (cs ns : List Node) (hl : ns.length = cs.length) :
    (blend_nodes 1 cs ns cs).map (fun n => n.x) = ns.map (fun n => n.x) := by
  apply List.ext_getElem?
  intro i
  by_cases hi : i < cs.length
  · have hc : cs[i]? = some cs[i] := List.getElem?_eq_getElem hi
    obtain ⟨n0, hn⟩ : ∃ n0, ns[i]? = some n0 :=
      ⟨_, List.getElem?_eq_getElem (by rw [hl]; exact hi)⟩
    simp only [List.getElem?_map]
    rw [blend_nodes_one_self cs ns i _ _ hc hn, hn]
    rfl
  · have h1 : ((blend_nodes 1 cs ns cs).map (fun n => n.x)).length ≤ i := by
      simp only [List.length_map, blend_nodes_length]
      exact not_lt.mp hi
    have h2 : (ns.map (fun n => n.x)).length ≤ i := by
      simp only [List.length_map, hl]
      exact not_lt.mp hi
    rw [List.getElem?_eq_none h1, List.getElem?_eq_none h2]

theorem keyframe_track_bounds (files : KeyframeFiles) (F : Nat) (t0 dt : ℚ) (ob : Obstacle)
    (key : Nat → Mesh) (N : Nat)
    (hact : ob.activated = true) (hcf : ob.curr_frame = -1) (hv : ob.still)
    (hfiles : ∀ f : Nat,
      files (ob.base_path ++ ("body" ++ fmt_0d 4 (f : Int) ++ ".obj")) = some (key f))
    (hwin : ∀ n : Nat, n ≤ N →
      ob.start_time ≤ t0 + (n : ℚ) * dt ∧ t0 + (n : ℚ) * dt ≤ ob.end_time)
    (hlen : ∀ f : Nat, ob.curr_state_mesh.nodes.length ≤ (key f).nodes.length)
    (n : Nat) (hn : n ≤ N) :
    (keyframe_track files F t0 dt n ob).curr_state_mesh.nodes.length =
        ob.curr_state_mesh.nodes.length ∧
      (1 ≤ n →
        (keyframe_track files F t0 dt n ob).cache_mesh.nodes.length =
            ob.curr_state_mesh.nodes.length ∧
          ob.curr_state_mesh.nodes.length ≤
            (keyframe_track files F t0 dt n ob).next_state_mesh.nodes.length) := by
  induction n with
  | zero => exact ⟨rfl, fun h => absurd h (by decide)⟩
  | succ n ih =>
    obtain ⟨ic, ib⟩ := ih (Nat.le_of_succ_le hn)
    rcases keyframe_track_succ files F t0 dt ob key N hact hcf hv hfiles hwin n hn with
      ⟨_, h⟩ | ⟨hle, h⟩
    · rw [h]
      refine ⟨?_, fun _ => ⟨?_, ?_⟩⟩
      · simp only [Obstacle.blend_with_next, Obstacle.load, blend_nodes_length]
        exact ic
      · simp only [Obstacle.blend_with_next, Obstacle.load, deep_copy]
        exact ic
      · simp only [Obstacle.blend_with_next, Obstacle.load]
        exact hlen _
    · rw [h]
      have hn1 : 1 ≤ n := by
        cases n with
        | zero =>
          simp only [boundaries, keyframe_track, hcf] at hle
          omega
        | succ k => omega
      obtain ⟨b1, b2⟩ := ib hn1
      refine ⟨?_, fun _ => ⟨?_, ?_⟩⟩
      · simp only [Obstacle.blend_with_next, blend_nodes_length]
        exact ic
      · simp only [Obstacle.blend_with_next]
        exact b1
      · simp only [Obstacle.blend_with_next]
        exact b2

theorem blend_nodes_one_take (cs ns : List Node) (hl : cs.length ≤ ns.length) :
    (blend_nodes 1 cs ns cs).map (fun n => n.x) = (ns.take cs.length).map (fun n => n.x) := by
  apply List.ext_getElem?
  intro i
  by_cases hi : i < cs.length
  · have hc : cs[i]? = some cs[i] := List.getElem?_eq_getElem hi
    obtain ⟨n0, hn⟩ : ∃ n0, ns[i]? = some n0 :=
      ⟨_, List.getElem?_eq_getElem (lt_of_lt_of_le hi hl)⟩
    simp only [List.getElem?_map, List.getElem?_take, hi, if_true]
    rw [blend_nodes_one_self cs ns i _ _ hc hn, hn]
    rfl
  · have h1 : ((blend_nodes 1 cs ns cs).map (fun n => n.x)).length ≤ i := by
      simp only [List.length_map, blend_nodes_length]
      exact not_lt.mp hi
    have h2 : ((ns.take cs.length).map (fun n => n.x)).length ≤ i := by
      simp only [List.length_map, List.length_take]
      exact le_trans (min_le_left _ _) (not_lt.mp hi)
    rw [List.getElem?_eq_none h1, List.getElem?_eq_none h2]

end Arcsim
